import Mathlib

set_option autoImplicit false

/-!
# nfcEinkCpp: framebuffer encoder and protocol codec

Shallow embedding of `src/include/protocol.hpp`, `src/src/protocol.cpp`,
`src/src/image.cpp`, `src/src/dither.cpp` (`nearest_color`, `dither_none`,
`dither_atkinson`), `src/src/transport_rcs380.cpp` (`build_frame`, `parse_frame`, the
frame scan of `send_command`, `send_apdu`, `_send_apdu_impl`, `open`,
`sense_and_activate_target` and the commands under them),
`src/src/transport_libnfc.cpp` (`send_apdu`) and `src/src/nfc_eink.cpp` (`send_image`,
`refresh`).

Conventions of the embedding:

* a C++ `int` is an `Int` (signed overflow is undefined behaviour in C++ and is
  not modelled); `/` on `int` is truncating division, `Int.tdiv`;
* a `uint8_t` is a `Nat` below 256; the cast `(uint8_t)x` is `x % 256`;
* a `size_t` is a `Nat`; where the source mixes `int` and `size_t` in one
  expression the conversion is written with an explicit `% 2 ^ 64`;
* `std::vector<T>` is `List T`; reading `v[i]` is `v.getD i d` (an access out
  of range is undefined behaviour in C++; the embedding reads the default);
* `compress_block` calls the external LZO library; the encoder takes it as a
  function parameter;
* a function that throws returns an `Except`; the card behind `in_comm_rf` is a
  script of replies, and every exchange with it is logged;
* the transport behind a session is an `NfcTransport` over a state; `traced` records
  the APDUs it is given and what it returns;
* `std::chrono::steady_clock::now()` is a list of readings in milliseconds, one per
  call; the sleeps between polls only move the clock and are not modelled;
* the `float` accumulators of `dither_atkinson` are rationals.
-/

namespace NfcEink

/-! ## protocol.hpp -/

/-- Device information parsed from the 00D1 response (`struct DeviceInfo`). -/
structure DeviceInfo where
  width : Int := 0
  height : Int := 0
  bits_per_pixel : Int := 0
  rows_per_block : Int := 0
  serial_number : List Nat := []
  c1 : List Nat := []
  raw : List Nat := []
  deriving Repr, DecidableEq

namespace DeviceInfo

/-- `int pixels_per_byte() const { return 8 / bits_per_pixel; }` -/
def pixels_per_byte (d : DeviceInfo) : Int := Int.tdiv 8 d.bits_per_pixel

/-- `int bytes_per_row() const { return width / pixels_per_byte(); }` -/
def bytes_per_row (d : DeviceInfo) : Int := Int.tdiv d.width d.pixels_per_byte

/-- `bool rotated() const { return width == 296 && height == 128; }` -/
def rotated (d : DeviceInfo) : Bool := d.width == 296 && d.height == 128

/-- `int fb_width() const { return rotated() ? height : width; }` -/
def fb_width (d : DeviceInfo) : Int := if d.rotated then d.height else d.width

/-- `int fb_height() const { return rotated() ? width : height; }` -/
def fb_height (d : DeviceInfo) : Int := if d.rotated then d.width else d.height

/-- `int fb_bytes_per_row() const { return fb_width() / pixels_per_byte(); }` -/
def fb_bytes_per_row (d : DeviceInfo) : Int := Int.tdiv d.fb_width d.pixels_per_byte

/-- `int fb_total_bytes() const { return fb_bytes_per_row() * fb_height(); }` -/
def fb_total_bytes (d : DeviceInfo) : Int := d.fb_bytes_per_row * d.fb_height

end DeviceInfo

/-- The `while (total > 0)` loop of `DeviceInfo::block_sizes`, started with the
local `total` at the given value: each round pushes `min(total, 2000)` and
subtracts it. -/
def block_sizes_loop (total : Int) : List Int :=
  if 0 < total then
    min total 2000 :: block_sizes_loop (total - min total 2000)
  else []
termination_by total.toNat
decreasing_by omega

/-- `std::vector<int> block_sizes() const` -/
def DeviceInfo.block_sizes (d : DeviceInfo) : List Int :=
  block_sizes_loop d.fb_total_bytes

/-- `int num_blocks() const { return (int)block_sizes().size(); }` -/
def DeviceInfo.num_blocks (d : DeviceInfo) : Int := (d.block_sizes.length : Int)

/-- APDU command tuple (`struct Apdu`); `le = -1` means no Le. -/
structure Apdu where
  cla : Nat
  ins : Nat
  p1 : Nat
  p2 : Nat
  data : List Nat
  has_data : Bool := true
  le : Int := -1
  deriving Repr, DecidableEq

/-- The cast `(uint8_t)x` of an `int`. -/
def u8 (x : Int) : Nat := (x % 256).toNat

/-! ## protocol.cpp -/

/-- `Apdu build_image_data_apdu(int block_no, int frag_no, data, bool is_final, int page)` -/
def build_image_data_apdu (block_no frag_no : Int) (data : List Nat) (is_final : Bool)
    (page : Int) : Apdu :=
  let payload : List Nat := [u8 block_no] ++ [u8 frag_no] ++ data
  let p2 : Nat := if is_final then 0x01 else 0x00
  { cla := 0xF0, ins := 0xD3, p1 := u8 page, p2 := p2, data := payload,
    has_data := true, le := -1 }

/-! ## image.cpp -/

/-- `static const int MAX_FRAGMENT_DATA = 250;` -/
def MAX_FRAGMENT_DATA : Nat := 250

/-- `std::vector<uint8_t> pack_row(const std::vector<int>& pixels, int bits_per_pixel)`.
The outer loop runs over `byte_idx`, the inner one folds `val |= ...` over `i`;
the assignment to the `uint8_t val` truncates to 8 bits. -/
def pack_row (pixels : List Int) (bits_per_pixel : Int) : List Nat :=
  let ppb : Int := Int.tdiv 8 bits_per_pixel
  let width : Int := (pixels.length : Int)
  let bytes_per_row : Int := Int.tdiv width ppb
  (List.range bytes_per_row.toNat).map fun (byte_idx : Nat) =>
    let pixel_offset : Int := (bytes_per_row - 1 - (byte_idx : Int)) * ppb
    (List.range ppb.toNat).foldl
      (fun (val : Nat) (i : Nat) =>
        (val ||| (u8 (pixels.getD (pixel_offset + (i : Int)).toNat 0)
                    <<< ((i : Int) * bits_per_pixel).toNat)) % 256)
      0

/-- `std::vector<uint8_t> pack_pixels(pixels, int bits_per_pixel)`: the packed
rows appended top to bottom. -/
def pack_pixels (pixels : List (List Int)) (bits_per_pixel : Int) : List Nat :=
  pixels.foldl (fun result row => result ++ pack_row row bits_per_pixel) []

/-- `rotate_cw90`: `rotated[r][c] = pixels[h - 1 - c][r]` for `r < w`, `c < h`,
with `h = pixels.size()` and `w = pixels[0].size()`. -/
def rotate_cw90 (pixels : List (List Int)) : List (List Int) :=
  let h : Nat := pixels.length
  let w : Nat := (pixels.getD 0 []).length
  (List.range w).map fun (r : Nat) =>
    (List.range h).map fun (c : Nat) => (pixels.getD (h - 1 - c) []).getD r 0

/-- The `for (int size : block_sizes)` loop of `split_blocks`, carrying `offset`.
`offset + size` is computed in `size_t`. -/
def split_blocks_loop (packed : List Nat) : List Int → Nat → List (List Nat)
  | [], _ => []
  | size :: rest, offset =>
    let end_ : Nat := min ((offset + (size % 2 ^ 64).toNat) % 2 ^ 64) packed.length
    (packed.drop offset).take (end_ - offset) :: split_blocks_loop packed rest end_

/-- `split_blocks(packed, block_sizes)` -/
def split_blocks (packed : List Nat) (block_sizes : List Int) : List (List Nat) :=
  split_blocks_loop packed block_sizes 0

/-- The `for (size_t i = 0; i < compressed.size(); i += MAX_FRAGMENT_DATA)` loop
of `make_fragments`, entered with the loop variable at `i`. -/
def make_fragments_loop (compressed : List Nat) (i : Nat) : List (List Nat) :=
  if i < compressed.length then
    (compressed.drop i).take (min (i + MAX_FRAGMENT_DATA) compressed.length - i)
      :: make_fragments_loop compressed (i + MAX_FRAGMENT_DATA)
  else []
termination_by compressed.length - i
decreasing_by simp only [MAX_FRAGMENT_DATA]; omega

/-- `make_fragments(compressed)` -/
def make_fragments (compressed : List Nat) : List (List Nat) :=
  make_fragments_loop compressed 0

/-- `encode_image(pixels, device_info)`, with `compress_block` (LZO1X-1, an
external library) as a parameter. -/
def encode_image (compress_block : List Nat → List Nat) (pixels : List (List Int))
    (device_info : DeviceInfo) : List (List Apdu) :=
  let bpp := device_info.bits_per_pixel
  let bsizes := device_info.block_sizes
  let effective_pixels := if device_info.rotated then rotate_cw90 pixels else pixels
  let packed := pack_pixels effective_pixels bpp
  let blocks := split_blocks packed bsizes
  (List.range blocks.length).map fun (block_no : Nat) =>
    let compressed := compress_block (blocks.getD block_no [])
    let fragments := make_fragments compressed
    (List.range fragments.length).map fun (frag_no : Nat) =>
      let is_final : Bool := frag_no == fragments.length - 1
      build_image_data_apdu (block_no : Int) (frag_no : Int) (fragments.getD frag_no [])
        is_final 0

/-- A rectangular grid of `H` rows and `W` columns. -/
def Rect (g : List (List Int)) (H W : Nat) : Prop :=
  g.length = H ∧ ∀ row ∈ g, row.length = W

instance (g : List (List Int)) (H W : Nat) : Decidable (Rect g H W) :=
  inferInstanceAs (Decidable (g.length = H ∧ ∀ row ∈ g, row.length = W))

/-- The unpacking the specification describes for `pack_row` (it is not part of
the source): reverse the byte order, then split every byte into `8 / b` fields
of `b` bits, least-significant field first. -/
def unpack_row (bytes : List Nat) (b : Nat) : List Int :=
  bytes.reverse.flatMap fun (byte : Nat) =>
    (List.range (8 / b)).map fun (i : Nat) => (((byte >>> (i * b)) % 2 ^ b : Nat) : Int)

/-- The inner loop of `encode_image`: the APDUs of block `block_no`, one per
fragment, the last one built with `is_final`. -/
def block_apdus (block_no : Nat) (fragments : List (List Nat)) : List Apdu :=
  (List.range fragments.length).map fun (frag_no : Nat) =>
    build_image_data_apdu (block_no : Int) (frag_no : Int) (fragments.getD frag_no [])
      (frag_no == fragments.length - 1) 0

/-- The blocks `encode_image` compresses: the packed (and, for a rotated panel,
rotated) frame cut by `block_sizes`. -/
def image_blocks (pixels : List (List Int)) (device_info : DeviceInfo) : List (List Nat) :=
  split_blocks
    (pack_pixels (if device_info.rotated then rotate_cw90 pixels else pixels)
      device_info.bits_per_pixel)
    device_info.block_sizes

/-! ## protocol.cpp: fixed commands, refresh status, device descriptor -/

/-- `Apdu build_auth_apdu()`: `{0x00, 0x20, 0x00, 0x01, {0x20, 0x09, 0x12, 0x10}, true, -1}` -/
def build_auth_apdu : Apdu :=
  { cla := 0x00, ins := 0x20, p1 := 0x00, p2 := 0x01, data := [0x20, 0x09, 0x12, 0x10],
    has_data := true, le := -1 }

/-- `Apdu build_device_info_apdu()`: `{0x00, 0xD1, 0x00, 0x00, {}, false, 256}` -/
def build_device_info_apdu : Apdu :=
  { cla := 0x00, ins := 0xD1, p1 := 0x00, p2 := 0x00, data := [], has_data := false,
    le := 256 }

/-- `Apdu build_refresh_apdu()`: `{0xF0, 0xD4, 0x85, 0x80, {}, false, 256}` -/
def build_refresh_apdu : Apdu :=
  { cla := 0xF0, ins := 0xD4, p1 := 0x85, p2 := 0x80, data := [], has_data := false,
    le := 256 }

/-- `Apdu build_poll_apdu()`: `{0xF0, 0xDE, 0x00, 0x00, {}, false, 1}` -/
def build_poll_apdu : Apdu :=
  { cla := 0xF0, ins := 0xDE, p1 := 0x00, p2 := 0x00, data := [], has_data := false,
    le := 1 }

/-- `bool is_refresh_complete(const std::vector<uint8_t>& response)` -/
def is_refresh_complete (response : List Nat) : Bool :=
  if response.isEmpty then false else response.getD 0 0 == 0x00

/-- The `std::map<uint8_t, std::vector<uint8_t>>` of `parse_tlv`, seen through
`find`: the value stored under a tag, if any. -/
abbrev TlvMap : Type := Nat → Option (List Nat)

/-- The empty map. -/
def TlvMap.empty : TlvMap := fun _ => none

/-- The assignment `result[tag] = value`. -/
def TlvMap.set (m : TlvMap) (tag : Nat) (value : List Nat) : TlvMap :=
  fun t => if t = tag then some value else m t

/-- The `while (i < data.size())` loop of `parse_tlv`, entered with the index at `i`
and the map built so far. -/
def parse_tlv_loop (data : List Nat) (i : Nat) (result : TlvMap) : TlvMap :=
  if i < data.length then
    if i + 1 ≥ data.length then result
    else if i + 2 + data.getD (i + 1) 0 > data.length then result
    else
      parse_tlv_loop data (i + 2 + data.getD (i + 1) 0)
        (result.set (data.getD i 0) ((data.drop (i + 2)).take (data.getD (i + 1) 0)))
  else result
termination_by data.length - i
decreasing_by omega

/-- `static std::map<uint8_t, std::vector<uint8_t>> parse_tlv(data)` -/
def parse_tlv (data : List Nat) : TlvMap :=
  parse_tlv_loop data 0 TlvMap.empty

/-- `COLOR_MODE_TO_BPP`: mode byte to bits per pixel, `{0x01, 1}` and `{0x07, 2}`. -/
def COLOR_MODE_TO_BPP (mode : Nat) : Option Int :=
  if mode = 0x01 then some 1 else if mode = 0x07 then some 2 else none

/-- The two `std::runtime_error`s `parse_device_info` throws. -/
inductive ParseError where
  /-- "Missing or invalid A0 tag in device info" -/
  | missing_or_invalid_a0
  /-- "Unknown color mode 0x.." -/
  | unknown_color_mode (mode : Nat)
  deriving DecidableEq, Repr

/-- `DeviceInfo parse_device_info(const std::vector<uint8_t>& data)` -/
def parse_device_info (data : List Nat) : Except ParseError DeviceInfo :=
  let tlv := parse_tlv data
  match tlv 0xA0 with
  | none => .error .missing_or_invalid_a0
  | some a0 =>
    if a0.length < 7 then .error .missing_or_invalid_a0
    else
      let color_mode : Nat := a0.getD 1 0
      let rows_per_block : Int := ((a0.getD 2 0 : Nat) : Int)
      let height_raw : Int := (((a0.getD 3 0 <<< 8) ||| a0.getD 4 0 : Nat) : Int)
      let width : Int := (((a0.getD 5 0 <<< 8) ||| a0.getD 6 0 : Nat) : Int)
      match COLOR_MODE_TO_BPP color_mode with
      | none => .error (.unknown_color_mode color_mode)
      | some bpp =>
        .ok { width := width, height := Int.tdiv height_raw bpp, bits_per_pixel := bpp,
              rows_per_block := rows_per_block, raw := data,
              serial_number := (tlv 0xC0).getD [], c1 := (tlv 0xC1).getD [] }

/-- The serialisation the specification pairs with `parse_tlv` (it is not part of
the source): the records `(tag u8, length u8, value[length])` one after another. -/
def serialize_tlv (records : List (Nat × List Nat)) : List Nat :=
  records.flatMap fun (r : Nat × List Nat) => [r.1 % 256, r.2.length % 256] ++ r.2

/-! ## transport_rcs380.cpp and transport_libnfc.cpp

The reader and the card are the environment. `in_comm_rf` is modelled by a script
of replies: the k-th call gets the k-th entry, `none` (or an exhausted script)
standing for a call that throws. Every call is recorded in a log with what it sent
and what came back. -/

/-- The `std::runtime_error`s of the two transports, and the one read of
`_send_apdu_impl` that can fall outside its vector. -/
inductive TransportError where
  /-- `in_comm_rf` (or `nfc_initiator_transceive_bytes`) failed -/
  | comm_error
  /-- "Not connected to a card" -/
  | not_connected
  /-- "Expected ACK R-block during ISO-DEP chaining" -/
  | expected_ack
  /-- "Empty APDU response" -/
  | empty_response
  /-- "APDU response too short" -/
  | too_short
  /-- "APDU error: SW=...." -/
  | apdu_status (sw1 sw2 : Nat)
  /-- `response[1]` read from a response of one byte (undefined behaviour) -/
  | undefined_read
  deriving DecidableEq, Repr

deriving instance DecidableEq for Except

/-- One call of `in_comm_rf`: the bytes sent, the timeout, and the reply. -/
structure Exchange where
  data : List Nat
  timeout_ms : Int
  reply : Option (List Nat)
  deriving DecidableEq, Repr

/-- The transport during an APDU exchange: the member `block_nr_`, the replies
the card is still to give, and the calls of `in_comm_rf` made so far. -/
structure Link where
  block_nr : Nat
  card : List (Option (List Nat))
  log : List Exchange
  deriving DecidableEq, Repr

/-- `in_comm_rf(data, timeout_ms)` as `_send_apdu_impl` sees it: the next reply of
the script, logged. -/
def in_comm_rf (data : List Nat) (timeout_ms : Int) (s : Link) : Option (List Nat) × Link :=
  match s.card with
  | [] => (none, { s with log := s.log ++ [⟨data, timeout_ms, none⟩] })
  | r :: rest => (r, { s with card := rest, log := s.log ++ [⟨data, timeout_ms, r⟩] })

/-- The loop `while (!response.empty() && (response[0] & 0xFE) == 0xF2)` of
`_send_apdu_impl`, which answers an S(WTX) with `{0xF2, response[1]}` and the
timeout `(response[1] & 0x3F) * 1000`. -/
def wtx_loop (response : List Nat) (s : Link) : Except TransportError (List Nat) × Link :=
  if response ≠ [] ∧ response.getD 0 0 &&& 0xFE = 0xF2 then
    match response[1]? with
    | none => (.error .undefined_read, s)
    | some b1 =>
      match h : in_comm_rf [0xF2, b1] (((b1 &&& 0x3F : Nat) : Int) * 1000) s with
      | (none, s1) => (.error .comm_error, s1)
      | (some r, s1) => wtx_loop r s1
  else (.ok response, s)
termination_by s.card.length
decreasing_by
  simp only [in_comm_rf] at h
  split at h
  · simp at h
  · rename_i hc
    simp only [Prod.mk.injEq] at h
    rw [← h.2, hc]
    simp

/-- `const int MIU = 253;` -/
def MIU : Nat := 253

/-- The loop `for (size_t offset = 0; offset < apdu_bytes.size(); offset += MIU)`
of `_send_apdu_impl`, entered at `offset` with the current `response`. The member
`block_nr_` is a `uint8_t` holding 0 or 1, so `block_nr_ ^= 1` needs no
truncation. -/
def send_iblocks (apdu_bytes : List Nat) (offset : Nat) (response : List Nat) (s : Link) :
    Except TransportError (List Nat) × Link :=
  if offset < apdu_bytes.length then
    let more : Bool := decide (apdu_bytes.length - offset > MIU)
    let chunk_end : Nat := min (offset + MIU) apdu_bytes.length
    let pcb : Nat := (if more then 0x12 else 0x02) ||| (s.block_nr &&& 0x01)
    let iblock : List Nat := [pcb] ++ (apdu_bytes.drop offset).take (chunk_end - offset)
    match in_comm_rf iblock 5000 s with
    | (none, s1) => (.error .comm_error, s1)
    | (some r, s1) =>
      match wtx_loop r s1 with
      | (.error e, s2) => (.error e, s2)
      | (.ok response, s2) =>
        if more then
          if response = [] ∨ response.getD 0 0 &&& 0xF6 ≠ 0xA2 then
            (.error .expected_ack, s2)
          else
            send_iblocks apdu_bytes (offset + MIU) response
              { s2 with block_nr := s2.block_nr ^^^ 1 }
        else
          send_iblocks apdu_bytes (offset + MIU) response s2
  else (.ok response, s)
termination_by apdu_bytes.length - offset
decreasing_by
  all_goals simp only [MIU]
  all_goals omega

/-- The loop `while (!response.empty() && (response[0] & 0x10))` of
`_send_apdu_impl`: acknowledge a chained I-block with `0xA2 | (block_nr_ & 0x01)`
and append the next response without its first byte. -/
def receive_chain (response : List Nat) (full_response : List Nat) (s : Link) :
    Except TransportError (List Nat) × Link :=
  if response ≠ [] ∧ response.getD 0 0 &&& 0x10 ≠ 0 then
    match h : in_comm_rf [0xA2 ||| (s.block_nr &&& 0x01)] 5000 s with
    | (none, s1) => (.error .comm_error, s1)
    | (some r, s1) =>
      if r ≠ [] then
        receive_chain r (full_response ++ r.drop 1) { s1 with block_nr := s1.block_nr ^^^ 1 }
      else receive_chain r full_response s1
  else (.ok full_response, s)
termination_by s.card.length
decreasing_by
  all_goals simp only [in_comm_rf] at h
  all_goals split at h
  all_goals first
    | (simp at h; done)
    | (rename_i hc
       simp only [Prod.mk.injEq] at h
       rw [← h.2, hc]
       simp)

/-- The part of `_send_apdu_impl` under the comment "Parse SW1/SW2": the
reassembled response to the result of the call. -/
def parse_sw (apdu_bytes : List Nat) (full_response : List Nat) :
    Except TransportError (List Nat) :=
  if full_response.length < 2 then
    if apdu_bytes.length ≥ 2 ∧ (apdu_bytes.getD 1 0 = 0xDE ∨ apdu_bytes.getD 1 0 = 0xD4) then
      .ok []
    else .error .too_short
  else
    let sw1 : Nat := full_response.getD (full_response.length - 2) 0
    let sw2 : Nat := full_response.getD (full_response.length - 1) 0
    if sw1 ≠ 0x90 ∨ sw2 ≠ 0x00 then
      if apdu_bytes.length ≥ 2 ∧ (apdu_bytes.getD 1 0 = 0xDE ∨ apdu_bytes.getD 1 0 = 0xD4) then
        .ok (full_response.take (full_response.length - 2))
      else .error (.apdu_status sw1 sw2)
    else .ok (full_response.take (full_response.length - 2))

/-- `Rcs380Transport::_send_apdu_impl(apdu_bytes)` -/
def send_apdu_impl (apdu_bytes : List Nat) (s : Link) :
    Except TransportError (List Nat) × Link :=
  match send_iblocks apdu_bytes 0 [] s with
  | (.error e, s1) => (.error e, s1)
  | (.ok response, s1) =>
    if response = [] then
      (.error .empty_response, { s1 with block_nr := s1.block_nr ^^^ 1 })
    else
      match receive_chain response (response.drop 1)
          { s1 with block_nr := s1.block_nr ^^^ 1 } with
      | (.error e, s3) => (.error e, s3)
      | (.ok full_response, s3) => (parse_sw apdu_bytes full_response, s3)

/-- The raw APDU bytes `Rcs380Transport::send_apdu` builds. -/
def rcs380_apdu_bytes (apdu : Apdu) : List Nat :=
  [apdu.cla, apdu.ins, apdu.p1, apdu.p2]
    ++ (if apdu.has_data ∧ apdu.data ≠ [] then [apdu.data.length % 256] ++ apdu.data else [])
    ++ (if 0 ≤ apdu.le then [u8 (if apdu.le = 256 then 0x00 else apdu.le)] else [])

/-- `Rcs380Transport::send_apdu(apdu)` -/
def Rcs380Transport.send_apdu (apdu : Apdu) (s : Link) :
    Except TransportError (List Nat) × Link :=
  send_apdu_impl (rcs380_apdu_bytes apdu) s

/-- The bytes `tx` `LibnfcTransport::send_apdu` builds. -/
def libnfc_tx (apdu : Apdu) : List Nat :=
  [apdu.cla, apdu.ins, apdu.p1, apdu.p2]
    ++ (if apdu.has_data ∧ apdu.data ≠ [] then [apdu.data.length % 256] ++ apdu.data else [])
    ++ (if 0 ≤ apdu.le then [u8 (if apdu.le = 256 then 0x00 else apdu.le)] else [])

/-- `LibnfcTransport::send_apdu(apdu)`: `connected` is `nfc_device_ != nullptr`, and
`rx` is what `nfc_initiator_transceive_bytes` gives for `tx`, `none` when it returns
a negative length, else the `rx_len` bytes received. -/
def LibnfcTransport.send_apdu (connected : Bool) (apdu : Apdu)
    (transceive : List Nat → Option (List Nat)) : Except TransportError (List Nat) :=
  if !connected then .error .not_connected
  else
    match transceive (libnfc_tx apdu) with
    | none => .error .comm_error
    | some rx =>
      if rx.length < 2 then
        if apdu.ins = 0xDE ∨ apdu.ins = 0xD4 then .ok [] else .error .too_short
      else
        let sw1 : Nat := rx.getD (rx.length - 2) 0
        let sw2 : Nat := rx.getD (rx.length - 1) 0
        if sw1 ≠ 0x90 ∨ sw2 ≠ 0x00 then
          if apdu.ins = 0xDE ∨ apdu.ins = 0xD4 then .ok (rx.take (rx.length - 2))
          else .error (.apdu_status sw1 sw2)
        else .ok (rx.take (rx.length - 2))

/-- `Rcs380Transport::build_frame(data)`; `len` is a `uint16_t`, `len_sum` and
`data_sum` are `uint8_t`. -/
def build_frame (data : List Nat) : List Nat :=
  let frame0 : List Nat := [0x00, 0x00, 0xFF, 0xFF, 0xFF]
  let len : Nat := data.length % 65536
  let frame1 : List Nat := frame0 ++ [len &&& 0xFF]
  let frame2 : List Nat := frame1 ++ [(len >>> 8) &&& 0xFF]
  let len_sum : Nat := ((256 - ((frame2.getD 5 0 + frame2.getD 6 0) &&& 0xFF)) &&& 0xFF) % 256
  let frame3 : List Nat := frame2 ++ [len_sum]
  let frame4 : List Nat := frame3 ++ data
  let data_sum : Nat :=
    (List.range (frame4.length - 8)).foldl
      (fun (acc : Nat) (k : Nat) => (acc + frame4.getD (8 + k) 0) % 256) 0
  frame4 ++ [((256 - data_sum) &&& 0xFF) % 256] ++ [0x00]

/-- The number of inbound chained blocks recorded in a log: the exchanges that sent
an R(ACK) (the single byte `0xA2` or `0xA3`) and were answered by a non-empty block. -/
def chained_blocks (log : List Exchange) : Nat :=
  (log.filter fun (e : Exchange) =>
    e.data.length == 1 && (e.data.getD 0 0 &&& 0xFE) == 0xA2
      && (match e.reply with
          | some (_ :: _) => true
          | _ => false)).length

/-- The number of I-blocks an APDU of `len` bytes goes out in: `ceil(len / 253)`. -/
def outbound_pieces (len : Nat) : Nat := (len + 252) / 253

/-! ## dither.hpp, dither.cpp -/

/-- RGB color (`struct Color { int r, g, b; }`). -/
structure Color where
  r : Int
  g : Int
  b : Int
  deriving DecidableEq, Repr

/-- `PALETTE_4COLOR`: black, white, yellow, red. -/
def PALETTE_4COLOR : List Color :=
  [⟨0, 0, 0⟩, ⟨255, 255, 255⟩, ⟨255, 255, 0⟩, ⟨255, 0, 0⟩]

/-- `INT32_MAX` -/
def INT32_MAX : Int := 2147483647

/-- `static int nearest_color(int r, int g, int b, const std::array<Color, 4>& palette)`:
the loop carries `(best_idx, best_dist)`. -/
def nearest_color (r g b : Int) (palette : List Color) : Int :=
  ((List.range palette.length).foldl
    (fun (best : Int × Int) (i : Nat) =>
      let dr : Int := r - (palette.getD i ⟨0, 0, 0⟩).r
      let dg : Int := g - (palette.getD i ⟨0, 0, 0⟩).g
      let db : Int := b - (palette.getD i ⟨0, 0, 0⟩).b
      let dist : Int := dr * dr + dg * dg + db * db
      if dist < best.2 then ((i : Int), dist) else best)
    ((0 : Int), INT32_MAX)).1

/-- `dither_none(rgb, width, height, palette)` -/
def dither_none (rgb : List Nat) (width height : Int) (palette : List Color) :
    List (List Int) :=
  (List.range height.toNat).map fun (y : Nat) =>
    (List.range width.toNat).map fun (x : Nat) =>
      let idx : Int := ((y : Int) * width + (x : Int)) * 3
      nearest_color ((rgb.getD idx.toNat 0 : Nat) : Int) ((rgb.getD (idx + 1).toNat 0 : Nat) : Int)
        ((rgb.getD (idx + 2).toNat 0 : Nat) : Int) palette

/-- The squared Euclidean distance in RGB between a pixel and a palette entry. -/
def sq_dist (r g b : Int) (c : Color) : Int :=
  (r - c.r) * (r - c.r) + (g - c.g) * (g - c.g) + (b - c.b) * (b - c.b)

/-! ## transport_rcs380.cpp: received frames -/

/-- `ACK_FRAME` -/
def ACK_FRAME : List Nat := [0x00, 0x00, 0xFF, 0x00, 0xFF, 0x00]

/-- `Rcs380Transport::parse_frame(frame)` -/
def parse_frame (frame : List Nat) : List Nat :=
  if frame.length ≥ 6 ∧ frame.getD 0 0 = 0x00 ∧ frame.getD 1 0 = 0x00
      ∧ frame.getD 2 0 = 0xFF then
    if frame.getD 3 0 = 0x00 ∧ frame.getD 4 0 = 0xFF ∧ frame.getD 5 0 = 0x00 then []
    else if frame.getD 3 0 = 0xFF ∧ frame.getD 4 0 = 0xFF ∧ frame.length ≥ 8 then
      if frame.length ≥ 8 + (frame.getD 5 0 ||| (frame.getD 6 0 <<< 8)) % 65536 then
        (frame.drop 8).take ((frame.getD 5 0 ||| (frame.getD 6 0 <<< 8)) % 65536)
      else []
    else []
  else []

/-- `std::search(buffer.begin(), buffer.end(), ACK_FRAME, ACK_FRAME + 3)` as an
index: the first position where `00 00 FF` starts, or the length of the buffer when
there is none. -/
def search_start : List Nat → Nat
  | [] => 0
  | b :: rest => if (b :: rest).take 3 = [0x00, 0x00, 0xFF] then 0 else 1 + search_start rest

/-- The loop `while (buffer.size() >= 6)` of `send_command`, "Process buffer for
frames": the response body when a data frame answering `cmd_code` is found, and the
bytes left in the buffer. `cmd_code + 1` is an `int`. -/
def scan_buffer (cmd_code : Nat) (buffer : List Nat) : Option (List Nat) × List Nat :=
  if buffer.length ≥ 6 then
    let it : Nat := search_start buffer
    if it = buffer.length then
      (none, if buffer.length > 1024 then [] else buffer)
    else
      let buffer1 : List Nat := buffer.drop it
      if buffer1.length < 6 then (none, buffer1)
      else if buffer1.getD 3 0 = 0x00 ∧ buffer1.getD 4 0 = 0xFF ∧ buffer1.getD 5 0 = 0x00 then
        scan_buffer cmd_code (buffer1.drop 6)
      else if buffer1.length ≥ 10 ∧ buffer1.getD 3 0 = 0xFF ∧ buffer1.getD 4 0 = 0xFF then
        let len : Nat := (buffer1.getD 5 0 ||| (buffer1.getD 6 0 <<< 8)) % 65536
        if buffer1.length ≥ 10 + len then
          let rsp : List Nat := parse_frame (buffer1.take (10 + len))
          if rsp.length ≥ 2 ∧ rsp.getD 0 0 = 0xD7 ∧ rsp.getD 1 0 = cmd_code + 1 then
            (some (rsp.drop 2), buffer1.drop (10 + len))
          else scan_buffer cmd_code (buffer1.drop (10 + len))
        else (none, buffer1)
      else scan_buffer cmd_code (buffer1.drop 1)
  else (none, buffer)
termination_by buffer.length
decreasing_by
  all_goals simp only [List.length_drop]
  all_goals omega

/-- A frame as `build_frame` lays it out, with the two checksum bytes and the
postamble left free: `00 00 FF FF FF`, the little-endian length of `payload`, `lcs`,
`payload`, `dcs`, `post`. -/
def data_frame (payload : List Nat) (lcs dcs post : Nat) : List Nat :=
  [0x00, 0x00, 0xFF, 0xFF, 0xFF, payload.length % 256, payload.length / 256 % 256, lcs]
    ++ payload ++ [dcs, post]

/-- No `00 00 FF` starts anywhere in `g`. -/
def prefix_free (g : List Nat) : Prop :=
  ∀ i : Nat, (g.drop i).take 3 ≠ [0x00, 0x00, 0xFF]

/-! ## nfc_transport.hpp, nfc_eink.cpp: the session -/

/-- `class NfcTransport`, reduced to `send_apdu`: a transport with state `T` takes an
APDU and returns the response body or fails. -/
structure NfcTransport (T : Type) where
  send_apdu : Apdu → T → Except TransportError (List Nat) × T

/-- A transport observed from outside: every call of `send_apdu` is recorded with
the APDU it was given and what it returned. -/
def traced {T : Type} (tr : NfcTransport T) :
    NfcTransport (T × List (Apdu × Except TransportError (List Nat))) :=
  { send_apdu := fun apdu st =>
      ((tr.send_apdu apdu st.1).1,
        ((tr.send_apdu apdu st.1).2, st.2 ++ [(apdu, (tr.send_apdu apdu st.1).1)])) }

/-- A transport that answers from a list of prepared results, one per call. -/
def scripted : NfcTransport (List (Except TransportError (List Nat))) :=
  { send_apdu := fun _ script =>
      match script with
      | [] => (.error .comm_error, [])
      | r :: rest => (r, rest) }

/-- The loop `for (const auto& apdu : block_apdus)` of `send_image`; an exception of
`send_apdu` ends it. -/
def send_block {T : Type} (tr : NfcTransport T) :
    List Apdu → T → Except TransportError Unit × T
  | [], t => (.ok (), t)
  | apdu :: rest, t =>
    match tr.send_apdu apdu t with
    | (.error e, t1) => (.error e, t1)
    | (.ok _, t1) => send_block tr rest t1

/-- The loop `for (const auto& block_apdus : all_apdus)` of `send_image`. -/
def send_all_blocks {T : Type} (tr : NfcTransport T) :
    List (List Apdu) → T → Except TransportError Unit × T
  | [], t => (.ok (), t)
  | block :: rest, t =>
    match send_block tr block t with
    | (.error e, t1) => (.error e, t1)
    | (.ok _, t1) => send_all_blocks tr rest t1

/-- `NfcEinkCard::send_image(pixels)` for a session holding `device_info` and the
transport `tr` in state `t`. -/
def NfcEinkCard.send_image {T : Type} (tr : NfcTransport T)
    (compress_block : List Nat → List Nat) (device_info : DeviceInfo)
    (pixels : List (List Int)) (t : T) : Except TransportError Unit × T :=
  send_all_blocks tr (encode_image compress_block pixels device_info) t

/-- What `refresh` throws: an error of the transport on the refresh APDU, or
"Screen refresh timed out". -/
inductive SessionError where
  | transport (e : TransportError)
  | refresh_timed_out
  deriving DecidableEq, Repr

/-- The loop `while (std::chrono::steady_clock::now() < deadline)` of `refresh`.
The clock is the list of the readings `now()` gives, one per test of the loop
condition, in milliseconds; a clock with no reading left has passed the deadline. -/
def poll_loop {T : Type} (tr : NfcTransport T) (deadline : Int) :
    List Int → T → Except SessionError Unit × T
  | [], t => (.error .refresh_timed_out, t)
  | now :: later, t =>
    if now < deadline then
      match tr.send_apdu build_poll_apdu t with
      | (.ok response, t1) =>
        if is_refresh_complete response then (.ok (), t1) else poll_loop tr deadline later t1
      | (.error _, t1) => poll_loop tr deadline later t1
    else (.error .refresh_timed_out, t)

/-- `NfcEinkCard::refresh(timeout, poll_interval)`: `timeout_ms` is
`static_cast<int>(timeout * 1000)`, and the first reading of the clock is the one the
deadline is computed from. -/
def NfcEinkCard.refresh {T : Type} (tr : NfcTransport T) (timeout_ms : Int)
    (clock : List Int) (t : T) : Except SessionError Unit × T :=
  match tr.send_apdu build_refresh_apdu t with
  | (.error e, t1) => (.error (.transport e), t1)
  | (.ok _, t1) =>
    match clock with
    | [] => (.error .refresh_timed_out, t1)
    | now :: later => poll_loop tr (now + timeout_ms) later t1

/-! ## dither.cpp: Atkinson error diffusion

The `float` accumulators are rationals: the arithmetic on them is exact. -/

/-- `std::round`: to the nearest integer, halves away from zero. -/
def cpp_round (x : ℚ) : Int := if 0 ≤ x then ⌊x + 1 / 2⌋ else -⌊-x + 1 / 2⌋

/-- `std::clamp(v, lo, hi)` -/
def clamp (v lo hi : Int) : Int := if v < lo then lo else if hi < v then hi else v

/-- The update `m[y][x] += v`. -/
def grid_add (m : List (List ℚ)) (y x : Nat) (v : ℚ) : List (List ℚ) :=
  m.set y ((m.getD y []).set x ((m.getD y []).getD x 0 + v))

/-- The assignment `result[y][x] = idx`. -/
def grid_set (m : List (List Int)) (y x : Nat) (idx : Int) : List (List Int) :=
  m.set y ((m.getD y []).set x idx)

/-- The three accumulators and the result grid of `dither_atkinson`. -/
structure DitherState where
  err_r : List (List ℚ)
  err_g : List (List ℚ)
  err_b : List (List ℚ)
  result : List (List Int)

/-- `offsets` of the lambda `distribute`. -/
def ATKINSON_OFFSETS : List (Int × Int) := [(1, 0), (2, 0), (-1, 1), (0, 1), (1, 1), (0, 2)]

/-- The lambda `distribute(x, y, er, eg, eb)` of `dither_atkinson`, with
`coeff = 1.0f / 8.0f`. -/
def distribute (width height : Int) (x y : Int) (er eg eb : ℚ) (st : DitherState) :
    DitherState :=
  ATKINSON_OFFSETS.foldl
    (fun (s : DitherState) (off : Int × Int) =>
      let nx : Int := x + off.1
      let ny : Int := y + off.2
      if 0 ≤ nx ∧ nx < width ∧ 0 ≤ ny ∧ ny < height then
        { s with err_r := grid_add s.err_r ny.toNat nx.toNat (er * (1 / 8)),
                 err_g := grid_add s.err_g ny.toNat nx.toNat (eg * (1 / 8)),
                 err_b := grid_add s.err_b ny.toNat nx.toNat (eb * (1 / 8)) }
      else s)
    st

/-- The body of the scan loops of `dither_atkinson` at `(x, y)`. -/
def dither_pixel (width height : Int) (palette : List Color) (st : DitherState)
    (y x : Nat) : DitherState :=
  let r : Int := clamp (cpp_round ((st.err_r.getD y []).getD x 0)) 0 255
  let g : Int := clamp (cpp_round ((st.err_g.getD y []).getD x 0)) 0 255
  let b : Int := clamp (cpp_round ((st.err_b.getD y []).getD x 0)) 0 255
  let idx : Int := nearest_color r g b palette
  let er : ℚ := (r : ℚ) - ((palette.getD idx.toNat ⟨0, 0, 0⟩).r : ℚ)
  let eg : ℚ := (g : ℚ) - ((palette.getD idx.toNat ⟨0, 0, 0⟩).g : ℚ)
  let eb : ℚ := (b : ℚ) - ((palette.getD idx.toNat ⟨0, 0, 0⟩).b : ℚ)
  distribute width height (x : Int) (y : Int) er eg eb
    { st with result := grid_set st.result y x idx }

/-- The channel `c` of the source image as the initial accumulator:
`err[y][x] = rgb[(y * width + x) * 3 + c]`. -/
def source_channel (rgb : List Nat) (width height : Int) (c : Nat) : List (List ℚ) :=
  (List.range height.toNat).map fun (y : Nat) =>
    (List.range width.toNat).map fun (x : Nat) =>
      ((rgb.getD ((((y : Int) * width + (x : Int)) * 3).toNat + c) 0 : Nat) : ℚ)

/-- `dither_atkinson(rgb, width, height, palette)` with the accumulators it ends
with. -/
def dither_atkinson_run (rgb : List Nat) (width height : Int) (palette : List Color) :
    DitherState :=
  (List.range height.toNat).foldl
    (fun (st : DitherState) (y : Nat) =>
      (List.range width.toNat).foldl
        (fun (st1 : DitherState) (x : Nat) => dither_pixel width height palette st1 y x) st)
    { err_r := source_channel rgb width height 0,
      err_g := source_channel rgb width height 1,
      err_b := source_channel rgb width height 2,
      result := List.replicate height.toNat (List.replicate width.toNat 0) }

/-- `dither_atkinson(rgb, width, height, palette)` -/
def dither_atkinson (rgb : List Nat) (width height : Int) (palette : List Color) :
    List (List Int) :=
  (dither_atkinson_run rgb width height palette).result

/-- The pixel `k` of an RGB buffer is the palette entry `i`. -/
def pixel_is (rgb : List Nat) (palette : List Color) (k i : Nat) : Prop :=
  ((rgb.getD (3 * k) 0 : Nat) : Int) = (palette.getD i ⟨0, 0, 0⟩).r
    ∧ ((rgb.getD (3 * k + 1) 0 : Nat) : Int) = (palette.getD i ⟨0, 0, 0⟩).g
    ∧ ((rgb.getD (3 * k + 2) 0 : Nat) : Int) = (palette.getD i ⟨0, 0, 0⟩).b

/-- What `refresh` makes of one recorded poll: complete when the transport returned a
response that satisfies `is_refresh_complete`, not complete when it returned anything
else or failed. -/
def poll_complete (r : Except TransportError (List Nat)) : Bool :=
  match r with
  | .ok response => is_refresh_complete response
  | .error _ => false

/-- The palette index `nearest_color` gives the source pixel at `(x, y)` of an image
`W` pixels wide. -/
def source_index (rgb : List Nat) (W : Nat) (palette : List Color) (y x : Nat) : Int :=
  nearest_color ((rgb.getD (3 * (y * W + x)) 0 : Nat) : Int)
    ((rgb.getD (3 * (y * W + x) + 1) 0 : Nat) : Int)
    ((rgb.getD (3 * (y * W + x) + 2) 0 : Nat) : Int) palette

/-! ## transport_rcs380.cpp: send_command over several reads -/

/-- The loop `while (now() < deadline)` of `send_command` after the command was
written: `reads` are the chunks `usb_read` returns one after another (a read that
times out is an empty chunk), each appended to the buffer before the frame scan runs.
Running out of chunks stands for the deadline, "Timeout waiting for RC-S380 command
response". -/
def send_command_reads (cmd_code : Nat) : List (List Nat) → List Nat → Option (List Nat)
  | [], _ => none
  | raw :: later, buffer =>
    match scan_buffer cmd_code (buffer ++ raw) with
    | (some body, _) => some body
    | (none, buffer1) => send_command_reads cmd_code later buffer1

/-! ## protocol.cpp: parse_tlv with checked reads -/

/-- The loop of `parse_tlv` with every read of `data` checked against its bounds:
`none` when an index is out of range, where the C++ code would have undefined
behaviour. -/
def parse_tlv_loop_checked (data : List Nat) (i : Nat) (result : TlvMap) : Option TlvMap :=
  if i < data.length then
    match data[i]? with
    | none => none
    | some tag =>
      if i + 1 ≥ data.length then some result
      else
        match data[i + 1]? with
        | none => none
        | some len =>
          if i + 2 + len > data.length then some result
          else
            parse_tlv_loop_checked data (i + 2 + len)
              (result.set tag ((data.drop (i + 2)).take len))
  else some result
termination_by data.length - i
decreasing_by omega

/-- `parse_tlv(data)` with checked reads. -/
def parse_tlv_checked (data : List Nat) : Option TlvMap :=
  parse_tlv_loop_checked data 0 TlvMap.empty

/-! ## transport_rcs380.cpp: open

The reader is the environment: `send_command` is modelled by a script of replies, one
per command, `none` (or an exhausted script) standing for a command that throws. -/

/-- What the functions under `open` throw. -/
inductive ReaderError where
  /-- "RC-S380 not found", "USB write failed" and the other failures of the USB layer -/
  | usb_failed
  /-- "Timeout waiting for RC-S380 command response" -/
  | command_timeout
  /-- "set_command_type failed", "switch_rf failed", "in_set_rf failed",
  "in_set_protocol failed": the command code tells which -/
  | command_failed (cmd_code : Nat)
  /-- "in_comm_rf communication error" -/
  | comm_error
  /-- "Card does not support ISO14443-4" -/
  | no_iso_dep
  /-- "RATS failed" -/
  | rats_failed
  /-- "No NFC card detected" -/
  | no_card
  deriving DecidableEq, Repr

/-- The transport as `open` sees it: the member `block_nr_`, the replies the reader
will give to the commands to come, and the commands sent so far. -/
structure Reader where
  block_nr : Nat
  replies : List (Option (List Nat))
  sent : List (Nat × List Nat)
  deriving DecidableEq, Repr

/-- `send_command(cmd_code, cmd_data)` as its callers see it: the next reply of the
script, or a timeout. -/
def Reader.send_command (cmd_code : Nat) (cmd_data : List Nat) (s : Reader) :
    Except ReaderError (List Nat) × Reader :=
  match s.replies with
  | [] => (.error .command_timeout, { s with sent := s.sent ++ [(cmd_code, cmd_data)] })
  | none :: rest =>
    (.error .command_timeout, { s with replies := rest, sent := s.sent ++ [(cmd_code, cmd_data)] })
  | some r :: rest =>
    (.ok r, { s with replies := rest, sent := s.sent ++ [(cmd_code, cmd_data)] })

/-- The shape shared by `set_command_type`, `switch_rf`, `in_set_rf` and
`in_set_protocol`: send the command, throw when the reply starts with a non-zero
byte. -/
def Reader.checked_command (cmd_code : Nat) (cmd_data : List Nat) (s : Reader) :
    Except ReaderError Unit × Reader :=
  match Reader.send_command cmd_code cmd_data s with
  | (.error e, s1) => (.error e, s1)
  | (.ok data, s1) =>
    if data ≠ [] ∧ data.getD 0 0 ≠ 0 then (.error (.command_failed cmd_code), s1)
    else (.ok (), s1)

/-- `void Rcs380Transport::set_command_type(uint8_t type)` -/
def set_command_type (type : Nat) (s : Reader) : Except ReaderError Unit × Reader :=
  Reader.checked_command 0x2A [type] s

/-- `void Rcs380Transport::get_firmware_version()`; the version is only printed. -/
def get_firmware_version (s : Reader) : Except ReaderError Unit × Reader :=
  match Reader.send_command 0x20 [] s with
  | (.error e, s1) => (.error e, s1)
  | (.ok _, s1) => (.ok (), s1)

/-- `void Rcs380Transport::switch_rf(bool on)` -/
def switch_rf (rf_on : Bool) (s : Reader) : Except ReaderError Unit × Reader :=
  Reader.checked_command 0x06 [if rf_on then 1 else 0] s

/-- `void Rcs380Transport::in_set_rf(settings)` -/
def in_set_rf (settings : List Nat) (s : Reader) : Except ReaderError Unit × Reader :=
  Reader.checked_command 0x00 settings s

/-- `void Rcs380Transport::in_set_protocol(data)` -/
def in_set_protocol (data : List Nat) (s : Reader) : Except ReaderError Unit × Reader :=
  if data = [] then (.ok (), s) else Reader.checked_command 0x02 data s

/-- `IN_SET_PROTOCOL_DEFAULTS` -/
def IN_SET_PROTOCOL_DEFAULTS : List Nat :=
  [0x00, 0x18, 0x01, 0x01, 0x02, 0x01, 0x03, 0x00,
   0x04, 0x00, 0x05, 0x00, 0x06, 0x00, 0x07, 0x08,
   0x08, 0x00, 0x09, 0x00, 0x0A, 0x00, 0x0B, 0x00,
   0x0C, 0x00, 0x0E, 0x04, 0x0F, 0x00, 0x10, 0x00,
   0x11, 0x00, 0x12, 0x00, 0x13, 0x06]

/-- `Rcs380Transport::in_comm_rf(data, timeout_ms)` on top of `send_command`;
`timeout` is a `uint16_t`. -/
def Reader.in_comm_rf (data : List Nat) (timeout_ms : Int) (s : Reader) :
    Except ReaderError (List Nat) × Reader :=
  let timeout : Nat := ((min ((timeout_ms + 1) * 10) 0xFFFF) % 65536).toNat
  match Reader.send_command 0x04 ([timeout &&& 0xFF, (timeout >>> 8) &&& 0xFF] ++ data) s with
  | (.error e, s1) => (.error e, s1)
  | (.ok result, s1) =>
    if result.length ≥ 4 ∧ (result.getD 0 0 ≠ 0 ∨ result.getD 1 0 ≠ 0
        ∨ result.getD 2 0 ≠ 0 ∨ result.getD 3 0 ≠ 0) then (.error .comm_error, s1)
    else if result.length > 5 then (.ok (result.drop 5), s1)
    else (.ok [], s1)

/-- The loop `for (uint8_t sel_cmd : {0x93, 0x95, 0x97})` of
`sense_and_activate_target`, carrying `sak`: `none` is `return false`, `some sak` is the
loop left by `break` or by running out of cascade levels. -/
def select_loop : List Nat → Nat → Reader → Except ReaderError (Option Nat) × Reader
  | [], sak, s => (.ok (some sak), s)
  | sel_cmd :: more, _, s =>
    match in_set_protocol [0x01, 0x00, 0x02, 0x00] s with
    | (.error e, s1) => (.error e, s1)
    | (.ok _, s1) =>
      match Reader.in_comm_rf [sel_cmd, 0x20] 30 s1 with
      | (.error _, s2) => (.ok none, s2)
      | (.ok sdd_res, s2) =>
        if sdd_res.length < 5 then (.ok none, s2)
        else
          match in_set_protocol [0x01, 0x01, 0x02, 0x01] s2 with
          | (.error e, s3) => (.error e, s3)
          | (.ok _, s3) =>
            match Reader.in_comm_rf ([sel_cmd, 0x70] ++ sdd_res) 30 s3 with
            | (.error _, s4) => (.ok none, s4)
            | (.ok sel_res, s4) =>
              if sel_res = [] then (.ok none, s4)
              else if sel_res.getD 0 0 &&& 0x04 = 0 then (.ok (some (sel_res.getD 0 0)), s4)
              else select_loop more (sel_res.getD 0 0) s4

/-- `bool Rcs380Transport::sense_and_activate_target()`; the ATS is only printed. -/
def sense_and_activate_target (s : Reader) : Except ReaderError Bool × Reader :=
  match in_set_rf [0x02, 0x03, 0x0F, 0x03] s with
  | (.error e, s1) => (.error e, s1)
  | (.ok _, s1) =>
    match in_set_protocol IN_SET_PROTOCOL_DEFAULTS s1 with
    | (.error e, s2) => (.error e, s2)
    | (.ok _, s2) =>
      match in_set_protocol [0x00, 0x06, 0x01, 0x00, 0x02, 0x00, 0x05, 0x01, 0x07, 0x07] s2 with
      | (.error e, s3) => (.error e, s3)
      | (.ok _, s3) =>
        match Reader.in_comm_rf [0x26] 30 s3 with
        | (.error _, s4) => (.ok false, s4)
        | (.ok sens_res, s4) =>
          if sens_res.length ≠ 2 then (.ok false, s4)
          else
            match in_set_protocol [0x07, 0x08, 0x04, 0x01] s4 with
            | (.error e, s5) => (.error e, s5)
            | (.ok _, s5) =>
              match select_loop [0x93, 0x95, 0x97] 0 s5 with
              | (.error e, s6) => (.error e, s6)
              | (.ok none, s6) => (.ok false, s6)
              | (.ok (some sak), s6) =>
                if sak &&& 0x20 = 0 then (.error .no_iso_dep, s6)
                else
                  match Reader.in_comm_rf [0xE0, 0x80] 30 s6 with
                  | (.error e, s7) => (.error e, s7)
                  | (.ok ats, s7) =>
                    if ats = [] then (.error .rats_failed, s7) else (.ok true, s7)

/-- The loop `for (int i = 0; i < 100; i++)` of `open` with `attempts` rounds left; the
200 ms sleep between rounds is not modelled. -/
def open_loop : Nat → Reader → Except ReaderError Unit × Reader
  | 0, s => (.error .no_card, s)
  | attempts + 1, s =>
    match switch_rf true s with
    | (.error e, s1) => (.error e, s1)
    | (.ok _, s1) =>
      match sense_and_activate_target s1 with
      | (.ok true, s2) => (.ok (), s2)
      | (_, s2) =>
        match switch_rf false s2 with
        | (.error e, s3) => (.error e, s3)
        | (.ok _, s3) => open_loop attempts s3

/-- `void Rcs380Transport::open()`. `usb_ok` says whether `usb_open()` and the write of
the ACK frame succeed; the reads that drain the reader before the first command are
below the level of the command script. -/
def Rcs380Transport.open (usb_ok : Bool) (s : Reader) : Except ReaderError Unit × Reader :=
  if usb_ok then
    match set_command_type 1 s with
    | (.error e, s1) => (.error e, s1)
    | (.ok _, s1) =>
      match get_firmware_version s1 with
      | (.error e, s2) => (.error e, s2)
      | (.ok _, s2) =>
        match switch_rf false s2 with
        | (.error e, s3) => (.error e, s3)
        | (.ok _, s3) => open_loop 100 s3
  else (.error .usb_failed, s)

/-! ## dither.cpp: one step of the Atkinson scan -/

/-- An accumulator grid of `H` rows and `W` columns. -/
def QRect (m : List (List ℚ)) (H W : Nat) : Prop :=
  m.length = H ∧ ∀ row ∈ m, row.length = W

/-- The accumulator entry `err[y][x]`. -/
def acc_at (m : List (List ℚ)) (y x : Nat) : ℚ := (m.getD y []).getD x 0

/-- `std::clamp((int)std::round(err[y][x]), 0, 255)`: the channel value
`dither_atkinson` quantizes at `(x, y)`. -/
def quantized (m : List (List ℚ)) (y x : Nat) : Int :=
  clamp (cpp_round ((m.getD y []).getD x 0)) 0 255

/-- The palette index `dither_atkinson` chooses at `(x, y)` in state `st`. -/
def pixel_choice (palette : List Color) (st : DitherState) (y x : Nat) : Int :=
  nearest_color (quantized st.err_r y x) (quantized st.err_g y x) (quantized st.err_b y x)
    palette

/-- The per-channel error `dither_atkinson` diffuses at `(x, y)` in state `st`:
`(float)r - palette[idx].r` and its green and blue counterparts, `r` being the
quantized channel value. -/
def pixel_error (palette : List Color) (st : DitherState) (y x : Nat) : ℚ × ℚ × ℚ :=
  (((quantized st.err_r y x : Int) : ℚ)
      - (((palette.getD (pixel_choice palette st y x).toNat ⟨0, 0, 0⟩).r : Int) : ℚ),
    ((quantized st.err_g y x : Int) : ℚ)
      - (((palette.getD (pixel_choice palette st y x).toNat ⟨0, 0, 0⟩).g : Int) : ℚ),
    ((quantized st.err_b y x : Int) : ℚ)
      - (((palette.getD (pixel_choice palette st y x).toNat ⟨0, 0, 0⟩).b : Int) : ℚ))

/-- The state in which `dither_atkinson` starts on an image. -/
def dither_start (rgb : List Nat) (width height : Int) : DitherState :=
  { err_r := source_channel rgb width height 0,
    err_g := source_channel rgb width height 1,
    err_b := source_channel rgb width height 2,
    result := List.replicate height.toNat (List.replicate width.toNat 0) }

/-! ## Block sizes -/

theorem block_sizes_loop_nonpos (T : Int) (h : T ≤ 0) : block_sizes_loop T = [] := by
  rw [block_sizes_loop]
  simp [not_lt.mpr h]

theorem block_sizes_loop_small (r : Int) (h1 : 1 ≤ r) (h2 : r ≤ 2000) :
    block_sizes_loop r = [r] := by
  rw [block_sizes_loop]
  have hpos : 0 < r := by omega
  simp only [hpos, if_true, min_eq_left h2, sub_self]
  rw [block_sizes_loop_nonpos 0 le_rfl]

theorem block_sizes_loop_closed (k : Nat) (r : Int) (h1 : 1 ≤ r) (h2 : r ≤ 2000) :
    block_sizes_loop (2000 * (k : Int) + r) = List.replicate k 2000 ++ [r] := by
  induction k with
  | zero => simpa using block_sizes_loop_small r h1 h2
  | succ k ih =>
    rw [block_sizes_loop]
    have hpos : 0 < 2000 * ((k + 1 : Nat) : Int) + r := by push_cast; omega
    have hmin : min (2000 * ((k + 1 : Nat) : Int) + r) 2000 = 2000 := by
      apply min_eq_right; push_cast; omega
    simp only [hpos, if_true, hmin]
    have hsub : 2000 * ((k + 1 : Nat) : Int) + r - 2000 = 2000 * (k : Int) + r := by
      push_cast; ring
    rw [hsub, ih]
    rfl

theorem block_sizes_loop_pos (T : Int) (h : 0 < T) :
    block_sizes_loop T
      = List.replicate ((T - 1) / 2000).toNat 2000 ++ [T - 2000 * ((T - 1) / 2000)] := by
  have hk : (((T - 1) / 2000).toNat : Int) = (T - 1) / 2000 :=
    Int.toNat_of_nonneg (by omega)
  have := block_sizes_loop_closed ((T - 1) / 2000).toNat (T - 2000 * ((T - 1) / 2000))
    (by omega) (by omega)
  rw [hk] at this
  rw [← this]
  congr 1
  ring

theorem block_sizes_loop_sum (T : Int) (h : 0 ≤ T) : (block_sizes_loop T).sum = T := by
  rcases eq_or_lt_of_le h with h0 | hpos
  · rw [← h0, block_sizes_loop_nonpos 0 le_rfl]; rfl
  · rw [block_sizes_loop_pos T hpos]
    have hk : (((T - 1) / 2000).toNat : Int) = (T - 1) / 2000 :=
      Int.toNat_of_nonneg (by omega)
    simp only [List.sum_append, List.sum_replicate, List.sum_cons, List.sum_nil, nsmul_eq_mul,
      hk]
    ring

theorem block_sizes_loop_mem (T s : Int) (hs : s ∈ block_sizes_loop T) : 1 ≤ s ∧ s ≤ 2000 := by
  rcases le_or_lt T 0 with h0 | hpos
  · rw [block_sizes_loop_nonpos T h0] at hs; simp at hs
  · rw [block_sizes_loop_pos T hpos] at hs
    rcases List.mem_append.mp hs with h | h
    · have := (List.mem_replicate.mp h).2
      omega
    · have := List.mem_singleton.mp h
      omega

/-! ## Fragments -/

theorem make_fragments_loop_done (c : List Nat) (i : Nat) (h : c.length ≤ i) :
    make_fragments_loop c i = [] := by
  rw [make_fragments_loop]
  simp [not_lt.mpr h]

theorem make_fragments_loop_step (c : List Nat) (i : Nat) (h : i < c.length) :
    make_fragments_loop c i
      = (c.drop i).take (min (i + 250) c.length - i) :: make_fragments_loop c (i + 250) := by
  rw [make_fragments_loop]
  simp [h, MAX_FRAGMENT_DATA]

theorem make_fragments_loop_props (c : List Nat) (n : Nat) :
    ∀ i, c.length - i ≤ n →
      (make_fragments_loop c i).flatten = c.drop i
      ∧ (∀ f ∈ make_fragments_loop c i, f ≠ [] ∧ f.length ≤ 250)
      ∧ (∀ f ∈ (make_fragments_loop c i).dropLast, f.length = 250) := by
  induction n using Nat.strong_induction_on with
  | _ n ih =>
    intro i hn
    rcases le_or_lt c.length i with hdone | hlt
    · rw [make_fragments_loop_done c i hdone]
      simp [List.drop_eq_nil_of_le hdone]
    · obtain ⟨ih1, ih2, ih3⟩ := ih (c.length - (i + 250)) (by omega) (i + 250) le_rfl
      rw [make_fragments_loop_step c i hlt]
      have hlen : ((c.drop i).take (min (i + 250) c.length - i)).length
          = min (i + 250) c.length - i := by
        rw [List.length_take, List.length_drop]; omega
      refine ⟨?_, ?_, ?_⟩
      · rw [List.flatten_cons, ih1]
        rcases le_or_lt c.length (i + 250) with hle | hgt
        · rw [List.drop_eq_nil_of_le hle, List.append_nil, min_eq_right hle]
          apply List.take_of_length_le
          rw [List.length_drop]
        · have h250 : min (i + 250) c.length - i = 250 := by
            rw [min_eq_left hgt.le]; omega
          rw [h250, ← List.drop_drop]
          exact List.take_append_drop 250 (c.drop i)
      · intro f hf
        rcases List.mem_cons.mp hf with rfl | hf
        · refine ⟨?_, by rw [hlen]; omega⟩
          intro hnil
          have := congrArg List.length hnil
          rw [hlen] at this
          simp at this
          omega
        · exact ih2 f hf
      · intro f hf
        rcases le_or_lt c.length (i + 250) with hle | hgt
        · rw [make_fragments_loop_done c (i + 250) hle] at hf
          simp at hf
        · have hne : make_fragments_loop c (i + 250) ≠ [] := by
            rw [make_fragments_loop_step c (i + 250) hgt]
            exact List.cons_ne_nil _ _
          rw [List.dropLast_cons_of_ne_nil hne] at hf
          rcases List.mem_cons.mp hf with rfl | hf
          · rw [hlen, min_eq_left hgt.le]; omega
          · exact ih3 f hf

theorem make_fragments_ne_nil (c : List Nat) (h : c ≠ []) : make_fragments c ≠ [] := by
  unfold make_fragments
  rw [make_fragments_loop_step c 0 (List.length_pos.mpr h)]
  exact List.cons_ne_nil _ _

/-! ## Block split -/

theorem split_blocks_loop_length (packed : List Nat) (sizes : List Int) :
    ∀ offset, (split_blocks_loop packed sizes offset).length = sizes.length := by
  induction sizes with
  | nil => intro offset; rfl
  | cons s rest ih => intro offset; simp [split_blocks_loop, ih]

theorem split_blocks_loop_props (packed : List Nat) (hp : packed.length < 2 ^ 64)
    (sizes : List Int) :
    ∀ offset : Nat, (∀ s ∈ sizes, 0 ≤ s) → (offset : Int) + sizes.sum ≤ packed.length →
      (split_blocks_loop packed sizes offset).map (fun b => (b.length : Int)) = sizes
      ∧ (split_blocks_loop packed sizes offset).flatten
          = (packed.drop offset).take sizes.sum.toNat := by
  induction sizes with
  | nil => intro offset _ _; simp [split_blocks_loop]
  | cons s rest ih =>
    intro offset hnn hsum
    have hs : 0 ≤ s := hnn s (List.mem_cons_self _ _)
    have hrest : ∀ t ∈ rest, 0 ≤ t := fun t ht => hnn t (List.mem_cons_of_mem _ ht)
    have hrs : 0 ≤ rest.sum := List.sum_nonneg hrest
    rw [List.sum_cons] at hsum
    have hend : min ((offset + (s % 2 ^ 64).toNat) % 2 ^ 64) packed.length
        = offset + s.toNat := by
      have h1 : (s % 2 ^ 64).toNat = s.toNat := by
        rw [Int.emod_eq_of_lt hs (by omega)]
      rw [h1, Nat.mod_eq_of_lt (by omega)]
      apply min_eq_left
      omega
    obtain ⟨ih1, ih2⟩ := ih (offset + s.toNat) hrest (by push_cast; omega)
    simp only [split_blocks_loop, hend, List.map_cons, List.flatten_cons, ih1, ih2]
    have hsub : offset + s.toNat - offset = s.toNat := by omega
    rw [hsub]
    refine ⟨?_, ?_⟩
    · congr 1
      rw [List.length_take, List.length_drop]
      omega
    · rw [List.sum_cons, Int.toNat_add hs hrs, List.take_add, List.drop_drop]

/-! ## Rotation -/

theorem Rect.row_length {g : List (List Int)} {H W : Nat} (hg : Rect g H W) {r : Nat}
    (hr : r < H) : (g.getD r []).length = W := by
  have hr2 : r < g.length := by rw [hg.1]; exact hr
  rw [List.getD_eq_getElem g [] hr2]
  exact hg.2 _ (List.getElem_mem hr2)

theorem Rect.ext {a b : List (List Int)} {H W : Nat} (ha : Rect a H W) (hb : Rect b H W)
    (h : ∀ r, r < H → ∀ c, c < W → (a.getD r []).getD c 0 = (b.getD r []).getD c 0) :
    a = b := by
  apply List.ext_getElem (by rw [ha.1, hb.1])
  intro r h1 h2
  have hrH : r < H := by rw [← ha.1]; exact h1
  have la := ha.row_length hrH
  have lb := hb.row_length hrH
  rw [List.getD_eq_getElem a [] h1] at la
  rw [List.getD_eq_getElem b [] h2] at lb
  apply List.ext_getElem (by rw [la, lb])
  intro c h3 h4
  have hcW : c < W := by rw [← la]; exact h3
  have := h r hrH c hcW
  rw [List.getD_eq_getElem a [] h1, List.getD_eq_getElem b [] h2,
    List.getD_eq_getElem _ 0 h3, List.getD_eq_getElem _ 0 h4] at this
  exact this

theorem rotate_cw90_rect {g : List (List Int)} {H W : Nat} (hg : Rect g H W) (hH : 1 ≤ H) :
    Rect (rotate_cw90 g) W H := by
  have hw : (g.getD 0 []).length = W := hg.row_length hH
  refine ⟨?_, ?_⟩
  · simp only [rotate_cw90, List.length_map, List.length_range, hw]
  · intro row hrow
    simp only [rotate_cw90, List.mem_map] at hrow
    obtain ⟨r, _, rfl⟩ := hrow
    simp [hg.1]

theorem rotate_cw90_get {g : List (List Int)} {H W : Nat} (hg : Rect g H W) (hH : 1 ≤ H)
    {r c : Nat} (hr : r < W) (hc : c < H) :
    ((rotate_cw90 g).getD r []).getD c 0 = (g.getD (H - 1 - c) []).getD r 0 := by
  have hw : (g.getD 0 []).length = W := hg.row_length hH
  have hr2 : r < (rotate_cw90 g).length := by
    simp only [rotate_cw90, List.length_map, List.length_range, hw]; exact hr
  rw [List.getD_eq_getElem _ [] hr2]
  simp only [rotate_cw90, List.getElem_map, List.getElem_range]
  have hc2 : c < ((List.range g.length).map
      (fun c => (g.getD (g.length - 1 - c) []).getD r 0)).length := by
    simp [hg.1, hc]
  rw [List.getD_eq_getElem _ 0 hc2]
  simp only [List.getElem_map, List.getElem_range, hg.1]

/-! ## Bit packing -/

theorem u8_of_small (p : Int) (h0 : 0 ≤ p) (h1 : p < 256) : ((u8 p : Nat) : Int) = p := by
  unfold u8
  rw [Int.emod_eq_of_lt h0 h1, Int.toNat_of_nonneg h0]

/-- The `int` arithmetic of `pack_row` rewritten over `Nat` for a non-negative
`bits_per_pixel`. -/
theorem pack_row_nat (row : List Int) (b : Nat) :
    pack_row row (b : Int)
      = (List.range (row.length / (8 / b))).map (fun k =>
          (List.range (8 / b)).foldl
            (fun val i =>
              (val ||| (u8 (row.getD ((row.length / (8 / b) - 1 - k) * (8 / b) + i) 0)
                          <<< (i * b))) % 256)
            0) := by
  have h1 : Int.tdiv 8 (b : Int) = ((8 / b : Nat) : Int) := by
    have := Int.ofNat_tdiv 8 b
    exact_mod_cast this.symm
  have h2 : Int.tdiv (row.length : Int) ((8 / b : Nat) : Int)
      = ((row.length / (8 / b) : Nat) : Int) := (Int.ofNat_tdiv _ _).symm
  simp only [pack_row, h1, h2, Int.toNat_natCast]
  apply List.map_congr_left
  intro k hk
  have hk2 : k < row.length / (8 / b) := List.mem_range.mp hk
  apply List.foldl_ext
  intro val i _
  have e1 : (((row.length / (8 / b) : Nat) : Int) - 1 - (k : Int)) * ((8 / b : Nat) : Int)
      + (i : Int) = (((row.length / (8 / b) - 1 - k) * (8 / b) + i : Nat) : Int) := by
    have : (((row.length / (8 / b) - 1 - k : Nat)) : Int)
        = ((row.length / (8 / b) : Nat) : Int) - 1 - (k : Int) := by omega
    rw [Nat.cast_add, Nat.cast_mul, this]
  have e2 : (i : Int) * (b : Int) = ((i * b : Nat) : Int) := by push_cast; rfl
  rw [e1, e2, Int.toNat_natCast, Int.toNat_natCast]

theorem pack_row_length (row : List Int) (b : Nat) :
    (pack_row row (b : Int)).length = row.length / (8 / b) := by
  rw [pack_row_nat, List.length_map, List.length_range]

set_option maxRecDepth 100000 in
theorem field_two : ∀ a b c d : Fin 4, ∀ i : Fin 4,
    ((List.range 4).foldl
        (fun val j => (val ||| ([a.val, b.val, c.val, d.val].getD j 0 <<< (j * 2))) % 256) 0
      >>> (i.val * 2)) % 2 ^ 2 = [a.val, b.val, c.val, d.val].getD i.val 0 := by
  decide

set_option maxRecDepth 100000 in
theorem field_one : ∀ a b c d e f g h : Fin 2, ∀ i : Fin 8,
    ((List.range 8).foldl
        (fun val j =>
          (val ||| ([a.val, b.val, c.val, d.val, e.val, f.val, g.val, h.val].getD j 0
                      <<< (j * 1))) % 256) 0
      >>> (i.val * 1)) % 2 ^ 1
      = [a.val, b.val, c.val, d.val, e.val, f.val, g.val, h.val].getD i.val 0 := by
  decide

/-- Field `i` of one packed byte is the `i`-th value that was folded in. -/
theorem fold_field (b : Nat) (hb : b = 1 ∨ b = 2) (v : Nat → Nat)
    (hv : ∀ j, j < 8 / b → v j < 2 ^ b) (i : Nat) (hi : i < 8 / b) :
    ((List.range (8 / b)).foldl (fun val j => (val ||| (v j <<< (j * b))) % 256) 0
      >>> (i * b)) % 2 ^ b = v i := by
  rcases hb with rfl | rfl
  · have key := field_one ⟨v 0, hv 0 (by decide)⟩ ⟨v 1, hv 1 (by decide)⟩
      ⟨v 2, hv 2 (by decide)⟩ ⟨v 3, hv 3 (by decide)⟩ ⟨v 4, hv 4 (by decide)⟩
      ⟨v 5, hv 5 (by decide)⟩ ⟨v 6, hv 6 (by decide)⟩ ⟨v 7, hv 7 (by decide)⟩ ⟨i, hi⟩
    have hfold : (List.range (8 / 1)).foldl (fun val j => (val ||| (v j <<< (j * 1))) % 256) 0
        = (List.range 8).foldl
            (fun val j =>
              (val ||| ([v 0, v 1, v 2, v 3, v 4, v 5, v 6, v 7].getD j 0 <<< (j * 1))) % 256)
            0 := by
      apply List.foldl_ext
      intro a j hj
      have hj2 : j < 8 := List.mem_range.mp hj
      interval_cases j <;> rfl
    rw [hfold]
    simp only [] at key
    rw [key]
    have hi2 : i < 8 := hi
    interval_cases i <;> rfl
  · have key := field_two ⟨v 0, hv 0 (by decide)⟩ ⟨v 1, hv 1 (by decide)⟩
      ⟨v 2, hv 2 (by decide)⟩ ⟨v 3, hv 3 (by decide)⟩ ⟨i, hi⟩
    have hfold : (List.range (8 / 2)).foldl (fun val j => (val ||| (v j <<< (j * 2))) % 256) 0
        = (List.range 4).foldl
            (fun val j => (val ||| ([v 0, v 1, v 2, v 3].getD j 0 <<< (j * 2))) % 256) 0 := by
      apply List.foldl_ext
      intro a j hj
      have hj2 : j < 4 := List.mem_range.mp hj
      interval_cases j <;> rfl
    rw [hfold]
    simp only [] at key
    rw [key]
    have hi2 : i < 4 := hi
    interval_cases i <;> rfl

theorem getD_in_range (row : List Int) (b : Nat) (hrow : ∀ p ∈ row, 0 ≤ p ∧ p < 2 ^ b)
    (idx : Nat) : 0 ≤ row.getD idx 0 ∧ row.getD idx 0 < 2 ^ b := by
  rcases lt_or_le idx row.length with h | h
  · rw [List.getD_eq_getElem row 0 h]
    exact hrow _ (List.getElem_mem h)
  · rw [List.getD_eq_default row 0 h]
    exact ⟨le_rfl, by positivity⟩

theorem pack_row_getD (row : List Int) (b k : Nat) (hk : k < row.length / (8 / b)) :
    (pack_row row (b : Int)).getD k 0
      = (List.range (8 / b)).foldl
          (fun val i =>
            (val ||| (u8 (row.getD ((row.length / (8 / b) - 1 - k) * (8 / b) + i) 0)
                        <<< (i * b))) % 256)
          0 := by
  have hk2 : k < (pack_row row (b : Int)).length := by rw [pack_row_length]; exact hk
  rw [List.getD_eq_getElem _ 0 hk2]
  simp only [pack_row_nat, List.getElem_map, List.getElem_range]

/-- Field `i` of byte `k` of a packed row. -/
theorem pack_row_field (b : Nat) (hb : b = 1 ∨ b = 2) (row : List Int)
    (hrow : ∀ p ∈ row, 0 ≤ p ∧ p < 2 ^ b) (k : Nat) (hk : k < row.length / (8 / b))
    (i : Nat) (hi : i < 8 / b) :
    ((((pack_row row (b : Int)).getD k 0 >>> (i * b)) % 2 ^ b : Nat) : Int)
      = row.getD ((row.length / (8 / b) - 1 - k) * (8 / b) + i) 0 := by
  rw [pack_row_getD row b k hk]
  have hsmall : ∀ idx, ((u8 (row.getD idx 0) : Nat) : Int) = row.getD idx 0 := by
    intro idx
    have h := getD_in_range row b hrow idx
    apply u8_of_small _ h.1
    have : (2 : Int) ^ b ≤ 256 := by rcases hb with rfl | rfl <;> norm_num
    omega
  have hv : ∀ j, j < 8 / b →
      u8 (row.getD ((row.length / (8 / b) - 1 - k) * (8 / b) + j) 0) < 2 ^ b := by
    intro j _
    have h := (getD_in_range row b hrow ((row.length / (8 / b) - 1 - k) * (8 / b) + j)).2
    rw [← hsmall] at h
    exact_mod_cast h
  rw [fold_field b hb
    (fun j => u8 (row.getD ((row.length / (8 / b) - 1 - k) * (8 / b) + j) 0)) hv i hi]
  exact hsmall _

theorem range_reverse_eq (n : Nat) :
    (List.range n).reverse = (List.range n).map (fun x => n - 1 - x) := by
  rw [List.range_eq_range', List.reverse_range']
  simp [List.range_eq_range']

theorem flatMap_chunks {α : Type} (f : Nat → α) (m : Nat) (n : Nat) :
    (List.range n).flatMap (fun x => (List.range m).map (fun i => f (x * m + i)))
      = (List.range (n * m)).map f := by
  induction n with
  | zero => simp
  | succ n ih =>
    rw [List.range_succ, List.flatMap_append, ih, List.flatMap_singleton, Nat.succ_mul,
      List.range_add, List.map_append, List.map_map]
    rfl

theorem map_getD_range {α : Type} (l : List α) (d : α) :
    (List.range l.length).map (fun i => l.getD i d) = l := by
  apply List.ext_getElem (by simp)
  intro n h1 h2
  rw [List.getElem_map, List.getElem_range, List.getD_eq_getElem l d h2]

theorem unpack_pack_row (b : Nat) (hb : b = 1 ∨ b = 2) (row : List Int)
    (hrow : ∀ p ∈ row, 0 ≤ p ∧ p < 2 ^ b) (hdiv : (8 / b) ∣ row.length) :
    unpack_row (pack_row row (b : Int)) b = row := by
  have hgetD : pack_row row (b : Int)
      = (List.range (row.length / (8 / b))).map
          (fun k => (pack_row row (b : Int)).getD k 0) := by
    have := map_getD_range (pack_row row (b : Int)) 0
    rw [pack_row_length] at this
    exact this.symm
  unfold unpack_row
  rw [hgetD, ← List.map_reverse, range_reverse_eq, List.map_map, List.flatMap_map]
  simp only [Function.comp]
  have hstep : ∀ x ∈ List.range (row.length / (8 / b)),
      (List.range (8 / b)).map (fun (i : Nat) =>
          ((((pack_row row (b : Int)).getD (row.length / (8 / b) - 1 - x) 0 >>> (i * b))
              % 2 ^ b : Nat) : Int))
        = (List.range (8 / b)).map (fun i => row.getD (x * (8 / b) + i) 0) := by
    intro x hx
    have hx2 : x < row.length / (8 / b) := List.mem_range.mp hx
    apply List.map_congr_left
    intro i hi
    have hi2 : i < 8 / b := List.mem_range.mp hi
    rw [pack_row_field b hb row hrow _ (by omega) i hi2]
    congr 2
    have : row.length / (8 / b) - 1 - (row.length / (8 / b) - 1 - x) = x := by omega
    rw [this]
  rw [List.flatMap_congr hstep, flatMap_chunks (fun j => row.getD j 0),
    Nat.div_mul_cancel hdiv]
  exact map_getD_range row 0

theorem pack_pixels_eq_flatMap (pixels : List (List Int)) (bpp : Int) :
    pack_pixels pixels bpp = pixels.flatMap (fun row => pack_row row bpp) := by
  unfold pack_pixels
  rw [List.flatMap_eq_foldl]

theorem pack_pixels_length (g : List (List Int)) (H W b : Nat) (hg : Rect g H W) :
    (pack_pixels g (b : Int)).length = H * (W / (8 / b)) := by
  rw [pack_pixels_eq_flatMap, List.length_flatMap]
  have : List.map (List.length ∘ fun row => pack_row row (b : Int)) g
      = List.replicate g.length (W / (8 / b)) := by
    rw [List.eq_replicate_iff]
    refine ⟨by simp, ?_⟩
    intro x hx
    obtain ⟨row, hrow, rfl⟩ := List.mem_map.mp hx
    simp only [Function.comp, pack_row_length, hg.2 row hrow]
  rw [this, List.sum_const_nat, hg.1]

/-! ## APDU wrapping -/

theorem encode_image_eq (cb : List Nat → List Nat) (pixels : List (List Int))
    (info : DeviceInfo) :
    encode_image cb pixels info
      = (List.range info.block_sizes.length).map (fun (b : Nat) =>
          block_apdus b (make_fragments (cb ((image_blocks pixels info).getD b [])))) := by
  have hlen : (image_blocks pixels info).length = info.block_sizes.length :=
    split_blocks_loop_length _ _ 0
  rw [← hlen]
  rfl

theorem encode_image_length (cb : List Nat → List Nat) (pixels : List (List Int))
    (info : DeviceInfo) :
    (encode_image cb pixels info).length = info.block_sizes.length := by
  rw [encode_image_eq, List.length_map, List.length_range]

theorem encode_image_get (cb : List Nat → List Nat) (pixels : List (List Int))
    (info : DeviceInfo) (b : Nat) (g : List Apdu)
    (h : (encode_image cb pixels info)[b]? = some g) :
    g = block_apdus b (make_fragments (cb ((image_blocks pixels info).getD b []))) := by
  rw [encode_image_eq, List.getElem?_map] at h
  rcases hr : (List.range info.block_sizes.length)[b]? with _ | b2
  · rw [hr] at h; simp at h
  · rw [hr] at h
    have hb : b2 = b := by
      have := List.getElem?_eq_some_iff.mp hr
      obtain ⟨hlt, heq⟩ := this
      rw [List.getElem_range] at heq
      exact heq.symm
    subst hb
    simpa using h.symm

theorem block_apdus_length (b : Nat) (frags : List (List Nat)) :
    (block_apdus b frags).length = frags.length := by
  simp [block_apdus]

theorem block_apdus_get (b : Nat) (frags : List (List Nat)) (f : Nat) (a : Apdu)
    (h : (block_apdus b frags)[f]? = some a) :
    f < frags.length
      ∧ a = build_image_data_apdu (b : Int) (f : Int) (frags.getD f [])
              (f == frags.length - 1) 0 := by
  unfold block_apdus at h
  rw [List.getElem?_map] at h
  rcases hr : (List.range frags.length)[f]? with _ | f2
  · rw [hr] at h; simp at h
  · rw [hr] at h
    obtain ⟨hlt, heq⟩ := List.getElem?_eq_some_iff.mp hr
    rw [List.getElem_range] at heq
    subst heq
    refine ⟨by simpa using hlt, ?_⟩
    simpa using h.symm

theorem u8_natCast (n : Nat) : u8 (n : Int) = n % 256 := by
  unfold u8
  omega

/-- In a non-empty group the final flag is on the last APDU and only there. -/
theorem block_apdus_final (b : Nat) (frags : List (List Nat)) (hne : frags ≠ []) :
    ((block_apdus b frags).filter (fun a => a.p2 == 0x01)).length = 1
      ∧ ∃ last, (block_apdus b frags).getLast? = some last ∧ last.p2 = 0x01 := by
  obtain ⟨n, hn⟩ : ∃ n, frags.length = n + 1 :=
    ⟨frags.length - 1, by have := List.length_pos.mpr hne; omega⟩
  unfold block_apdus
  rw [hn, List.range_succ, List.map_append, List.filter_append]
  have hfront : ((List.range n).map fun (frag_no : Nat) =>
      build_image_data_apdu (b : Int) (frag_no : Int) (frags.getD frag_no [])
        (frag_no == n + 1 - 1) 0).filter (fun a => a.p2 == 0x01) = [] := by
    rw [List.filter_eq_nil_iff]
    intro a ha
    obtain ⟨f, hf, rfl⟩ := List.mem_map.mp ha
    have hf2 : f < n := List.mem_range.mp hf
    have : (f == n + 1 - 1) = false := by
      rw [beq_eq_false_iff_ne]; omega
    simp [build_image_data_apdu]
    omega
  rw [hfront]
  refine ⟨by simp [build_image_data_apdu], ?_⟩
  refine ⟨_, List.getLast?_concat _, ?_⟩
  simp [build_image_data_apdu]

/-! ## A worked instance

A one-row, eight-pixel, four-colour frame; the stand-in for `compress_block`
appends the three-byte LZO1X end-of-stream marker to the block. -/

theorem demo_block_sizes :
    ({ width := 8, height := 1, bits_per_pixel := 2 } : DeviceInfo).block_sizes = [2] := by
  unfold DeviceInfo.block_sizes
  have h : ({ width := 8, height := 1, bits_per_pixel := 2 } : DeviceInfo).fb_total_bytes = 2 := by
    decide
  rw [h]
  exact block_sizes_loop_small 2 (by decide) (by decide)

theorem demo_fragments :
    make_fragments [228, 228, 17, 0, 0] = [[228, 228, 17, 0, 0]] := by
  unfold make_fragments
  rw [make_fragments_loop_step _ _ (by decide), make_fragments_loop_done _ _ (by decide)]
  rfl

theorem demo_encode :
    encode_image (fun blk => blk ++ [17, 0, 0]) [[0, 1, 2, 3, 0, 1, 2, 3]]
        { width := 8, height := 1, bits_per_pixel := 2 }
      = [[{ cla := 0xF0, ins := 0xD3, p1 := 0, p2 := 1,
            data := [0, 0, 228, 228, 17, 0, 0], has_data := true, le := -1 }]] := by
  have hblocks : image_blocks [[0, 1, 2, 3, 0, 1, 2, 3]]
      { width := 8, height := 1, bits_per_pixel := 2 } = [[228, 228]] := by
    unfold image_blocks
    rw [demo_block_sizes]
    decide
  rw [encode_image_eq, demo_block_sizes, hblocks]
  show [block_apdus 0 (make_fragments [228, 228, 17, 0, 0])] = _
  rw [demo_fragments]
  decide

/-! ## The encoder contract -/

/-- C1: for a device with `bits_per_pixel` 1 or 2 and a grid of `height` rows by
`width` columns, `encode_image` returns exactly `num_blocks()` groups, and in every
group exactly one APDU has `p2 = 0x01`, the last one of the group; `compress_block`
is any function that never returns an empty output. -/
theorem C1_encode_image_groups (cb : List Nat → List Nat) (hcb : ∀ blk, cb blk ≠ [])
    (info : DeviceInfo) (_hbpp : info.bits_per_pixel = 1 ∨ info.bits_per_pixel = 2)
    (grid : List (List Int)) (H W : Nat) (_hH : (H : Int) = info.height)
    (_hW : (W : Int) = info.width) (_hgrid : Rect grid H W) :
    ((encode_image cb grid info).length : Int) = info.num_blocks
      ∧ ∀ group ∈ encode_image cb grid info,
          (group.filter (fun a => a.p2 == 0x01)).length = 1
            ∧ ∃ last, group.getLast? = some last ∧ last.p2 = 0x01 := by
  refine ⟨by rw [encode_image_length]; rfl, ?_⟩
  intro group hgroup
  rw [encode_image_eq] at hgroup
  obtain ⟨b, _, rfl⟩ := List.mem_map.mp hgroup
  exact block_apdus_final b _ (make_fragments_ne_nil _ (hcb _))

theorem C1_encode_image_groups_witness :
    ((encode_image (fun blk => blk ++ [17, 0, 0]) [[0, 1, 2, 3, 0, 1, 2, 3]]
        { width := 8, height := 1, bits_per_pixel := 2 }).length : Int)
      = ({ width := 8, height := 1, bits_per_pixel := 2 } : DeviceInfo).num_blocks
      ∧ ∀ group ∈ encode_image (fun blk => blk ++ [17, 0, 0]) [[0, 1, 2, 3, 0, 1, 2, 3]]
          { width := 8, height := 1, bits_per_pixel := 2 },
          (group.filter (fun a => a.p2 == 0x01)).length = 1
            ∧ ∃ last, group.getLast? = some last ∧ last.p2 = 0x01 :=
  C1_encode_image_groups (fun blk => blk ++ [17, 0, 0]) (by intro blk; simp)
    { width := 8, height := 1, bits_per_pixel := 2 } (Or.inr rfl)
    [[0, 1, 2, 3, 0, 1, 2, 3]] 1 8 rfl rfl (by decide)

/-- C2: for `b` in {1, 2} and a row of indices in `0 .. 2^b - 1`, `pack_row` returns
`W / (8/b)` bytes, and field `i` (bits `i*b .. i*b+b-1`) of byte `k` holds the index
at row position `(W/(8/b) - 1 - k) * (8/b) + i`; the row `[0,1,2,3,0,1,2,3]` at two
bits per pixel packs to `[0xE4, 0xE4]`. The layout holds whether or not `8/b`
divides `W`. -/
theorem C2_pack_row_layout (b : Nat) (hb : b = 1 ∨ b = 2) (row : List Int)
    (hrow : ∀ p ∈ row, 0 ≤ p ∧ p < 2 ^ b) :
    (pack_row row (b : Int)).length = row.length / (8 / b)
      ∧ (∀ k, k < row.length / (8 / b) → ∀ i, i < 8 / b →
          ((((pack_row row (b : Int)).getD k 0 >>> (i * b)) % 2 ^ b : Nat) : Int)
            = row.getD ((row.length / (8 / b) - 1 - k) * (8 / b) + i) 0)
      ∧ pack_row [0, 1, 2, 3, 0, 1, 2, 3] 2 = [0xE4, 0xE4] :=
  ⟨pack_row_length row b, fun k hk i hi => pack_row_field b hb row hrow k hk i hi,
    by decide⟩

theorem C2_pack_row_layout_witness :
    (pack_row [0, 1, 2, 3, 0, 1, 2, 3] ((2 : Nat) : Int)).length = 8 / (8 / 2)
      ∧ (∀ k, k < 8 / (8 / 2) → ∀ i, i < 8 / 2 →
          ((((pack_row [0, 1, 2, 3, 0, 1, 2, 3] ((2 : Nat) : Int)).getD k 0 >>> (i * 2))
              % 2 ^ 2 : Nat) : Int)
            = ([0, 1, 2, 3, 0, 1, 2, 3] : List Int).getD ((8 / (8 / 2) - 1 - k) * (8 / 2) + i) 0)
      ∧ pack_row [0, 1, 2, 3, 0, 1, 2, 3] 2 = [0xE4, 0xE4] :=
  C2_pack_row_layout 2 (Or.inr rfl) [0, 1, 2, 3, 0, 1, 2, 3] (by decide)

/-- C3: for `b` in {1, 2} and a row whose length is a multiple of `8/b` with entries
in `0 .. 2^b - 1`, unpacking `pack_row row b` (bytes reversed, each byte split into
`8/b` fields of `b` bits, least-significant field first) gives back the row; hence
two such rows with the same packing are equal. -/
theorem C3_pack_row_roundtrip (b : Nat) (hb : b = 1 ∨ b = 2) (row : List Int)
    (hdiv : (8 / b) ∣ row.length) (hrow : ∀ p ∈ row, 0 ≤ p ∧ p < 2 ^ b) :
    unpack_row (pack_row row (b : Int)) b = row
      ∧ ∀ row2 : List Int, (8 / b) ∣ row2.length → (∀ p ∈ row2, 0 ≤ p ∧ p < 2 ^ b) →
          pack_row row (b : Int) = pack_row row2 (b : Int) → row = row2 := by
  refine ⟨unpack_pack_row b hb row hrow hdiv, ?_⟩
  intro row2 hdiv2 hrow2 heq
  rw [← unpack_pack_row b hb row hrow hdiv, heq, unpack_pack_row b hb row2 hrow2 hdiv2]

theorem C3_pack_row_roundtrip_witness :
    unpack_row (pack_row [1, 0, 0, 1, 1, 1, 0, 1] ((1 : Nat) : Int)) 1
        = [1, 0, 0, 1, 1, 1, 0, 1]
      ∧ ∀ row2 : List Int, (8 / 1) ∣ row2.length → (∀ p ∈ row2, 0 ≤ p ∧ p < 2 ^ 1) →
          pack_row [1, 0, 0, 1, 1, 1, 0, 1] ((1 : Nat) : Int) = pack_row row2 ((1 : Nat) : Int) →
          [1, 0, 0, 1, 1, 1, 0, 1] = row2 :=
  C3_pack_row_roundtrip 1 (Or.inl rfl) [1, 0, 0, 1, 1, 1, 0, 1] (by decide) (by decide)

/-- C4: `make_fragments c` is a list of non-empty fragments of at most 250 bytes
whose concatenation in order is `c`; every fragment but the last has exactly 250
bytes; 601 bytes give fragments of lengths `[250, 250, 101]`, and an empty input
gives no fragment. -/
theorem C4_make_fragments (c : List Nat) :
    (∀ f ∈ make_fragments c, f.length ≤ 250 ∧ f ≠ [])
      ∧ (make_fragments c).flatten = c
      ∧ (∀ f ∈ (make_fragments c).dropLast, f.length = 250)
      ∧ (c.length = 601 → (make_fragments c).map List.length = [250, 250, 101])
      ∧ make_fragments [] = [] := by
  obtain ⟨h1, h2, h3⟩ := make_fragments_loop_props c c.length 0 (by omega)
  refine ⟨fun f hf => ⟨(h2 f hf).2, (h2 f hf).1⟩, by simpa using h1, h3, ?_, ?_⟩
  · intro hlen
    unfold make_fragments
    rw [make_fragments_loop_step c 0 (by omega), make_fragments_loop_step c (0 + 250) (by omega),
      make_fragments_loop_step c (0 + 250 + 250) (by omega),
      make_fragments_loop_done c (0 + 250 + 250 + 250) (by omega)]
    simp [List.length_take, List.length_drop, hlen]
  · exact make_fragments_loop_done [] 0 (by simp)

theorem C4_make_fragments_witness :
    (List.replicate 601 (0 : Nat)).length = 601
      ∧ (make_fragments (List.replicate 601 0)).map List.length = [250, 250, 101] :=
  ⟨List.length_replicate 601 0,
    (C4_make_fragments (List.replicate 601 0)).2.2.2.1 (List.length_replicate 601 0)⟩

/-- C5: with `sizes` the `block_sizes()` of a device whose `fb_total_bytes()` is the
length of `buf`, `split_blocks buf sizes` has one block per entry of `sizes`, block
`i` has length `sizes[i]`, and the blocks concatenated in order are `buf`. The
length of `buf` is a `size_t`. -/
theorem C5_split_blocks (buf : List Nat) (hsz : buf.length < 2 ^ 64) (d : DeviceInfo)
    (hd : d.fb_total_bytes = (buf.length : Int)) :
    (split_blocks buf d.block_sizes).length = d.block_sizes.length
      ∧ (split_blocks buf d.block_sizes).map (fun blk => (blk.length : Int)) = d.block_sizes
      ∧ (split_blocks buf d.block_sizes).flatten = buf := by
  have hsum : d.block_sizes.sum = (buf.length : Int) := by
    unfold DeviceInfo.block_sizes
    rw [hd]
    exact block_sizes_loop_sum _ (by omega)
  have hnn : ∀ s ∈ d.block_sizes, 0 ≤ s := by
    intro s hs
    have := block_sizes_loop_mem _ s hs
    omega
  obtain ⟨h1, h2⟩ := split_blocks_loop_props buf hsz d.block_sizes 0 hnn (by rw [hsum]; simp)
  refine ⟨split_blocks_loop_length _ _ 0, h1, ?_⟩
  unfold split_blocks
  rw [h2, hsum]
  simp

theorem C5_split_blocks_witness :
    (split_blocks [1, 2, 3, 4]
        ({ width := 8, height := 2, bits_per_pixel := 2 } : DeviceInfo).block_sizes).length
        = ({ width := 8, height := 2, bits_per_pixel := 2 } : DeviceInfo).block_sizes.length
      ∧ (split_blocks [1, 2, 3, 4]
          ({ width := 8, height := 2, bits_per_pixel := 2 } : DeviceInfo).block_sizes).map
            (fun blk => (blk.length : Int))
          = ({ width := 8, height := 2, bits_per_pixel := 2 } : DeviceInfo).block_sizes
      ∧ (split_blocks [1, 2, 3, 4]
          ({ width := 8, height := 2, bits_per_pixel := 2 } : DeviceInfo).block_sizes).flatten
          = [1, 2, 3, 4] :=
  C5_split_blocks [1, 2, 3, 4] (by decide) { width := 8, height := 2, bits_per_pixel := 2 }
    (by decide)

/-- C6: `block_sizes()` is a total function; when `fb_total_bytes()` is `T > 0` it
returns `ceil(T / 2000)` entries that sum to `T`, all but the last equal to 2000 and
the last in `1 .. 2000` (`T = 9472` gives `[2000, 2000, 2000, 2000, 1472]`); when
`T ≤ 0` it returns the empty list. -/
theorem C6_block_sizes (d : DeviceInfo) :
    (0 < d.fb_total_bytes →
        (d.block_sizes.length : Int) = (d.fb_total_bytes + 1999) / 2000
          ∧ d.block_sizes.sum = d.fb_total_bytes
          ∧ (∀ s ∈ d.block_sizes.dropLast, s = 2000)
          ∧ ∃ last, d.block_sizes.getLast? = some last ∧ 1 ≤ last ∧ last ≤ 2000)
      ∧ (d.fb_total_bytes = 9472 → d.block_sizes = [2000, 2000, 2000, 2000, 1472])
      ∧ (d.fb_total_bytes ≤ 0 → d.block_sizes = []) := by
  refine ⟨?_, ?_, ?_⟩
  · intro hpos
    have hk : (((d.fb_total_bytes - 1) / 2000).toNat : Int) = (d.fb_total_bytes - 1) / 2000 :=
      Int.toNat_of_nonneg (by omega)
    refine ⟨?_, block_sizes_loop_sum _ hpos.le, ?_, ?_⟩
    · unfold DeviceInfo.block_sizes
      rw [block_sizes_loop_pos _ hpos]
      simp only [List.length_append, List.length_replicate, List.length_singleton]
      push_cast
      rw [hk]
      omega
    · unfold DeviceInfo.block_sizes
      rw [block_sizes_loop_pos _ hpos, List.dropLast_concat]
      intro s hs
      exact (List.mem_replicate.mp hs).2
    · unfold DeviceInfo.block_sizes
      rw [block_sizes_loop_pos _ hpos]
      exact ⟨_, List.getLast?_concat _, by omega, by omega⟩
  · intro h
    unfold DeviceInfo.block_sizes
    rw [h]
    exact block_sizes_loop_closed 4 1472 (by decide) (by decide)
  · intro h
    exact block_sizes_loop_nonpos _ h

theorem C6_block_sizes_witness :
    ({ width := 296, height := 128, bits_per_pixel := 2 } : DeviceInfo).fb_total_bytes = 9472
      ∧ ({ width := 296, height := 128, bits_per_pixel := 2 } : DeviceInfo).block_sizes
          = [2000, 2000, 2000, 2000, 1472] :=
  ⟨by decide,
    (C6_block_sizes { width := 296, height := 128, bits_per_pixel := 2 }).2.1 (by decide)⟩

/-- C7, as stated, fails: a grid of 2 rows and 2 columns at two bits per pixel packs
to 0 bytes (each row gives `2 / 4 = 0` bytes), not to `2 * 2 / (8 / 2) = 1`. -/
theorem C7_two_by_two_grid_counterexample :
    Rect [[0, 0], [0, 0]] 2 2
      ∧ (pack_pixels [[0, 0], [0, 0]] 2).length = 0
      ∧ (pack_pixels [[0, 0], [0, 0]] 2).length ≠ 2 * 2 / (8 / 2) := by
  exact ⟨by decide, by decide, by decide⟩

/-- C7, amended: for a rectangular grid of `H` rows and `W` columns and `b` in {1, 2},
`pack_pixels` has length `H * (W / (8/b))`, every row being packed on its own with a
truncating division; this is `H * W / (8/b)` when `8/b` divides `W`. -/
theorem C7_pack_pixels_length (g : List (List Int)) (H W b : Nat) (hg : Rect g H W)
    (_hb : b = 1 ∨ b = 2) :
    (pack_pixels g (b : Int)).length = H * (W / (8 / b))
      ∧ ((8 / b) ∣ W → (pack_pixels g (b : Int)).length = H * W / (8 / b)) := by
  refine ⟨pack_pixels_length g H W b hg, ?_⟩
  intro hdiv
  rw [pack_pixels_length g H W b hg, Nat.mul_div_assoc H hdiv]

theorem C7_pack_pixels_length_witness :
    (pack_pixels [[0, 1, 2, 3], [3, 2, 1, 0]] ((2 : Nat) : Int)).length = 2 * (4 / (8 / 2))
      ∧ ((8 / 2) ∣ 4 →
          (pack_pixels [[0, 1, 2, 3], [3, 2, 1, 0]] ((2 : Nat) : Int)).length
            = 2 * 4 / (8 / 2)) :=
  C7_pack_pixels_length [[0, 1, 2, 3], [3, 2, 1, 0]] 2 4 2 (by decide)
    (Or.inr rfl)

/-- C8: for a rectangular grid `src` of `H ≥ 1` rows and `W ≥ 1` columns,
`rotate_cw90 src` has `W` rows and `H` columns and `rot[r][c] = src[H-1-c][r]` for
all `r < W` and `c < H`. -/
theorem C8_rotate_cw90 (src : List (List Int)) (H W : Nat) (hsrc : Rect src H W)
    (hH : 1 ≤ H) (_hW : 1 ≤ W) :
    Rect (rotate_cw90 src) W H
      ∧ ∀ r, r < W → ∀ c, c < H →
          ((rotate_cw90 src).getD r []).getD c 0 = (src.getD (H - 1 - c) []).getD r 0 :=
  ⟨rotate_cw90_rect hsrc hH, fun _ hr _ hc => rotate_cw90_get hsrc hH hr hc⟩

theorem C8_rotate_cw90_witness :
    Rect (rotate_cw90 [[1, 2, 3], [4, 5, 6]]) 3 2
      ∧ ∀ r, r < 3 → ∀ c, c < 2 →
          ((rotate_cw90 [[1, 2, 3], [4, 5, 6]]).getD r []).getD c 0
            = (([[1, 2, 3], [4, 5, 6]] : List (List Int)).getD (2 - 1 - c) []).getD r 0 :=
  C8_rotate_cw90 [[1, 2, 3], [4, 5, 6]] 2 3 (by decide) (by decide) (by decide)

/-- C9: for a rectangular grid with at least one row and one column, four
applications of `rotate_cw90` give the grid back. -/
theorem C9_rotate_four (g : List (List Int)) (H W : Nat) (hg : Rect g H W)
    (hH : 1 ≤ H) (hW : 1 ≤ W) :
    rotate_cw90 (rotate_cw90 (rotate_cw90 (rotate_cw90 g))) = g := by
  have r1 := rotate_cw90_rect hg hH
  have r2 := rotate_cw90_rect r1 hW
  have r3 := rotate_cw90_rect r2 hH
  have r4 := rotate_cw90_rect r3 hW
  apply Rect.ext r4 hg
  intro r hr c hc
  rw [rotate_cw90_get r3 hW hr hc, rotate_cw90_get r2 hH (by omega) hr,
    rotate_cw90_get r1 hW (by omega) (by omega), rotate_cw90_get hg hH (by omega) (by omega)]
  have e1 : W - 1 - (W - 1 - c) = c := by omega
  have e2 : H - 1 - (H - 1 - r) = r := by omega
  rw [e1, e2]

theorem C9_rotate_four_witness :
    rotate_cw90 (rotate_cw90 (rotate_cw90 (rotate_cw90 [[1, 2, 3], [4, 5, 6]])))
      = [[1, 2, 3], [4, 5, 6]] :=
  C9_rotate_four [[1, 2, 3], [4, 5, 6]] 2 3 (by decide) (by decide) (by decide)

theorem make_fragments_three (c : List Nat) (h1 : 500 < c.length) (h2 : c.length ≤ 750) :
    make_fragments c = [c.take 250, (c.drop 250).take 250, c.drop 500] := by
  unfold make_fragments
  rw [make_fragments_loop_step c 0 (by omega), make_fragments_loop_step c (0 + 250) (by omega),
    make_fragments_loop_step c (0 + 250 + 250) (by omega),
    make_fragments_loop_done c (0 + 250 + 250 + 250) (by omega)]
  have e0 : min (0 + 250) c.length - 0 = 250 := by omega
  have e1 : min (0 + 250 + 250) c.length - (0 + 250) = 250 := by omega
  have e2 : (c.drop (0 + 250 + 250)).take (min (0 + 250 + 250 + 250) c.length - (0 + 250 + 250))
      = c.drop 500 :=
    List.take_of_length_le (by rw [List.length_drop]; omega)
  rw [e0, e1, e2, List.drop_zero]

/-- One block whose compressed form `c` has 501 to 750 bytes is sent as one group of
three APDUs carrying `c[0, 250)`, `c[250, 500)` and the rest. -/
theorem encode_one_block_three (cb : List Nat → List Nat) (grid : List (List Int))
    (info : DeviceInfo) (hone : info.block_sizes.length = 1)
    (h1 : 500 < (cb ((image_blocks grid info).getD 0 [])).length)
    (h2 : (cb ((image_blocks grid info).getD 0 [])).length ≤ 750) :
    encode_image cb grid info
      = [[{ cla := 0xF0, ins := 0xD3, p1 := 0, p2 := 0x00,
            data := [0, 0] ++ (cb ((image_blocks grid info).getD 0 [])).take 250,
            has_data := true, le := -1 },
          { cla := 0xF0, ins := 0xD3, p1 := 0, p2 := 0x00,
            data := [0, 1] ++ ((cb ((image_blocks grid info).getD 0 [])).drop 250).take 250,
            has_data := true, le := -1 },
          { cla := 0xF0, ins := 0xD3, p1 := 0, p2 := 0x01,
            data := [0, 2] ++ (cb ((image_blocks grid info).getD 0 [])).drop 500,
            has_data := true, le := -1 }]] := by
  rw [encode_image_eq, hone]
  show [block_apdus 0 (make_fragments (cb ((image_blocks grid info).getD 0 [])))] = _
  rw [make_fragments_three _ h1 h2]
  rfl

/-- C10: in the output of `encode_image`, the APDU at position `f` of group `b` has
`cla = 0xF0`, `ins = 0xD3`, `p1 = 0`, no Le (`le = -1`), `p2 = 0x01` when `f` is the
last position of the group and `0x00` otherwise, and data starting with the bytes
`[b mod 256, f mod 256]`. For a device of one block whose compressed form has 501 to
750 bytes, that is three fragments, `encode_image` returns exactly one group of exactly
three APDUs with `(p1, p2)` equal to `(0,0), (0,0), (0,1)` and data prefixes `[0,0]`,
`[0,1]`, `[0,2]`, followed by the bytes `[0, 250)`, `[250, 500)` and `[500, ..)` of the
compressed block; and any output of one group of three APDUs has those values. -/
theorem C10_apdu_fields (cb : List Nat → List Nat) (grid : List (List Int))
    (info : DeviceInfo) :
    (∀ (b f : Nat) (g : List Apdu) (a : Apdu),
        (encode_image cb grid info)[b]? = some g → g[f]? = some a →
          a.cla = 0xF0 ∧ a.ins = 0xD3 ∧ a.p1 = 0 ∧ a.le = -1
            ∧ a.p2 = (if f + 1 = g.length then 0x01 else 0x00)
            ∧ a.data.take 2 = [b % 256, f % 256])
      ∧ (∀ g : List Apdu, encode_image cb grid info = [g] → g.length = 3 →
          g.map (fun a => (a.p1, a.p2, a.data.take 2))
            = [(0, 0x00, [0, 0]), (0, 0x00, [0, 1]), (0, 0x01, [0, 2])])
      ∧ (info.block_sizes.length = 1 →
          500 < (cb ((image_blocks grid info).getD 0 [])).length →
          (cb ((image_blocks grid info).getD 0 [])).length ≤ 750 →
          ∃ g : List Apdu, encode_image cb grid info = [g] ∧ g.length = 3
            ∧ g.map (fun a => (a.p1, a.p2, a.data.take 2))
                = [(0, 0x00, [0, 0]), (0, 0x00, [0, 1]), (0, 0x01, [0, 2])]
            ∧ g.map (fun a => a.data.drop 2)
                = [(cb ((image_blocks grid info).getD 0 [])).take 250,
                   ((cb ((image_blocks grid info).getD 0 [])).drop 250).take 250,
                   (cb ((image_blocks grid info).getD 0 [])).drop 500]) := by
  have main : ∀ (b f : Nat) (g : List Apdu) (a : Apdu),
      (encode_image cb grid info)[b]? = some g → g[f]? = some a →
        a.cla = 0xF0 ∧ a.ins = 0xD3 ∧ a.p1 = 0 ∧ a.le = -1
          ∧ a.p2 = (if f + 1 = g.length then 0x01 else 0x00)
          ∧ a.data.take 2 = [b % 256, f % 256] := by
    intro b f g a hg ha
    have hg2 := encode_image_get cb grid info b g hg
    generalize make_fragments (cb ((image_blocks grid info).getD b [])) = frags at hg2
    rw [hg2] at ha
    obtain ⟨hf, rfl⟩ := block_apdus_get b frags f a ha
    rw [hg2, block_apdus_length]
    refine ⟨rfl, rfl, rfl, rfl, ?_, ?_⟩
    · simp only [build_image_data_apdu]
      by_cases hlast : f + 1 = frags.length
      · have : (f == frags.length - 1) = true := by rw [beq_iff_eq]; omega
        rw [this, if_pos hlast, if_pos rfl]
      · have : (f == frags.length - 1) = false := by rw [beq_eq_false_iff_ne]; omega
        rw [this, if_neg hlast]
        rfl
    · simp [build_image_data_apdu, u8_natCast]
  refine ⟨main, ?_, ?_⟩
  · intro g hg hlen
    obtain ⟨a0, a1, a2, rfl⟩ : ∃ a0 a1 a2, g = [a0, a1, a2] := by
      match g, hlen with
      | [a0, a1, a2], _ => exact ⟨a0, a1, a2, rfl⟩
    obtain ⟨_, _, p0, _, q0, d0⟩ := main 0 0 [a0, a1, a2] a0 (by rw [hg]; rfl) rfl
    obtain ⟨_, _, p1, _, q1, d1⟩ := main 0 1 [a0, a1, a2] a1 (by rw [hg]; rfl) rfl
    obtain ⟨_, _, p2, _, q2, d2⟩ := main 0 2 [a0, a1, a2] a2 (by rw [hg]; rfl) rfl
    simp only [List.map_cons, List.map_nil, p0, p1, p2, q0, q1, q2, d0, d1, d2]
    rfl
  · intro hone h1 h2
    exact ⟨_, encode_one_block_three cb grid info hone h1 h2, rfl, rfl, rfl⟩

theorem C10_apdu_fields_witness :
    ({ width := 8, height := 1, bits_per_pixel := 2 } : DeviceInfo).block_sizes.length = 1
      ∧ (List.replicate 601 (7 : Nat)).length = 601
      ∧ ∃ g : List Apdu,
          encode_image (fun _ => List.replicate 601 7) [[0, 1, 2, 3, 0, 1, 2, 3]]
              { width := 8, height := 1, bits_per_pixel := 2 } = [g]
            ∧ g.length = 3
            ∧ g.map (fun a => (a.p1, a.p2, a.data.take 2))
                = [(0, 0x00, [0, 0]), (0, 0x00, [0, 1]), (0, 0x01, [0, 2])]
            ∧ g.map (fun a => a.data.drop 2)
                = [(List.replicate 601 7).take 250, ((List.replicate 601 7).drop 250).take 250,
                   (List.replicate 601 7).drop 500] :=
  ⟨by rw [demo_block_sizes]; rfl, List.length_replicate 601 7,
    (C10_apdu_fields (fun _ => List.replicate 601 7) [[0, 1, 2, 3, 0, 1, 2, 3]]
      { width := 8, height := 1, bits_per_pixel := 2 }).2.2
      (by rw [demo_block_sizes]; rfl)
      (by
        show 500 < (List.replicate 601 7).length
        rw [List.length_replicate]
        decide)
      (by
        show (List.replicate 601 7).length ≤ 750
        rw [List.length_replicate]
        decide)⟩

/-! ## Device geometry, refresh status, fixed commands -/

/-- C14: for a device with `bits_per_pixel` 1 or 2, `rotated()` holds exactly when
`width = 296` and `height = 128`; the framebuffer is `(height, width)` when rotated
and `(width, height)` otherwise; `fb_bytes_per_row() = fb_width() / (8 / bits_per_pixel)`
(that is `fb_width() / 8` or `fb_width() / 4`) and
`fb_total_bytes() = fb_bytes_per_row() * fb_height()`. -/
theorem C14_framebuffer_geometry (d : DeviceInfo)
    (hbpp : d.bits_per_pixel = 1 ∨ d.bits_per_pixel = 2) :
    (d.rotated = true ↔ d.width = 296 ∧ d.height = 128)
      ∧ (d.rotated = true → d.fb_width = d.height ∧ d.fb_height = d.width)
      ∧ (d.rotated = false → d.fb_width = d.width ∧ d.fb_height = d.height)
      ∧ d.fb_bytes_per_row = Int.tdiv d.fb_width (Int.tdiv 8 d.bits_per_pixel)
      ∧ (d.bits_per_pixel = 1 → d.fb_bytes_per_row = Int.tdiv d.fb_width 8)
      ∧ (d.bits_per_pixel = 2 → d.fb_bytes_per_row = Int.tdiv d.fb_width 4)
      ∧ 0 < Int.tdiv 8 d.bits_per_pixel
      ∧ d.fb_total_bytes = d.fb_bytes_per_row * d.fb_height := by
  refine ⟨?_, ?_, ?_, rfl, ?_, ?_, ?_, rfl⟩
  · simp [DeviceInfo.rotated]
  · intro h; simp [DeviceInfo.fb_width, DeviceInfo.fb_height, h]
  · intro h; simp [DeviceInfo.fb_width, DeviceInfo.fb_height, h]
  · intro h; simp only [DeviceInfo.fb_bytes_per_row, DeviceInfo.pixels_per_byte, h]; rfl
  · intro h; simp only [DeviceInfo.fb_bytes_per_row, DeviceInfo.pixels_per_byte, h]; rfl
  · rcases hbpp with h | h <;> rw [h] <;> decide

theorem C14_framebuffer_geometry_witness :
    (({ width := 296, height := 128, bits_per_pixel := 2 } : DeviceInfo).rotated = true
        ↔ (296 : Int) = 296 ∧ (128 : Int) = 128)
      ∧ ({ width := 296, height := 128, bits_per_pixel := 2 } : DeviceInfo).fb_width = 128
      ∧ ({ width := 296, height := 128, bits_per_pixel := 2 } : DeviceInfo).fb_height = 296
      ∧ ({ width := 296, height := 128, bits_per_pixel := 2 } : DeviceInfo).fb_bytes_per_row
          = Int.tdiv 128 4 :=
  have h := C14_framebuffer_geometry { width := 296, height := 128, bits_per_pixel := 2 }
    (Or.inr rfl)
  ⟨h.1, (h.2.1 (by decide)).1, (h.2.1 (by decide)).2, h.2.2.2.2.2.1 rfl⟩

/-- C15: `is_refresh_complete r` is true exactly when `r` is non-empty and its first
byte is `0x00`; it is true for `[0x00, ...]`, false for `[0x01, ...]` and false for
the empty sequence. -/
theorem C15_is_refresh_complete (r : List Nat) :
    (is_refresh_complete r = true ↔ r ≠ [] ∧ r.head? = some 0x00)
      ∧ (∀ rest : List Nat, is_refresh_complete (0x00 :: rest) = true)
      ∧ (∀ rest : List Nat, is_refresh_complete (0x01 :: rest) = false)
      ∧ is_refresh_complete [] = false := by
  refine ⟨?_, fun _ => rfl, fun _ => rfl, rfl⟩
  cases r with
  | nil => simp [is_refresh_complete]
  | cons x rest => simp [is_refresh_complete]

/-- C16: the fixed APDU builders return the values of the table: authenticate
`00 20 00 01` with data `20 09 12 10` and no Le; device info `00 D1 00 00`, no data,
Le 256; refresh `F0 D4 85 80`, no data, Le 256; poll `F0 DE 00 00`, no data, Le 1. -/
theorem C16_fixed_apdus :
    (build_auth_apdu.cla = 0x00 ∧ build_auth_apdu.ins = 0x20 ∧ build_auth_apdu.p1 = 0x00
        ∧ build_auth_apdu.p2 = 0x01 ∧ build_auth_apdu.data = [0x20, 0x09, 0x12, 0x10]
        ∧ build_auth_apdu.has_data = true ∧ build_auth_apdu.le = -1)
      ∧ (build_device_info_apdu.cla = 0x00 ∧ build_device_info_apdu.ins = 0xD1
        ∧ build_device_info_apdu.p1 = 0x00 ∧ build_device_info_apdu.p2 = 0x00
        ∧ build_device_info_apdu.data = [] ∧ build_device_info_apdu.has_data = false
        ∧ build_device_info_apdu.le = 256)
      ∧ (build_refresh_apdu.cla = 0xF0 ∧ build_refresh_apdu.ins = 0xD4
        ∧ build_refresh_apdu.p1 = 0x85 ∧ build_refresh_apdu.p2 = 0x80
        ∧ build_refresh_apdu.data = [] ∧ build_refresh_apdu.has_data = false
        ∧ build_refresh_apdu.le = 256)
      ∧ (build_poll_apdu.cla = 0xF0 ∧ build_poll_apdu.ins = 0xDE
        ∧ build_poll_apdu.p1 = 0x00 ∧ build_poll_apdu.p2 = 0x00
        ∧ build_poll_apdu.data = [] ∧ build_poll_apdu.has_data = false
        ∧ build_poll_apdu.le = 1) := by
  decide

/-! ## Status word -/

theorem rcs380_apdu_bytes_ins (apdu : Apdu) :
    2 ≤ (rcs380_apdu_bytes apdu).length ∧ (rcs380_apdu_bytes apdu).getD 1 0 = apdu.ins := by
  unfold rcs380_apdu_bytes
  refine ⟨?_, ?_⟩
  · simp only [List.length_append, List.length_cons, List.length_nil]
    omega
  · rfl

theorem parse_sw_eq_ins (apdu : Apdu) (R : List Nat) :
    parse_sw (rcs380_apdu_bytes apdu) R
      = if R.length < 2 then
          (if apdu.ins = 0xDE ∨ apdu.ins = 0xD4 then .ok [] else .error .too_short)
        else if R.getD (R.length - 2) 0 ≠ 0x90 ∨ R.getD (R.length - 1) 0 ≠ 0x00 then
          (if apdu.ins = 0xDE ∨ apdu.ins = 0xD4 then .ok (R.take (R.length - 2))
            else .error (.apdu_status (R.getD (R.length - 2) 0) (R.getD (R.length - 1) 0)))
        else .ok (R.take (R.length - 2)) := by
  obtain ⟨h1, h2⟩ := rcs380_apdu_bytes_ins apdu
  unfold parse_sw
  simp only [h2, ge_iff_le, h1, true_and]

/-- C17: with `R` the reassembled response to an APDU of instruction byte `ins`:
when `R` has at least two bytes and ends in `90 00` the result is `R` without its
last two bytes; when it ends in another status the result is `R` without its last two
bytes for `ins` `0xD4` or `0xDE` and an APDU error otherwise; when `R` has fewer than
two bytes the result is empty for `ins` `0xD4` or `0xDE` and a failure otherwise.
This is what `send_apdu` returns once the exchange has produced `R`, and the libnfc
transport maps the bytes it receives in the same way. -/
theorem C17_status_word (apdu : Apdu) (R : List Nat) :
    (2 ≤ R.length → R.getD (R.length - 2) 0 = 0x90 → R.getD (R.length - 1) 0 = 0x00 →
        parse_sw (rcs380_apdu_bytes apdu) R = .ok (R.take (R.length - 2)))
      ∧ (2 ≤ R.length → ¬(R.getD (R.length - 2) 0 = 0x90 ∧ R.getD (R.length - 1) 0 = 0x00) →
          parse_sw (rcs380_apdu_bytes apdu) R
            = if apdu.ins = 0xD4 ∨ apdu.ins = 0xDE then .ok (R.take (R.length - 2))
              else .error (.apdu_status (R.getD (R.length - 2) 0) (R.getD (R.length - 1) 0)))
      ∧ (R.length < 2 →
          parse_sw (rcs380_apdu_bytes apdu) R
            = if apdu.ins = 0xD4 ∨ apdu.ins = 0xDE then .ok [] else .error .too_short)
      ∧ (∀ (s s1 s3 : Link) (response : List Nat),
          send_iblocks (rcs380_apdu_bytes apdu) 0 [] s = (.ok response, s1) →
          response ≠ [] →
          receive_chain response (response.drop 1) { s1 with block_nr := s1.block_nr ^^^ 1 }
            = (.ok R, s3) →
          Rcs380Transport.send_apdu apdu s = (parse_sw (rcs380_apdu_bytes apdu) R, s3))
      ∧ (∀ transceive : List Nat → Option (List Nat), transceive (libnfc_tx apdu) = some R →
          LibnfcTransport.send_apdu true apdu transceive
            = parse_sw (rcs380_apdu_bytes apdu) R) := by
  have hor : (apdu.ins = 0xDE ∨ apdu.ins = 0xD4) ↔ (apdu.ins = 0xD4 ∨ apdu.ins = 0xDE) :=
    Or.comm
  refine ⟨?_, ?_, ?_, ?_, ?_⟩
  · intro hlen h1 h2
    rw [parse_sw_eq_ins, if_neg (not_lt.mpr hlen), if_neg]
    intro h
    rcases h with h | h
    · exact h h1
    · exact h h2
  · intro hlen hsw
    rw [parse_sw_eq_ins]
    have hsw2 : R.getD (R.length - 2) 0 ≠ 0x90 ∨ R.getD (R.length - 1) 0 ≠ 0x00 := by
      by_cases h : R.getD (R.length - 2) 0 = 0x90
      · exact Or.inr (fun h2 => hsw ⟨h, h2⟩)
      · exact Or.inl h
    rw [if_neg (not_lt.mpr hlen), if_pos hsw2]
    simp only [hor]
  · intro hlen
    rw [parse_sw_eq_ins, if_pos hlen]
    simp only [hor]
  · intro s s1 s3 response hsend hne hrecv
    unfold Rcs380Transport.send_apdu send_apdu_impl
    rw [hsend]
    simp only [hne, if_false, hrecv]
  · intro transceive htr
    rw [parse_sw_eq_ins]
    unfold LibnfcTransport.send_apdu
    simp only [htr, Bool.not_true, Bool.false_eq_true, if_false]

theorem C17_status_word_witness :
    parse_sw (rcs380_apdu_bytes build_poll_apdu) [0x01, 0x6A, 0x82] = .ok [0x01]
      ∧ parse_sw (rcs380_apdu_bytes build_auth_apdu) [0x6A, 0x82]
          = .error (.apdu_status 0x6A 0x82)
      ∧ parse_sw (rcs380_apdu_bytes build_auth_apdu) [0x01, 0x90, 0x00] = .ok [0x01]
      ∧ parse_sw (rcs380_apdu_bytes build_poll_apdu) [0x00] = .ok [] :=
  ⟨((C17_status_word build_poll_apdu [0x01, 0x6A, 0x82]).2.1 (by decide) (by decide)).trans
      (by decide),
    ((C17_status_word build_auth_apdu [0x6A, 0x82]).2.1 (by decide) (by decide)).trans
      (by decide),
    (C17_status_word build_auth_apdu [0x01, 0x90, 0x00]).1 (by decide) (by decide) (by decide),
    ((C17_status_word build_poll_apdu [0x00]).2.2.1 (by decide)).trans (by decide)⟩

/-! ## Port-100 frames -/

theorem and_255 (x : Nat) : x &&& 0xFF = x % 256 := by
  have := Nat.and_pow_two_sub_one_eq_mod x 8
  simpa using this

theorem data_sum_fold (l : List Nat) (n : Nat) (hn : n ≤ l.length) :
    (List.range n).foldl (fun (acc : Nat) (k : Nat) => (acc + l.getD k 0) % 256) 0
      = (l.take n).sum % 256 := by
  induction n with
  | zero => simp
  | succ n ih =>
    have hlt : n < l.length := by omega
    rw [List.range_succ, List.foldl_append, ih (by omega)]
    simp only [List.foldl_cons, List.foldl_nil]
    rw [List.take_succ, List.getD_eq_getElem l 0 hlt, List.getElem?_eq_getElem hlt]
    simp only [Option.toList_some, List.sum_append, List.sum_cons, List.sum_nil, add_zero]
    omega

theorem frame_data_sum (hdr p : List Nat) (h : hdr.length = 8) :
    (List.range ((hdr ++ p).length - 8)).foldl
        (fun (acc : Nat) (k : Nat) => (acc + (hdr ++ p).getD (8 + k) 0) % 256) 0
      = p.sum % 256 := by
  have h8 : (hdr ++ p).length - 8 = p.length := by
    rw [List.length_append, h]; omega
  have := data_sum_fold p p.length le_rfl
  rw [List.take_length] at this
  rw [h8, ← this]
  apply List.foldl_ext
  intro acc k _
  rw [List.getD_append_right _ _ _ _ (by omega)]
  have : 8 + k - hdr.length = k := by omega
  rw [this]

theorem build_frame_eq (p : List Nat) :
    build_frame p
      = [0x00, 0x00, 0xFF, 0xFF, 0xFF, (p.length % 65536) % 256, (p.length % 65536) / 256 % 256,
          (256 - ((p.length % 65536) % 256 + (p.length % 65536) / 256 % 256) % 256) % 256]
        ++ p ++ [(256 - p.sum % 256) % 256, 0x00] := by
  simp only [build_frame]
  rw [frame_data_sum _ p (by simp)]
  simp [and_255, Nat.shiftRight_eq_div_pow]

/-- C19: for a payload `p` of fewer than 65536 bytes, `build_frame p` is
`00 00 FF FF FF, len_lo, len_hi, lcs, p, dcs, 00` with `len_lo`, `len_hi` the
little-endian bytes of the length, `lcs = (256 - (len_lo + len_hi)) mod 256` and
`dcs = (256 - sum p) mod 256`; `len_lo + len_hi + lcs` and `sum p + dcs` are 0 modulo
256 and the frame has `len p + 10` bytes. -/
theorem C19_build_frame (p : List Nat) (hp : p.length < 65536) :
    ∃ lcs dcs : Nat,
      build_frame p
          = [0x00, 0x00, 0xFF, 0xFF, 0xFF, p.length % 256, p.length / 256, lcs] ++ p
              ++ [dcs, 0x00]
        ∧ p.length = p.length % 256 + 256 * (p.length / 256)
        ∧ p.length % 256 < 256 ∧ p.length / 256 < 256
        ∧ (lcs : Int) = (256 - ((p.length % 256 : Nat) + (p.length / 256 : Nat) : Int)) % 256
        ∧ (dcs : Int) = (256 - (p.sum : Int)) % 256
        ∧ (p.length % 256 + p.length / 256 + lcs) % 256 = 0
        ∧ (p.sum + dcs) % 256 = 0
        ∧ (build_frame p).length = p.length + 10 := by
  refine ⟨(256 - (p.length % 256 + p.length / 256) % 256) % 256, (256 - p.sum % 256) % 256,
    ?_, by omega, by omega, by omega, by omega, by omega, by omega, by omega, ?_⟩
  · have h1 : p.length / 256 % 256 = p.length / 256 := Nat.mod_eq_of_lt (by omega)
    rw [build_frame_eq, Nat.mod_eq_of_lt hp, h1]
  · rw [build_frame_eq]
    simp only [List.length_append, List.length_cons, List.length_nil]
    omega

theorem C19_build_frame_witness :
    ∃ lcs dcs : Nat,
      build_frame [0xD6, 0x2A, 0x01]
          = [0x00, 0x00, 0xFF, 0xFF, 0xFF, 3 % 256, 3 / 256, lcs] ++ [0xD6, 0x2A, 0x01]
              ++ [dcs, 0x00]
        ∧ 3 = 3 % 256 + 256 * (3 / 256)
        ∧ 3 % 256 < 256 ∧ 3 / 256 < 256
        ∧ (lcs : Int) = (256 - ((3 % 256 : Nat) + (3 / 256 : Nat) : Int)) % 256
        ∧ (dcs : Int) = (256 - (([0xD6, 0x2A, 0x01] : List Nat).sum : Int)) % 256
        ∧ (3 % 256 + 3 / 256 + lcs) % 256 = 0
        ∧ (([0xD6, 0x2A, 0x01] : List Nat).sum + dcs) % 256 = 0
        ∧ (build_frame [0xD6, 0x2A, 0x01]).length = 3 + 10 :=
  C19_build_frame [0xD6, 0x2A, 0x01] (by decide)

/-! ## TLV parsing -/

theorem parse_tlv_loop_done (data : List Nat) (i : Nat) (m : TlvMap) (h : data.length ≤ i) :
    parse_tlv_loop data i m = m := by
  rw [parse_tlv_loop, if_neg (not_lt.mpr h)]

/-- One complete record at index `pre.length` is stored and skipped. -/
theorem parse_tlv_loop_record (pre v post : List Nat) (t : Nat) (m : TlvMap) :
    parse_tlv_loop (pre ++ ([t, v.length] ++ v ++ post)) pre.length m
      = parse_tlv_loop (pre ++ ([t, v.length] ++ v ++ post)) (pre.length + 2 + v.length)
          (m.set t v) := by
  have hlen : (pre ++ ([t, v.length] ++ v ++ post)).length
      = pre.length + 2 + v.length + post.length := by
    simp only [List.length_append, List.length_cons, List.length_nil]; omega
  have hg0 : (pre ++ ([t, v.length] ++ v ++ post)).getD pre.length 0 = t := by
    rw [List.getD_append_right _ _ _ _ le_rfl, Nat.sub_self]; rfl
  have hg1 : (pre ++ ([t, v.length] ++ v ++ post)).getD (pre.length + 1) 0 = v.length := by
    rw [List.getD_append_right _ _ _ _ (by omega)]
    have : pre.length + 1 - pre.length = 1 := by omega
    rw [this]; rfl
  have hval : ((pre ++ ([t, v.length] ++ v ++ post)).drop (pre.length + 2)).take v.length
      = v := by
    have : pre ++ ([t, v.length] ++ v ++ post) = (pre ++ [t, v.length]) ++ (v ++ post) := by
      simp
    rw [this, List.drop_left' (by simp), List.take_left]
  rw [parse_tlv_loop, if_pos (by omega), if_neg (by omega), hg1, if_neg (by omega), hg0, hval]

theorem serialize_tlv_cons (r : Nat × List Nat) (rest : List (Nat × List Nat))
    (h1 : r.1 < 256) (h2 : r.2.length ≤ 255) :
    serialize_tlv (r :: rest) = [r.1, r.2.length] ++ r.2 ++ serialize_tlv rest := by
  unfold serialize_tlv
  rw [List.flatMap_cons, Nat.mod_eq_of_lt h1, Nat.mod_eq_of_lt (by omega)]

theorem parse_tlv_loop_records (records : List (Nat × List Nat)) :
    (∀ r ∈ records, r.1 < 256 ∧ r.2.length ≤ 255) →
    ∀ (pre : List Nat) (m : TlvMap),
      parse_tlv_loop (pre ++ serialize_tlv records) pre.length m
        = records.foldl (fun (acc : TlvMap) (r : Nat × List Nat) => acc.set r.1 r.2) m := by
  induction records with
  | nil =>
    intro _ pre m
    exact parse_tlv_loop_done _ _ _ (by simp [serialize_tlv])
  | cons r rest ih =>
    intro hwf pre m
    obtain ⟨h1, h2⟩ := hwf r (List.mem_cons_self _ _)
    rw [serialize_tlv_cons r rest h1 h2, parse_tlv_loop_record pre r.2 (serialize_tlv rest) r.1 m]
    have hdata : pre ++ ([r.1, r.2.length] ++ r.2 ++ serialize_tlv rest)
        = (pre ++ ([r.1, r.2.length] ++ r.2)) ++ serialize_tlv rest := by simp
    have hidx : pre.length + 2 + r.2.length = (pre ++ ([r.1, r.2.length] ++ r.2)).length := by
      simp only [List.length_append, List.length_cons, List.length_nil]; omega
    rw [hdata, hidx, ih (fun x hx => hwf x (List.mem_cons_of_mem _ hx))]
    rfl

theorem parse_tlv_serialize (records : List (Nat × List Nat))
    (hwf : ∀ r ∈ records, r.1 < 256 ∧ r.2.length ≤ 255) :
    parse_tlv (serialize_tlv records)
      = records.foldl (fun (acc : TlvMap) (r : Nat × List Nat) => acc.set r.1 r.2)
          TlvMap.empty := by
  have := parse_tlv_loop_records records hwf [] TlvMap.empty
  simpa [parse_tlv] using this

theorem foldl_set_lookup (records : List (Nat × List Nat)) :
    (records.map Prod.fst).Nodup → ∀ m : TlvMap,
      (∀ t v, (t, v) ∈ records →
        records.foldl (fun (acc : TlvMap) (r : Nat × List Nat) => acc.set r.1 r.2) m t = some v)
      ∧ (∀ t, t ∉ records.map Prod.fst →
        records.foldl (fun (acc : TlvMap) (r : Nat × List Nat) => acc.set r.1 r.2) m t = m t) := by
  induction records with
  | nil => intro _ m; simp
  | cons r rest ih =>
    intro hnd m
    rw [List.map_cons, List.nodup_cons] at hnd
    obtain ⟨ih1, ih2⟩ := ih hnd.2 (m.set r.1 r.2)
    refine ⟨?_, ?_⟩
    · intro t v hmem
      rw [List.foldl_cons]
      rcases List.mem_cons.mp hmem with heq | hrest
      · subst heq
        rw [ih2 _ hnd.1]
        simp [TlvMap.set]
      · exact ih1 t v hrest
    · intro t ht
      rw [List.map_cons, List.mem_cons, not_or] at ht
      rw [List.foldl_cons, ih2 t ht.2]
      simp [TlvMap.set, ht.1]

/-- C13: for a finite map `m` from one-byte tags to values of at most 255 bytes,
and `records` any list of its `(tag, value)` pairs, one per tag,
`parse_tlv` of the concatenated records `(tag, length, value)` is `m`. -/
theorem C13_parse_tlv_roundtrip (m : TlvMap) (records : List (Nat × List Nat))
    (hnodup : (records.map Prod.fst).Nodup)
    (hgraph : ∀ t v, (t, v) ∈ records ↔ m t = some v)
    (hwf : ∀ r ∈ records, r.1 < 256 ∧ r.2.length ≤ 255) :
    parse_tlv (serialize_tlv records) = m := by
  rw [parse_tlv_serialize records hwf]
  obtain ⟨h1, h2⟩ := foldl_set_lookup records hnodup TlvMap.empty
  funext t
  rcases hm : m t with _ | v
  · rw [h2 t]
    · rfl
    · intro hmem
      obtain ⟨r, hr, rfl⟩ := List.mem_map.mp hmem
      have := (hgraph r.1 r.2).mp hr
      rw [hm] at this
      exact Option.noConfusion this
  · exact h1 t v ((hgraph t v).mpr hm)

theorem C13_parse_tlv_roundtrip_witness :
    parse_tlv (serialize_tlv [(0xC0, [0x31, 0x32]), (0xA0, [1, 2, 3])])
      = (TlvMap.empty.set 0xA0 [1, 2, 3]).set 0xC0 [0x31, 0x32] :=
  C13_parse_tlv_roundtrip ((TlvMap.empty.set 0xA0 [1, 2, 3]).set 0xC0 [0x31, 0x32])
    [(0xC0, [0x31, 0x32]), (0xA0, [1, 2, 3])] (by decide)
    (by
      intro t v
      by_cases h1 : t = 0xC0
      · subst h1
        simp [TlvMap.set, eq_comm]
      · by_cases h2 : t = 0xA0
        · subst h2
          simp [TlvMap.set, eq_comm]
        · simp [TlvMap.set, TlvMap.empty, h1, h2])
    (by decide)

/-! ## Device descriptor -/

theorem parse_device_info_of_a0 (data a0 : List Nat) (h : parse_tlv data 0xA0 = some a0) :
    parse_device_info data
      = if a0.length < 7 then .error .missing_or_invalid_a0
        else
          match COLOR_MODE_TO_BPP (a0.getD 1 0) with
          | none => .error (.unknown_color_mode (a0.getD 1 0))
          | some bpp =>
            .ok { width := (((a0.getD 5 0 <<< 8) ||| a0.getD 6 0 : Nat) : Int),
                  height := Int.tdiv (((a0.getD 3 0 <<< 8) ||| a0.getD 4 0 : Nat) : Int) bpp,
                  bits_per_pixel := bpp,
                  rows_per_block := ((a0.getD 2 0 : Nat) : Int), raw := data,
                  serial_number := (parse_tlv data 0xC0).getD [],
                  c1 := (parse_tlv data 0xC1).getD [] } := by
  simp only [parse_device_info, h]

theorem parse_device_info_no_a0 (data : List Nat) (h : parse_tlv data 0xA0 = none) :
    parse_device_info data = .error .missing_or_invalid_a0 := by
  simp only [parse_device_info, h]

/-- C12: `parse_device_info` fails exactly when the parsed TLV records have no tag
`A0`, or the `A0` value has fewer than 7 bytes, or its byte 1 is neither `0x01` nor
`0x07`; when it succeeds, color mode `0x01` gives `bits_per_pixel = 1` and `0x07`
gives `bits_per_pixel = 2`. -/
theorem C12_parse_device_info_failure (data : List Nat) :
    ((∃ e, parse_device_info data = .error e) ↔
        (parse_tlv data 0xA0 = none
          ∨ ∃ a0, parse_tlv data 0xA0 = some a0
              ∧ (a0.length < 7 ∨ (a0.getD 1 0 ≠ 0x01 ∧ a0.getD 1 0 ≠ 0x07))))
      ∧ (∀ info a0, parse_device_info data = .ok info → parse_tlv data 0xA0 = some a0 →
          (a0.getD 1 0 = 0x01 → info.bits_per_pixel = 1)
            ∧ (a0.getD 1 0 = 0x07 → info.bits_per_pixel = 2)
            ∧ (a0.getD 1 0 = 0x01 ∨ a0.getD 1 0 = 0x07)) := by
  rcases htlv : parse_tlv data 0xA0 with _ | a0
  · rw [parse_device_info_no_a0 data htlv]
    refine ⟨⟨fun _ => Or.inl rfl, fun _ => ⟨_, rfl⟩⟩, ?_⟩
    intro info a0 h
    exact Except.noConfusion h
  · rw [parse_device_info_of_a0 data a0 htlv]
    by_cases hlen : a0.length < 7
    · rw [if_pos hlen]
      refine ⟨⟨fun _ => Or.inr ⟨a0, rfl, Or.inl hlen⟩, fun _ => ⟨_, rfl⟩⟩, ?_⟩
      intro info a1 h
      exact Except.noConfusion h
    · rw [if_neg hlen]
      by_cases h1 : a0.getD 1 0 = 0x01
      · have hc : COLOR_MODE_TO_BPP (a0.getD 1 0) = some 1 := by
          unfold COLOR_MODE_TO_BPP
          rw [if_pos h1]
        rw [hc]
        refine ⟨⟨fun ⟨e, he⟩ => Except.noConfusion he, ?_⟩, ?_⟩
        · rintro (h | ⟨a1, ha1, h | h⟩)
          · exact Option.noConfusion h
          · cases ha1; exact absurd h hlen
          · cases ha1; exact absurd h1 h.1
        · intro info a1 hok ha1
          cases ha1
          cases hok
          exact ⟨fun _ => rfl, fun h7 => by rw [h1] at h7; exact absurd h7 (by decide),
            Or.inl h1⟩
      · by_cases h7 : a0.getD 1 0 = 0x07
        · have hc : COLOR_MODE_TO_BPP (a0.getD 1 0) = some 2 := by
            unfold COLOR_MODE_TO_BPP
            rw [if_neg h1, if_pos h7]
          rw [hc]
          refine ⟨⟨fun ⟨e, he⟩ => Except.noConfusion he, ?_⟩, ?_⟩
          · rintro (h | ⟨a1, ha1, h | h⟩)
            · exact Option.noConfusion h
            · cases ha1; exact absurd h hlen
            · cases ha1; exact absurd h7 h.2
          · intro info a1 hok ha1
            cases ha1
            cases hok
            exact ⟨fun h => absurd h h1, fun _ => rfl, Or.inr h7⟩
        · have hc : COLOR_MODE_TO_BPP (a0.getD 1 0) = none := by
            unfold COLOR_MODE_TO_BPP
            rw [if_neg h1, if_neg h7]
          rw [hc]
          refine ⟨⟨fun _ => Or.inr ⟨a0, rfl, Or.inr ⟨h1, h7⟩⟩, fun _ => ⟨_, rfl⟩⟩, ?_⟩
          intro info a1 h
          exact Except.noConfusion h

theorem block_sizes_of_total (d : DeviceInfo) (k : Nat) (r : Int)
    (h : d.fb_total_bytes = 2000 * (k : Int) + r) (h1 : 1 ≤ r) (h2 : r ≤ 2000) :
    d.block_sizes = List.replicate k 2000 ++ [r] ∧ d.num_blocks = (k : Int) + 1 := by
  have hb : d.block_sizes = List.replicate k 2000 ++ [r] := by
    unfold DeviceInfo.block_sizes
    rw [h]
    exact block_sizes_loop_closed k r h1 h2
  refine ⟨hb, ?_⟩
  unfold DeviceInfo.num_blocks
  rw [hb]
  simp

theorem demo_descriptor_tlv :
    parse_tlv [0xA0, 0x07, 0x00, 0x07, 0x08, 0x00, 0x80, 0x01, 0x28,
               0xC0, 0x05, 0x31, 0x32, 0x33, 0x34, 0x35]
      = (TlvMap.empty.set 0xA0 [0x00, 0x07, 0x08, 0x00, 0x80, 0x01, 0x28]).set 0xC0
          [0x31, 0x32, 0x33, 0x34, 0x35] :=
  parse_tlv_serialize
    [(0xA0, [0x00, 0x07, 0x08, 0x00, 0x80, 0x01, 0x28]), (0xC0, [0x31, 0x32, 0x33, 0x34, 0x35])]
    (by decide)

theorem demo_descriptor_info :
    parse_device_info [0xA0, 0x07, 0x00, 0x07, 0x08, 0x00, 0x80, 0x01, 0x28,
                       0xC0, 0x05, 0x31, 0x32, 0x33, 0x34, 0x35]
      = .ok { width := 296, height := 64, bits_per_pixel := 2, rows_per_block := 8,
              serial_number := [0x31, 0x32, 0x33, 0x34, 0x35], c1 := [],
              raw := [0xA0, 0x07, 0x00, 0x07, 0x08, 0x00, 0x80, 0x01, 0x28,
                      0xC0, 0x05, 0x31, 0x32, 0x33, 0x34, 0x35] } := by
  rw [parse_device_info_of_a0 _ [0x00, 0x07, 0x08, 0x00, 0x80, 0x01, 0x28]
    (by rw [demo_descriptor_tlv]; rfl), demo_descriptor_tlv]
  rfl

theorem tall_descriptor_tlv :
    parse_tlv [0xA0, 0x07, 0x00, 0x07, 0x08, 0x01, 0x00, 0x01, 0x28,
               0xC0, 0x05, 0x31, 0x32, 0x33, 0x34, 0x35]
      = (TlvMap.empty.set 0xA0 [0x00, 0x07, 0x08, 0x01, 0x00, 0x01, 0x28]).set 0xC0
          [0x31, 0x32, 0x33, 0x34, 0x35] :=
  parse_tlv_serialize
    [(0xA0, [0x00, 0x07, 0x08, 0x01, 0x00, 0x01, 0x28]), (0xC0, [0x31, 0x32, 0x33, 0x34, 0x35])]
    (by decide)

theorem tall_descriptor_info :
    parse_device_info [0xA0, 0x07, 0x00, 0x07, 0x08, 0x01, 0x00, 0x01, 0x28,
                       0xC0, 0x05, 0x31, 0x32, 0x33, 0x34, 0x35]
      = .ok { width := 296, height := 128, bits_per_pixel := 2, rows_per_block := 8,
              serial_number := [0x31, 0x32, 0x33, 0x34, 0x35], c1 := [],
              raw := [0xA0, 0x07, 0x00, 0x07, 0x08, 0x01, 0x00, 0x01, 0x28,
                      0xC0, 0x05, 0x31, 0x32, 0x33, 0x34, 0x35] } := by
  rw [parse_device_info_of_a0 _ [0x00, 0x07, 0x08, 0x01, 0x00, 0x01, 0x28]
    (by rw [tall_descriptor_tlv]; rfl), tall_descriptor_tlv]
  rfl

theorem C12_parse_device_info_failure_witness :
    (∀ info a0,
        parse_device_info [0xA0, 0x07, 0x00, 0x07, 0x08, 0x00, 0x80, 0x01, 0x28,
                           0xC0, 0x05, 0x31, 0x32, 0x33, 0x34, 0x35] = .ok info →
        parse_tlv [0xA0, 0x07, 0x00, 0x07, 0x08, 0x00, 0x80, 0x01, 0x28,
                   0xC0, 0x05, 0x31, 0x32, 0x33, 0x34, 0x35] 0xA0 = some a0 →
          (a0.getD 1 0 = 0x01 → info.bits_per_pixel = 1)
            ∧ (a0.getD 1 0 = 0x07 → info.bits_per_pixel = 2)
            ∧ (a0.getD 1 0 = 0x01 ∨ a0.getD 1 0 = 0x07))
      ∧ parse_tlv [0xA0, 0x07, 0x00, 0x07, 0x08, 0x00, 0x80, 0x01, 0x28,
                   0xC0, 0x05, 0x31, 0x32, 0x33, 0x34, 0x35] 0xA0
          = some [0x00, 0x07, 0x08, 0x00, 0x80, 0x01, 0x28] :=
  ⟨(C12_parse_device_info_failure [0xA0, 0x07, 0x00, 0x07, 0x08, 0x00, 0x80, 0x01, 0x28,
      0xC0, 0x05, 0x31, 0x32, 0x33, 0x34, 0x35]).2,
    by rw [demo_descriptor_tlv]; rfl⟩

/-- C11, as stated, fails: on the bytes `A0 07 00 07 08 00 80 01 28 C0 05 31 32 33 34 35`
`parse_device_info` returns `height = 64` (the raw height `0x0080 = 128` divided by
`bits_per_pixel = 2`), not 128, and the device is not rotated. -/
theorem C11_descriptor_height_counterexample :
    ∃ info, parse_device_info [0xA0, 0x07, 0x00, 0x07, 0x08, 0x00, 0x80, 0x01, 0x28,
                               0xC0, 0x05, 0x31, 0x32, 0x33, 0x34, 0x35] = .ok info
      ∧ info.height = 64 ∧ info.height ≠ 128 ∧ info.rotated = false
      ∧ info.fb_total_bytes ≠ 9472 :=
  ⟨_, demo_descriptor_info, by decide, by decide, by decide, by decide⟩

/-- C11, amended: on the bytes `A0 07 00 07 08 00 80 01 28 C0 05 31 32 33 34 35`
`parse_device_info` returns `width = 296`, `height = 64`, `bits_per_pixel = 2`,
`rows_per_block = 8` and serial number "12345", so that `rotated() = false`,
`fb_width() = 296`, `fb_height() = 64`, `fb_bytes_per_row() = 74`,
`fb_total_bytes() = 4736`, `num_blocks() = 3` and `block_sizes() = [2000, 2000, 736]`.
The values of the claim (`height = 128`, rotated, 128 by 296, 32 bytes per row, 9472
bytes, 5 blocks) are those of the descriptor whose height field is `01 00`. -/
theorem C11_descriptor_scenario :
    (∃ info, parse_device_info [0xA0, 0x07, 0x00, 0x07, 0x08, 0x00, 0x80, 0x01, 0x28,
                                0xC0, 0x05, 0x31, 0x32, 0x33, 0x34, 0x35] = .ok info
        ∧ info.width = 296 ∧ info.height = 64 ∧ info.bits_per_pixel = 2
        ∧ info.rows_per_block = 8 ∧ info.serial_number = [0x31, 0x32, 0x33, 0x34, 0x35]
        ∧ info.rotated = false ∧ info.fb_width = 296 ∧ info.fb_height = 64
        ∧ info.fb_bytes_per_row = 74 ∧ info.fb_total_bytes = 4736 ∧ info.num_blocks = 3
        ∧ info.block_sizes = [2000, 2000, 736])
      ∧ (∃ info, parse_device_info [0xA0, 0x07, 0x00, 0x07, 0x08, 0x01, 0x00, 0x01, 0x28,
                                    0xC0, 0x05, 0x31, 0x32, 0x33, 0x34, 0x35] = .ok info
        ∧ info.width = 296 ∧ info.height = 128 ∧ info.bits_per_pixel = 2
        ∧ info.rows_per_block = 8 ∧ info.serial_number = [0x31, 0x32, 0x33, 0x34, 0x35]
        ∧ info.rotated = true ∧ info.fb_width = 128 ∧ info.fb_height = 296
        ∧ info.fb_bytes_per_row = 32 ∧ info.fb_total_bytes = 9472 ∧ info.num_blocks = 5
        ∧ info.block_sizes = [2000, 2000, 2000, 2000, 1472]) := by
  refine ⟨⟨_, demo_descriptor_info, rfl, rfl, rfl, rfl, rfl, by decide, by decide, by decide,
    by decide, by decide, ?_, ?_⟩, ⟨_, tall_descriptor_info, rfl, rfl, rfl, rfl, rfl,
    by decide, by decide, by decide, by decide, by decide, ?_, ?_⟩⟩
  · exact (block_sizes_of_total _ 2 736 (by decide) (by decide) (by decide)).2
  · exact (block_sizes_of_total _ 2 736 (by decide) (by decide) (by decide)).1
  · exact (block_sizes_of_total _ 4 1472 (by decide) (by decide) (by decide)).2
  · exact (block_sizes_of_total _ 4 1472 (by decide) (by decide) (by decide)).1

/-! ## Nearest palette colour -/

/-- The state of the loop of `nearest_color` after `n` rounds: the first index of
least distance among the entries seen. -/
theorem nearest_color_fold (r g b : Int) (palette : List Color)
    (hbound : ∀ j, j < palette.length → sq_dist r g b (palette.getD j ⟨0, 0, 0⟩) < INT32_MAX)
    (n : Nat) (hn : n ≤ palette.length) (hpos : 0 < n) :
    ∃ i : Nat,
      (List.range n).foldl
          (fun (best : Int × Int) (i : Nat) =>
            if sq_dist r g b (palette.getD i ⟨0, 0, 0⟩) < best.2
            then ((i : Int), sq_dist r g b (palette.getD i ⟨0, 0, 0⟩)) else best)
          ((0 : Int), INT32_MAX)
        = ((i : Int), sq_dist r g b (palette.getD i ⟨0, 0, 0⟩))
      ∧ i < n
      ∧ (∀ j, j < n → sq_dist r g b (palette.getD i ⟨0, 0, 0⟩)
                        ≤ sq_dist r g b (palette.getD j ⟨0, 0, 0⟩))
      ∧ (∀ j, j < i → sq_dist r g b (palette.getD i ⟨0, 0, 0⟩)
                        < sq_dist r g b (palette.getD j ⟨0, 0, 0⟩)) := by
  induction n with
  | zero => exact absurd hpos (lt_irrefl 0)
  | succ n ih =>
    rw [List.range_succ, List.foldl_append]
    rcases Nat.eq_zero_or_pos n with h0 | hnpos
    · subst h0
      refine ⟨0, ?_, by omega, ?_, ?_⟩
      · have := hbound 0 (by omega)
        simp only [List.range_zero, List.foldl_nil, List.foldl_cons, if_pos this]
      · intro j hj
        have : j = 0 := by omega
        rw [this]
      · intro j hj
        omega
    · obtain ⟨i, hst, hi, hmin, hfirst⟩ := ih (by omega) hnpos
      by_cases hlt : sq_dist r g b (palette.getD n ⟨0, 0, 0⟩)
          < sq_dist r g b (palette.getD i ⟨0, 0, 0⟩)
      · refine ⟨n, ?_, by omega, ?_, ?_⟩
        · simp only [hst, List.foldl_cons, List.foldl_nil, if_pos hlt]
        · intro j hj
          rcases Nat.lt_succ_iff_lt_or_eq.mp hj with h | h
          · exact le_of_lt (lt_of_lt_of_le hlt (hmin j h))
          · rw [h]
        · intro j hj
          exact lt_of_lt_of_le hlt (hmin j hj)
      · refine ⟨i, ?_, by omega, ?_, hfirst⟩
        · simp only [hst, List.foldl_cons, List.foldl_nil, if_neg hlt]
        · intro j hj
          rcases Nat.lt_succ_iff_lt_or_eq.mp hj with h | h
          · exact hmin j h
          · rw [h]; exact not_lt.mp hlt

theorem palette_dist_bound (r g b : Int) (hr : 0 ≤ r ∧ r ≤ 255) (hg : 0 ≤ g ∧ g ≤ 255)
    (hb : 0 ≤ b ∧ b ≤ 255) (j : Nat) (hj : j < PALETTE_4COLOR.length) :
    sq_dist r g b (PALETTE_4COLOR.getD j ⟨0, 0, 0⟩) < INT32_MAX := by
  have sq0 : ∀ x : Int, 0 ≤ x → x ≤ 255 → (x - 0) * (x - 0) ≤ 65025 := by
    intro x h0 h1; nlinarith
  have sq255 : ∀ x : Int, 0 ≤ x → x ≤ 255 → (x - 255) * (x - 255) ≤ 65025 := by
    intro x h0 h1; nlinarith
  have hj4 : j < 4 := hj
  have r0 := sq0 r hr.1 hr.2
  have g0 := sq0 g hg.1 hg.2
  have b0 := sq0 b hb.1 hb.2
  have r1 := sq255 r hr.1 hr.2
  have g1 := sq255 g hg.1 hg.2
  have b1 := sq255 b hb.1 hb.2
  interval_cases j <;>
    simp only [PALETTE_4COLOR, List.getD_cons_zero, List.getD_cons_succ, sq_dist, INT32_MAX] <;>
    omega

theorem nearest_color_argmin (r g b : Int) (hr : 0 ≤ r ∧ r ≤ 255) (hg : 0 ≤ g ∧ g ≤ 255)
    (hb : 0 ≤ b ∧ b ≤ 255) :
    ∃ i : Nat, nearest_color r g b PALETTE_4COLOR = (i : Int) ∧ i < 4
      ∧ (∀ j, j < 4 → sq_dist r g b (PALETTE_4COLOR.getD i ⟨0, 0, 0⟩)
                        ≤ sq_dist r g b (PALETTE_4COLOR.getD j ⟨0, 0, 0⟩))
      ∧ (∀ j, j < i → sq_dist r g b (PALETTE_4COLOR.getD i ⟨0, 0, 0⟩)
                        < sq_dist r g b (PALETTE_4COLOR.getD j ⟨0, 0, 0⟩)) := by
  obtain ⟨i, hst, hi, hmin, hfirst⟩ := nearest_color_fold r g b PALETTE_4COLOR
    (palette_dist_bound r g b hr hg hb) PALETTE_4COLOR.length le_rfl (by decide)
  refine ⟨i, ?_, hi, hmin, hfirst⟩
  exact congrArg Prod.fst hst

theorem dither_none_entry (rgb : List Nat) (W H : Nat) (palette : List Color) (y x : Nat)
    (hy : y < H) (hx : x < W) :
    ((dither_none rgb (W : Int) (H : Int) palette).getD y []).getD x 0
      = nearest_color ((rgb.getD (3 * (y * W + x)) 0 : Nat) : Int)
          ((rgb.getD (3 * (y * W + x) + 1) 0 : Nat) : Int)
          ((rgb.getD (3 * (y * W + x) + 2) 0 : Nat) : Int) palette := by
  have hylen : y < (dither_none rgb (W : Int) (H : Int) palette).length := by
    simp only [dither_none, List.length_map, List.length_range, Int.toNat_natCast]; exact hy
  rw [List.getD_eq_getElem _ [] hylen]
  simp only [dither_none, List.getElem_map, List.getElem_range, Int.toNat_natCast]
  have hxlen : x < ((List.range W).map fun (x : Nat) =>
      nearest_color ((rgb.getD (((y : Int) * (W : Int) + (x : Int)) * 3).toNat 0 : Nat) : Int)
        ((rgb.getD (((y : Int) * (W : Int) + (x : Int)) * 3 + 1).toNat 0 : Nat) : Int)
        ((rgb.getD (((y : Int) * (W : Int) + (x : Int)) * 3 + 2).toNat 0 : Nat) : Int)
        palette).length := by
    simp only [List.length_map, List.length_range]; exact hx
  rw [List.getD_eq_getElem _ 0 hxlen]
  simp only [List.getElem_map, List.getElem_range]
  have e0 : (((y : Int) * (W : Int) + (x : Int)) * 3).toNat = 3 * (y * W + x) := by
    have : ((y : Int) * (W : Int) + (x : Int)) * 3 = ((3 * (y * W + x) : Nat) : Int) := by
      push_cast; ring
    rw [this, Int.toNat_natCast]
  have e1 : (((y : Int) * (W : Int) + (x : Int)) * 3 + 1).toNat = 3 * (y * W + x) + 1 := by
    have : ((y : Int) * (W : Int) + (x : Int)) * 3 + 1 = ((3 * (y * W + x) + 1 : Nat) : Int) := by
      push_cast; ring
    rw [this, Int.toNat_natCast]
  have e2 : (((y : Int) * (W : Int) + (x : Int)) * 3 + 2).toNat = 3 * (y * W + x) + 2 := by
    have : ((y : Int) * (W : Int) + (x : Int)) * 3 + 2 = ((3 * (y * W + x) + 2 : Nat) : Int) := by
      push_cast; ring
    rw [this, Int.toNat_natCast]
  rw [e0, e1, e2]

theorem dither_none_rect (rgb : List Nat) (W H : Nat) (palette : List Color) :
    Rect (dither_none rgb (W : Int) (H : Int) palette) H W := by
  refine ⟨by simp [dither_none], ?_⟩
  intro row hrow
  simp only [dither_none, List.mem_map] at hrow
  obtain ⟨y, _, rfl⟩ := hrow
  simp

theorem byte_in_range (rgb : List Nat) (hbytes : ∀ v ∈ rgb, v < 256) (k : Nat) :
    0 ≤ ((rgb.getD k 0 : Nat) : Int) ∧ ((rgb.getD k 0 : Nat) : Int) ≤ 255 := by
  rcases lt_or_le k rgb.length with h | h
  · rw [List.getD_eq_getElem rgb 0 h]
    have := hbytes _ (List.getElem_mem h)
    omega
  · rw [List.getD_eq_default rgb 0 h]
    omega

/-- C20: for `r`, `g`, `b` in `0 .. 255` and the 4-colour palette, `nearest_color`
returns an index `i` whose squared RGB distance is at most that of every palette entry
and strictly less than that of every entry of lower index; `dither_none` on a buffer
of `3 * W * H` bytes gives an `H` by `W` grid whose entry `[y][x]` is this index for
the pixel at `(x, y)`, the bytes `3 * (y * W + x)`, `+ 1`, `+ 2` of the buffer. -/
theorem C20_nearest_color :
    (∀ r g b : Int, 0 ≤ r ∧ r ≤ 255 → 0 ≤ g ∧ g ≤ 255 → 0 ≤ b ∧ b ≤ 255 →
      ∃ i : Nat, nearest_color r g b PALETTE_4COLOR = (i : Int) ∧ i < 4
        ∧ (∀ j, j < 4 → sq_dist r g b (PALETTE_4COLOR.getD i ⟨0, 0, 0⟩)
                          ≤ sq_dist r g b (PALETTE_4COLOR.getD j ⟨0, 0, 0⟩))
        ∧ (∀ j, j < i → sq_dist r g b (PALETTE_4COLOR.getD i ⟨0, 0, 0⟩)
                          < sq_dist r g b (PALETTE_4COLOR.getD j ⟨0, 0, 0⟩)))
      ∧ (∀ (rgb : List Nat) (W H : Nat), rgb.length = 3 * W * H → (∀ v ∈ rgb, v < 256) →
          Rect (dither_none rgb (W : Int) (H : Int) PALETTE_4COLOR) H W
            ∧ ∀ y, y < H → ∀ x, x < W →
                ((dither_none rgb (W : Int) (H : Int) PALETTE_4COLOR).getD y []).getD x 0
                    = nearest_color ((rgb.getD (3 * (y * W + x)) 0 : Nat) : Int)
                        ((rgb.getD (3 * (y * W + x) + 1) 0 : Nat) : Int)
                        ((rgb.getD (3 * (y * W + x) + 2) 0 : Nat) : Int) PALETTE_4COLOR
                  ∧ ∃ i : Nat,
                      ((dither_none rgb (W : Int) (H : Int) PALETTE_4COLOR).getD y []).getD x 0
                          = (i : Int)
                        ∧ i < 4
                        ∧ (∀ j, j < 4 →
                            sq_dist ((rgb.getD (3 * (y * W + x)) 0 : Nat) : Int)
                                ((rgb.getD (3 * (y * W + x) + 1) 0 : Nat) : Int)
                                ((rgb.getD (3 * (y * W + x) + 2) 0 : Nat) : Int)
                                (PALETTE_4COLOR.getD i ⟨0, 0, 0⟩)
                              ≤ sq_dist ((rgb.getD (3 * (y * W + x)) 0 : Nat) : Int)
                                  ((rgb.getD (3 * (y * W + x) + 1) 0 : Nat) : Int)
                                  ((rgb.getD (3 * (y * W + x) + 2) 0 : Nat) : Int)
                                  (PALETTE_4COLOR.getD j ⟨0, 0, 0⟩))
                        ∧ (∀ j, j < i →
                            sq_dist ((rgb.getD (3 * (y * W + x)) 0 : Nat) : Int)
                                ((rgb.getD (3 * (y * W + x) + 1) 0 : Nat) : Int)
                                ((rgb.getD (3 * (y * W + x) + 2) 0 : Nat) : Int)
                                (PALETTE_4COLOR.getD i ⟨0, 0, 0⟩)
                              < sq_dist ((rgb.getD (3 * (y * W + x)) 0 : Nat) : Int)
                                  ((rgb.getD (3 * (y * W + x) + 1) 0 : Nat) : Int)
                                  ((rgb.getD (3 * (y * W + x) + 2) 0 : Nat) : Int)
                                  (PALETTE_4COLOR.getD j ⟨0, 0, 0⟩))) := by
  refine ⟨nearest_color_argmin, ?_⟩
  intro rgb W H _ hbytes
  refine ⟨dither_none_rect rgb W H PALETTE_4COLOR, ?_⟩
  intro y hy x hx
  refine ⟨dither_none_entry rgb W H PALETTE_4COLOR y x hy hx, ?_⟩
  rw [dither_none_entry rgb W H PALETTE_4COLOR y x hy hx]
  exact nearest_color_argmin _ _ _ (byte_in_range rgb hbytes _) (byte_in_range rgb hbytes _)
    (byte_in_range rgb hbytes _)

theorem C20_nearest_color_witness :
    (∃ i : Nat, nearest_color 200 200 10 PALETTE_4COLOR = (i : Int) ∧ i < 4
        ∧ (∀ j, j < 4 → sq_dist 200 200 10 (PALETTE_4COLOR.getD i ⟨0, 0, 0⟩)
                          ≤ sq_dist 200 200 10 (PALETTE_4COLOR.getD j ⟨0, 0, 0⟩))
        ∧ (∀ j, j < i → sq_dist 200 200 10 (PALETTE_4COLOR.getD i ⟨0, 0, 0⟩)
                          < sq_dist 200 200 10 (PALETTE_4COLOR.getD j ⟨0, 0, 0⟩)))
      ∧ nearest_color 200 200 10 PALETTE_4COLOR = 2
      ∧ Rect (dither_none [255, 0, 0, 0, 0, 0] ((2 : Nat) : Int) ((1 : Nat) : Int)
          PALETTE_4COLOR) 1 2
      ∧ dither_none [255, 0, 0, 0, 0, 0] 2 1 PALETTE_4COLOR = [[3, 0]] :=
  ⟨C20_nearest_color.1 200 200 10 (by decide) (by decide) (by decide), by decide,
    (C20_nearest_color.2 [255, 0, 0, 0, 0, 0] 2 1 (by decide) (by decide)).1, by decide⟩

/-! ## ISO-DEP block number -/

theorem in_comm_rf_spec (data : List Nat) (t : Int) (s s1 : Link) (rep : Option (List Nat))
    (h : in_comm_rf data t s = (rep, s1)) :
    s1.block_nr = s.block_nr ∧ s1.log = s.log ++ [⟨data, t, rep⟩]
      ∧ (∀ r, rep = some r → s1.card.length + 1 = s.card.length) := by
  unfold in_comm_rf at h
  split at h
  · simp only [Prod.mk.injEq] at h
    obtain ⟨h1, h2⟩ := h
    subst h1 h2
    exact ⟨rfl, rfl, fun r hr => Option.noConfusion hr⟩
  · rename_i r rest hc
    simp only [Prod.mk.injEq] at h
    obtain ⟨h1, h2⟩ := h
    subst h1 h2
    exact ⟨rfl, rfl, fun _ _ => by simp [hc]⟩

theorem chained_blocks_append (a b : List Exchange) :
    chained_blocks (a ++ b) = chained_blocks a + chained_blocks b := by
  simp [chained_blocks, List.filter_append]

theorem xor_toggle (N m : Nat) : (N ^^^ (m % 2)) ^^^ 1 = N ^^^ ((m + 1) % 2) := by
  rcases Nat.mod_two_eq_zero_or_one m with h | h
  · have : (m + 1) % 2 = 1 := by omega
    rw [h, this, Nat.xor_zero]
  · have : (m + 1) % 2 = 0 := by omega
    rw [h, this, Nat.xor_assoc, Nat.xor_self]

/-- The WTX loop leaves the block number alone and logs only S(WTX) replies. -/
theorem wtx_loop_spec (n : Nat) :
    ∀ (response : List Nat) (s s2 : Link) (out : Except TransportError (List Nat)),
      s.card.length = n → wtx_loop response s = (out, s2) →
      s2.block_nr = s.block_nr
        ∧ ∃ extra, s2.log = s.log ++ extra ∧ chained_blocks extra = 0 := by
  induction n with
  | zero =>
    intro response s s2 out hn h
    rw [wtx_loop] at h
    split at h
    · split at h
      · simp only [Prod.mk.injEq] at h
        rw [← h.2]
        exact ⟨rfl, [], by simp, rfl⟩
      · rename_i b1 hb1
        split at h
        · rename_i s1 hc
          obtain ⟨e1, e2, _⟩ := in_comm_rf_spec _ _ _ _ _ hc
          simp only [Prod.mk.injEq] at h
          rw [← h.2]
          exact ⟨e1, _, e2, by simp [chained_blocks]⟩
        · rename_i r s1 hc
          obtain ⟨_, _, e3⟩ := in_comm_rf_spec _ _ _ _ _ hc
          have := e3 r rfl
          omega
    · simp only [Prod.mk.injEq] at h
      rw [← h.2]
      exact ⟨rfl, [], by simp, rfl⟩
  | succ n ih =>
    intro response s s2 out hn h
    rw [wtx_loop] at h
    split at h
    · split at h
      · simp only [Prod.mk.injEq] at h
        rw [← h.2]
        exact ⟨rfl, [], by simp, rfl⟩
      · rename_i b1 hb1
        split at h
        · rename_i s1 hc
          obtain ⟨e1, e2, _⟩ := in_comm_rf_spec _ _ _ _ _ hc
          simp only [Prod.mk.injEq] at h
          rw [← h.2]
          exact ⟨e1, _, e2, by simp [chained_blocks]⟩
        · rename_i r s1 hc
          obtain ⟨e1, e2, e3⟩ := in_comm_rf_spec _ _ _ _ _ hc
          have hlen : s1.card.length = n := by have := e3 r rfl; omega
          obtain ⟨i1, extra, i2, i3⟩ := ih r s1 s2 out hlen h
          refine ⟨by rw [i1, e1],
            [{ data := [0xF2, b1], timeout_ms := ((b1 &&& 0x3F : Nat) : Int) * 1000,
               reply := some r }] ++ extra,
            by rw [i2, e2, List.append_assoc], ?_⟩
          rw [chained_blocks_append, i3]
          simp [chained_blocks]
    · simp only [Prod.mk.injEq] at h
      rw [← h.2]
      exact ⟨rfl, [], by simp, rfl⟩

theorem send_iblocks_done (bytes : List Nat) (offset : Nat) (response : List Nat) (s : Link)
    (h : bytes.length ≤ offset) : send_iblocks bytes offset response s = (.ok response, s) := by
  rw [send_iblocks, if_neg (not_lt.mpr h)]

theorem xor_one_toggle (N m : Nat) (hm : 0 < m) :
    (N ^^^ 1) ^^^ ((m - 1) % 2) = N ^^^ (m % 2) := by
  have h := xor_toggle N (m - 1)
  have e : m - 1 + 1 = m := by omega
  rw [e] at h
  rw [← h, Nat.xor_assoc, Nat.xor_assoc, Nat.xor_comm 1]

theorem outbound_pieces_more (len : Nat) (h : 253 < len) :
    outbound_pieces len = outbound_pieces (len - 253) + 1 ∧ 0 < outbound_pieces (len - 253) := by
  unfold outbound_pieces
  omega

theorem outbound_pieces_last (len : Nat) (h0 : 0 < len) (h : len ≤ 253) :
    outbound_pieces len = 1 := by
  unfold outbound_pieces
  omega

theorem chained_blocks_single_of_length (e : Exchange) (h : e.data.length ≠ 1) :
    chained_blocks [e] = 0 := by
  simp [chained_blocks, h]

/-- The outbound loop toggles the block number once per acknowledged piece, that is
for every I-block but the last, and logs no inbound chained block. -/
theorem send_iblocks_spec (bytes : List Nat) (n : Nat) :
    ∀ (offset : Nat) (response : List Nat) (s s2 : Link) (out : List Nat),
      bytes.length - offset ≤ 253 * n →
      send_iblocks bytes offset response s = (.ok out, s2) →
      s2.block_nr = s.block_nr ^^^ ((outbound_pieces (bytes.length - offset) - 1) % 2)
        ∧ ∃ extra, s2.log = s.log ++ extra ∧ chained_blocks extra = 0 := by
  induction n with
  | zero =>
    intro offset response s s2 out hn h
    rw [send_iblocks_done bytes offset response s (by omega)] at h
    simp only [Prod.mk.injEq] at h
    rw [← h.2]
    have : bytes.length - offset = 0 := by omega
    rw [this]
    exact ⟨by simp [outbound_pieces], [], by simp, rfl⟩
  | succ n ih =>
    intro offset response s s2 out hn h
    rcases le_or_lt bytes.length offset with hdone | hlt
    · rw [send_iblocks_done bytes offset response s hdone] at h
      simp only [Prod.mk.injEq] at h
      rw [← h.2]
      have : bytes.length - offset = 0 := by omega
      rw [this]
      exact ⟨by simp [outbound_pieces], [], by simp, rfl⟩
    · rw [send_iblocks, if_pos hlt] at h
      simp only [] at h
      split at h
      · exact absurd (congrArg Prod.fst h) (by simp)
      · rename_i r s1 hcomm
        obtain ⟨c1, c2, _⟩ := in_comm_rf_spec _ _ _ _ _ hcomm
        obtain ⟨E, cE, hcount⟩ : ∃ E : Exchange, s1.log = s.log ++ [E] ∧ chained_blocks [E] = 0 := by
          refine ⟨_, c2, ?_⟩
          apply chained_blocks_single_of_length
          simp only [List.length_append, List.length_singleton, List.length_take,
            List.length_drop, MIU]
          omega
        clear c2
        split at h
        · exact absurd (congrArg Prod.fst h) (by simp)
        · rename_i resp s2w hwtx
          obtain ⟨w1, wextra, w2, w3⟩ := wtx_loop_spec _ _ _ _ _ rfl hwtx
          split at h
          · rename_i hmore
            have hmore2 : 253 < bytes.length - offset := by
              simpa [MIU] using hmore
            split at h
            · exact absurd (congrArg Prod.fst h) (by simp)
            · obtain ⟨i1, iextra, i2, i3⟩ := ih (offset + MIU) resp _ s2 out
                (by simp only [MIU]; omega) h
              obtain ⟨p1, p2⟩ := outbound_pieces_more _ hmore2
              have hsub : bytes.length - (offset + MIU) = bytes.length - offset - 253 := by
                simp only [MIU]; omega
              refine ⟨?_, [E] ++ (wextra ++ iextra), ?_, ?_⟩
              · rw [i1, hsub, p1]
                simp only [w1, c1, Nat.add_sub_cancel]
                exact xor_one_toggle _ _ p2
              · rw [i2]
                simp only [w2, cE, List.append_assoc]
              · rw [chained_blocks_append, chained_blocks_append, hcount, w3, i3]
          · rename_i hmore
            have hmore2 : bytes.length - offset ≤ 253 := by
              simpa [MIU] using hmore
            rw [send_iblocks_done bytes (offset + MIU) resp s2w
              (by simp only [MIU]; omega)] at h
            simp only [Prod.mk.injEq] at h
            rw [← h.2]
            refine ⟨?_, [E] ++ wextra, ?_, ?_⟩
            · rw [outbound_pieces_last _ (by omega) hmore2, w1, c1]
              simp
            · rw [w2, cE, List.append_assoc]
            · rw [chained_blocks_append, hcount, w3]

theorem ack_pcb (N : Nat) : (0xA2 ||| N &&& 1) &&& 0xFE = 0xA2 := by
  have h := Nat.and_pow_two_sub_one_eq_mod N 1
  have h1 : N &&& 1 = N % 2 := by simp
  rw [h1]
  rcases Nat.mod_two_eq_zero_or_one N with hb | hb <;> rw [hb] <;> decide

theorem chained_blocks_single_ack (pcb : Nat) (t : Int) (r : List Nat)
    (h : pcb &&& 0xFE = 0xA2) (hr : r ≠ []) :
    chained_blocks [{ data := [pcb], timeout_ms := t, reply := some r }] = 1 := by
  cases r with
  | nil => exact absurd rfl hr
  | cons x xs => simp [chained_blocks, h]

/-- The inbound loop toggles the block number once per non-empty block received in
reply to an R(ACK). -/
theorem receive_chain_spec (n : Nat) :
    ∀ (response full : List Nat) (s s2 : Link) (out : Except TransportError (List Nat)),
      s.card.length = n → receive_chain response full s = (out, s2) →
      ∃ extra, s2.log = s.log ++ extra
        ∧ s2.block_nr = s.block_nr ^^^ (chained_blocks extra % 2) := by
  induction n with
  | zero =>
    intro response full s s2 out hn h
    rw [receive_chain] at h
    split at h
    · split at h
      · rename_i s1 hc
        obtain ⟨e1, e2, _⟩ := in_comm_rf_spec _ _ _ _ _ hc
        simp only [Prod.mk.injEq] at h
        rw [← h.2]
        exact ⟨_, e2, by rw [e1]; simp [chained_blocks]⟩
      · rename_i r s1 hc
        obtain ⟨_, _, e3⟩ := in_comm_rf_spec _ _ _ _ _ hc
        have := e3 r rfl
        omega
    · simp only [Prod.mk.injEq] at h
      rw [← h.2]
      exact ⟨[], by simp, by simp [chained_blocks]⟩
  | succ n ih =>
    intro response full s s2 out hn h
    rw [receive_chain] at h
    split at h
    · split at h
      · rename_i s1 hc
        obtain ⟨e1, e2, _⟩ := in_comm_rf_spec _ _ _ _ _ hc
        simp only [Prod.mk.injEq] at h
        rw [← h.2]
        exact ⟨_, e2, by rw [e1]; simp [chained_blocks]⟩
      · rename_i r s1 hc
        obtain ⟨e1, e2, e3⟩ := in_comm_rf_spec _ _ _ _ _ hc
        have hlen : s1.card.length = n := by have := e3 r rfl; omega
        split at h
        · rename_i hne
          obtain ⟨extra, i1, i2⟩ :=
            ih r _ { s1 with block_nr := s1.block_nr ^^^ 1 } s2 out hlen h
          simp only [] at i1 i2
          have hone : chained_blocks
              [{ data := [0xA2 ||| s.block_nr &&& 1], timeout_ms := 5000, reply := some r }]
              = 1 := chained_blocks_single_ack _ _ r (ack_pcb s.block_nr) hne
          refine ⟨[{ data := [0xA2 ||| s.block_nr &&& 1], timeout_ms := 5000,
                     reply := some r }] ++ extra, ?_, ?_⟩
          · rw [i1]
            simp only [e2, List.append_assoc]
          · rw [i2, chained_blocks_append, hone]
            simp only [e1]
            have := xor_toggle s.block_nr (chained_blocks extra)
            rw [Nat.add_comm 1, ← this, Nat.xor_assoc, Nat.xor_assoc,
              Nat.xor_comm 1]
        · rename_i hne
          have hr : r = [] := not_not.mp hne
          obtain ⟨extra, i1, i2⟩ := ih r _ _ s2 out hlen h
          have hzero : chained_blocks
              [{ data := [0xA2 ||| s.block_nr &&& 1], timeout_ms := 5000, reply := some r }]
              = 0 := by
            rw [hr]; simp [chained_blocks]
          refine ⟨[{ data := [0xA2 ||| s.block_nr &&& 1], timeout_ms := 5000,
                     reply := some r }] ++ extra, ?_, ?_⟩
          · rw [i1, e2, List.append_assoc]
          · rw [i2, chained_blocks_append, hzero, e1, Nat.zero_add]
    · simp only [Prod.mk.injEq] at h
      rw [← h.2]
      exact ⟨[], by simp, by simp [chained_blocks]⟩

theorem wtx_loop_skip (r : List Nat) (s : Link)
    (h : ¬(r ≠ [] ∧ r.getD 0 0 &&& 0xFE = 0xF2)) : wtx_loop r s = (.ok r, s) := by
  rw [wtx_loop, if_neg h]

theorem receive_chain_skip (r full : List Nat) (s : Link)
    (h : ¬(r ≠ [] ∧ r.getD 0 0 &&& 0x10 ≠ 0)) : receive_chain r full s = (.ok full, s) := by
  rw [receive_chain, if_neg h]

/-- An APDU of one piece, answered by the I-block `02 90 00`. -/
theorem one_piece_run (bytes : List Nat) (h1 : 0 < bytes.length) (h2 : bytes.length ≤ 253)
    (N : Nat) :
    ∃ s2, send_apdu_impl bytes ⟨N, [some [0x02, 0x90, 0x00]], []⟩ = (.ok [], s2)
      ∧ s2.block_nr = N ^^^ 1 ∧ s2.card = [] := by
  have hsend : ∃ s1, send_iblocks bytes 0 [] ⟨N, [some [0x02, 0x90, 0x00]], []⟩
      = (.ok [0x02, 0x90, 0x00], s1) ∧ s1.block_nr = N ∧ s1.card = [] := by
    rw [send_iblocks, if_pos (by omega)]
    simp only [in_comm_rf]
    rw [wtx_loop_skip _ _ (by decide)]
    have hm : decide (bytes.length - 0 > MIU) = false := by simp [MIU]; omega
    simp only [hm, Bool.false_eq_true, if_false]
    rw [send_iblocks_done _ _ _ _ (by simp only [MIU]; omega)]
    exact ⟨_, rfl, rfl, rfl⟩
  obtain ⟨s1, hs1, hb, hc⟩ := hsend
  unfold send_apdu_impl
  rw [hs1]
  simp only []
  rw [if_neg (by decide), receive_chain_skip _ _ _ (by decide)]
  simp only []
  have hsw : parse_sw bytes (List.drop 1 [0x02, 0x90, 0x00]) = .ok [] := by
    simp [parse_sw]
  rw [hsw]
  exact ⟨_, rfl, by simp only [hb], hc⟩

/-- An APDU of two pieces: the first acknowledged by `A2`, the second answered by
the I-block `02 90 00`. -/
theorem two_piece_run (bytes : List Nat) (h1 : 253 < bytes.length) (h2 : bytes.length ≤ 506)
    (N : Nat) :
    ∃ s2, send_apdu_impl bytes ⟨N, [some [0xA2], some [0x02, 0x90, 0x00]], []⟩ = (.ok [], s2)
      ∧ s2.block_nr = (N ^^^ 1) ^^^ 1 ∧ s2.card = [] := by
  have hsend : ∃ s1, send_iblocks bytes 0 [] ⟨N, [some [0xA2], some [0x02, 0x90, 0x00]], []⟩
      = (.ok [0x02, 0x90, 0x00], s1) ∧ s1.block_nr = N ^^^ 1 ∧ s1.card = [] := by
    rw [send_iblocks, if_pos (by omega)]
    simp only [in_comm_rf]
    rw [wtx_loop_skip _ _ (by decide)]
    have hm : decide (bytes.length - 0 > MIU) = true := by simp [MIU]; omega
    simp only [hm, if_true]
    rw [if_neg (by decide)]
    rw [send_iblocks, if_pos (by simp only [MIU]; omega)]
    simp only [in_comm_rf]
    rw [wtx_loop_skip _ _ (by decide)]
    have hm2 : decide (bytes.length - (0 + MIU) > MIU) = false := by simp [MIU]; omega
    simp only [hm2, Bool.false_eq_true, if_false]
    rw [send_iblocks_done _ _ _ _ (by simp only [MIU]; omega)]
    exact ⟨_, rfl, rfl, rfl⟩
  obtain ⟨s1, hs1, hb, hc⟩ := hsend
  unfold send_apdu_impl
  rw [hs1]
  simp only []
  rw [if_neg (by decide), receive_chain_skip _ _ _ (by decide)]
  simp only []
  have hsw : parse_sw bytes (List.drop 1 [0x02, 0x90, 0x00]) = .ok [] := by
    simp [parse_sw]
  rw [hsw]
  exact ⟨_, rfl, by simp only [hb], hc⟩

theorem xor_parity (N a b : Nat) : (N ^^^ (a % 2)) ^^^ (b % 2) = N ^^^ ((a + b) % 2) := by
  rcases Nat.mod_two_eq_zero_or_one b with h | h
  · have : (a + b) % 2 = a % 2 := by omega
    rw [h, this, Nat.xor_zero]
  · have : (a + b) % 2 = (a + 1) % 2 := by omega
    rw [h, this]
    exact xor_toggle N a

theorem full_fragment_apdu_length :
    (rcs380_apdu_bytes (build_image_data_apdu 0 0 (List.replicate 250 0) false 0)).length
      = 257 := by
  unfold rcs380_apdu_bytes
  rw [if_pos ⟨rfl, List.cons_ne_nil _ _⟩, if_neg (by decide)]
  simp only [build_image_data_apdu, List.length_append, List.length_cons, List.length_nil,
    List.length_replicate]

/-- C18, as stated, fails: the APDU of a full 250-byte image fragment is 257 bytes
long and goes out in two I-blocks; with the first acknowledged by `A2` and the second
answered by `02 90 00`, `send_apdu` succeeds and leaves the block number 0 where it
was, not at `0 XOR 1`. -/
theorem C18_two_piece_counterexample :
    ∃ out s2,
      Rcs380Transport.send_apdu (build_image_data_apdu 0 0 (List.replicate 250 0) false 0)
          ⟨0, [some [0xA2], some [0x02, 0x90, 0x00]], []⟩ = (.ok out, s2)
        ∧ s2.block_nr = 0 ∧ s2.block_nr ≠ 0 ^^^ 1 := by
  obtain ⟨s2, h, hb, _⟩ := two_piece_run
    (rcs380_apdu_bytes (build_image_data_apdu 0 0 (List.replicate 250 0) false 0))
    (by rw [full_fragment_apdu_length]; decide) (by rw [full_fragment_apdu_length]; decide) 0
  refine ⟨[], s2, h, ?_, ?_⟩
  · rw [hb]; decide
  · rw [hb]; decide

/-- C18, amended: when `send_apdu` completes without error, the block number
afterwards is the value before XOR `(k + j) mod 2`, with `k = ceil(L / 253)` the number
of I-blocks the `L` command bytes went out in and `j` the number of non-empty blocks
received in reply to an R(ACK) during inbound chaining; it is the value before XOR 1
exactly when `k + j` is odd, as for an APDU of one piece with an unchained response. -/
theorem C18_block_number_parity (apdu : Apdu) (s s2 : Link) (out : List Nat)
    (h : Rcs380Transport.send_apdu apdu s = (.ok out, s2)) :
    s2.block_nr
        = s.block_nr ^^^ ((outbound_pieces (rcs380_apdu_bytes apdu).length
            + chained_blocks (s2.log.drop s.log.length)) % 2)
      ∧ 1 ≤ outbound_pieces (rcs380_apdu_bytes apdu).length
      ∧ ((outbound_pieces (rcs380_apdu_bytes apdu).length
            + chained_blocks (s2.log.drop s.log.length)) % 2 = 1 →
          s2.block_nr = s.block_nr ^^^ 1)
      ∧ ((outbound_pieces (rcs380_apdu_bytes apdu).length
            + chained_blocks (s2.log.drop s.log.length)) % 2 = 0 →
          s2.block_nr = s.block_nr) := by
  have hlen := (rcs380_apdu_bytes_ins apdu).1
  have hp : 1 ≤ outbound_pieces (rcs380_apdu_bytes apdu).length := by
    unfold outbound_pieces; omega
  have main : s2.block_nr
      = s.block_nr ^^^ ((outbound_pieces (rcs380_apdu_bytes apdu).length
          + chained_blocks (s2.log.drop s.log.length)) % 2) := by
    unfold Rcs380Transport.send_apdu send_apdu_impl at h
    split at h
    · exact absurd (congrArg Prod.fst h) (by simp)
    · rename_i response s1 hsend
      obtain ⟨b1, extra1, l1, c1⟩ := send_iblocks_spec _ (rcs380_apdu_bytes apdu).length
        0 [] s s1 response (by omega) hsend
      rw [Nat.sub_zero] at b1
      split at h
      · exact absurd (congrArg Prod.fst h) (by simp)
      · split at h
        · exact absurd (congrArg Prod.fst h) (by simp)
        · rename_i full s3 hrecv
          obtain ⟨extra2, l2, b2⟩ := receive_chain_spec _ _ _ _ _ _ rfl hrecv
          simp only [] at l2 b2
          simp only [Prod.mk.injEq] at h
          rw [← h.2, l2, l1, List.append_assoc, List.drop_left, chained_blocks_append, c1,
            Nat.zero_add, b2, b1]
          have e : outbound_pieces (rcs380_apdu_bytes apdu).length - 1 + 1
              = outbound_pieces (rcs380_apdu_bytes apdu).length := by omega
          rw [xor_toggle, e, xor_parity]
  refine ⟨main, hp, ?_, ?_⟩
  · intro hodd
    rw [main, hodd]
  · intro heven
    rw [main, heven, Nat.xor_zero]

theorem C18_block_number_parity_witness :
    ∃ out s2,
      Rcs380Transport.send_apdu build_poll_apdu ⟨0, [some [0x02, 0x90, 0x00]], []⟩
          = (.ok out, s2)
        ∧ s2.block_nr = 1
        ∧ s2.block_nr
            = 0 ^^^ ((outbound_pieces (rcs380_apdu_bytes build_poll_apdu).length
                + chained_blocks (s2.log.drop 0)) % 2) := by
  obtain ⟨s2, h, hb, _⟩ := one_piece_run (rcs380_apdu_bytes build_poll_apdu)
    (by decide) (by decide) 0
  exact ⟨[], s2, h, by rw [hb]; decide,
    (C18_block_number_parity build_poll_apdu ⟨0, [some [0x02, 0x90, 0x00]], []⟩ s2 [] h).1⟩

/-! ## Command bytes -/

/-- C26: for an APDU with at most 255 data bytes and `le` absent (`-1`) or in
`0 .. 256`, the command bytes `Rcs380Transport::send_apdu` builds are `cla, ins, p1, p2`,
then `Lc = len(data)` and the data when `has_data` is set and the data is not empty,
then one Le byte when `le` is present, `0x00` for `le = 256` and `le` otherwise;
`LibnfcTransport::send_apdu` builds the same bytes. -/
theorem C26_command_bytes (apdu : Apdu) (hdata : apdu.data.length ≤ 255)
    (hle : apdu.le = -1 ∨ (0 ≤ apdu.le ∧ apdu.le ≤ 256)) :
    rcs380_apdu_bytes apdu
        = [apdu.cla, apdu.ins, apdu.p1, apdu.p2]
          ++ (if apdu.has_data = true ∧ apdu.data ≠ [] then apdu.data.length :: apdu.data
              else [])
          ++ (if apdu.le = -1 then [] else [if apdu.le = 256 then 0x00 else apdu.le.toNat])
      ∧ libnfc_tx apdu = rcs380_apdu_bytes apdu := by
  refine ⟨?_, rfl⟩
  unfold rcs380_apdu_bytes
  have h1 : apdu.data.length % 256 = apdu.data.length := Nat.mod_eq_of_lt (by omega)
  rw [h1]
  congr 1
  rcases hle with h | ⟨h0, h256⟩
  · rw [if_neg (show ¬(0 ≤ apdu.le) by omega), if_pos h]
  · rw [if_pos h0, if_neg (show ¬(apdu.le = -1) by omega)]
    by_cases h : apdu.le = 256
    · rw [if_pos h, if_pos h]; rfl
    · rw [if_neg h, if_neg h]
      have : u8 apdu.le = apdu.le.toNat := by
        unfold u8
        rw [Int.emod_eq_of_lt h0 (by omega)]
      rw [this]

theorem C26_command_bytes_witness :
    rcs380_apdu_bytes build_device_info_apdu = [0x00, 0xD1, 0x00, 0x00, 0x00]
      ∧ rcs380_apdu_bytes build_auth_apdu
          = [0x00, 0x20, 0x00, 0x01, 0x04, 0x20, 0x09, 0x12, 0x10]
      ∧ libnfc_tx build_auth_apdu = rcs380_apdu_bytes build_auth_apdu :=
  ⟨((C26_command_bytes build_device_info_apdu (by decide) (by decide)).1).trans (by decide),
    ((C26_command_bytes build_auth_apdu (by decide) (by decide)).1).trans (by decide),
    (C26_command_bytes build_auth_apdu (by decide) (by decide)).2⟩

/-! ## Descriptor fields -/

/-- Every value `parse_tlv` stores is made of bytes of the input. -/
theorem parse_tlv_loop_mem (data : List Nat) (n : Nat) :
    ∀ (i : Nat) (m : TlvMap), data.length - i ≤ n →
      (∀ t v, m t = some v → ∀ x ∈ v, x ∈ data) →
      ∀ t v, parse_tlv_loop data i m t = some v → ∀ x ∈ v, x ∈ data := by
  induction n with
  | zero =>
    intro i m hn hm t v h
    rw [parse_tlv_loop_done data i m (by omega)] at h
    exact hm t v h
  | succ n ih =>
    intro i m hn hm t v h
    rw [parse_tlv_loop] at h
    split at h
    · split at h
      · exact hm t v h
      · split at h
        · exact hm t v h
        · refine ih _ _ (by omega) ?_ t v h
          intro t2 v2 h2 x hx
          unfold TlvMap.set at h2
          split at h2
          · cases h2
            exact List.mem_of_mem_drop (List.mem_of_mem_take hx)
          · exact hm t2 v2 h2 x hx
    · exact hm t v h

theorem parse_tlv_mem (data : List Nat) (t : Nat) (v : List Nat)
    (h : parse_tlv data t = some v) : ∀ x ∈ v, x ∈ data :=
  parse_tlv_loop_mem data data.length 0 TlvMap.empty (by omega)
    (fun _ _ h2 => Option.noConfusion h2) t v h

theorem shift_or_byte (hi lo : Nat) (h : lo < 256) : (hi <<< 8) ||| lo = 256 * hi + lo := by
  rw [Nat.shiftLeft_eq]
  have := Nat.mul_add_lt_is_or (i := 8) (b := lo) (by simpa using h) hi
  rw [Nat.mul_comm hi (2 ^ 8), ← this]

/-- C25: when the parsed TLV records of a byte input hold an `A0` value `a` of at
least 7 bytes with `a[1]` in `{0x01, 0x07}`, `parse_device_info` returns
`rows_per_block = a[2]`, `width = 256 * a[5] + a[6]`,
`height = (256 * a[3] + a[4]) / bits_per_pixel` (truncating division), `raw` = the
input, `serial_number` = the `C0` value and `c1` = the `C1` value, each empty when
its tag is absent. -/
theorem C25_descriptor_fields (data a : List Nat) (hbytes : ∀ x ∈ data, x < 256)
    (ha : parse_tlv data 0xA0 = some a) (hlen : 7 ≤ a.length)
    (hmode : a.getD 1 0 = 0x01 ∨ a.getD 1 0 = 0x07) :
    ∃ info, parse_device_info data = .ok info
      ∧ info.rows_per_block = ((a.getD 2 0 : Nat) : Int)
      ∧ info.width = 256 * ((a.getD 5 0 : Nat) : Int) + ((a.getD 6 0 : Nat) : Int)
      ∧ info.bits_per_pixel = (if a.getD 1 0 = 0x01 then 1 else 2)
      ∧ info.height
          = Int.tdiv (256 * ((a.getD 3 0 : Nat) : Int) + ((a.getD 4 0 : Nat) : Int))
              info.bits_per_pixel
      ∧ info.raw = data
      ∧ info.serial_number = (parse_tlv data 0xC0).getD []
      ∧ info.c1 = (parse_tlv data 0xC1).getD []
      ∧ (parse_tlv data 0xC0 = none → info.serial_number = [])
      ∧ (parse_tlv data 0xC1 = none → info.c1 = []) := by
  have hbyte : ∀ k, a.getD k 0 < 256 := by
    intro k
    rcases lt_or_le k a.length with h | h
    · rw [List.getD_eq_getElem a 0 h]
      exact hbytes _ (parse_tlv_mem data 0xA0 a ha _ (List.getElem_mem h))
    · rw [List.getD_eq_default a 0 h]; decide
  have hw : (((a.getD 5 0 <<< 8) ||| a.getD 6 0 : Nat) : Int)
      = 256 * ((a.getD 5 0 : Nat) : Int) + ((a.getD 6 0 : Nat) : Int) := by
    rw [shift_or_byte _ _ (hbyte 6)]; push_cast; rfl
  have hh : (((a.getD 3 0 <<< 8) ||| a.getD 4 0 : Nat) : Int)
      = 256 * ((a.getD 3 0 : Nat) : Int) + ((a.getD 4 0 : Nat) : Int) := by
    rw [shift_or_byte _ _ (hbyte 4)]; push_cast; rfl
  rw [parse_device_info_of_a0 data a ha, if_neg (by omega)]
  rcases hmode with h1 | h7
  · have hc : COLOR_MODE_TO_BPP (a.getD 1 0) = some 1 := by
      unfold COLOR_MODE_TO_BPP
      rw [if_pos h1]
    rw [hc]
    refine ⟨_, rfl, rfl, hw, by rw [if_pos h1], by rw [hh], rfl, rfl, rfl, ?_, ?_⟩
    · intro h; simp only [h]; rfl
    · intro h; simp only [h]; rfl
  · have h1 : a.getD 1 0 ≠ 0x01 := by rw [h7]; decide
    have hc : COLOR_MODE_TO_BPP (a.getD 1 0) = some 2 := by
      unfold COLOR_MODE_TO_BPP
      rw [if_neg h1, if_pos h7]
    rw [hc]
    refine ⟨_, rfl, rfl, hw, by rw [if_neg h1], by rw [hh], rfl, rfl, rfl, ?_, ?_⟩
    · intro h; simp only [h]; rfl
    · intro h; simp only [h]; rfl

theorem C25_descriptor_fields_witness :
    ∃ info, parse_device_info [0xA0, 0x07, 0x00, 0x07, 0x08, 0x01, 0x00, 0x01, 0x28,
                               0xC0, 0x05, 0x31, 0x32, 0x33, 0x34, 0x35] = .ok info
      ∧ info.rows_per_block = 8 ∧ info.width = 256 * 1 + 0x28 ∧ info.bits_per_pixel = 2 := by
  obtain ⟨info, h, h1, h2, h3, _⟩ := C25_descriptor_fields
    [0xA0, 0x07, 0x00, 0x07, 0x08, 0x01, 0x00, 0x01, 0x28,
     0xC0, 0x05, 0x31, 0x32, 0x33, 0x34, 0x35]
    [0x00, 0x07, 0x08, 0x01, 0x00, 0x01, 0x28] (by decide)
    (by rw [tall_descriptor_tlv]; rfl) (by decide) (by decide)
  exact ⟨info, h, h1, h2, h3⟩

/-! ## The framebuffer behind the APDUs -/

theorem piece_take (bytes : List Nat) (offset : Nat) :
    (bytes.drop offset).take (min (offset + MIU) bytes.length - offset)
      = (bytes.drop offset).take 253 := by
  rw [List.take_eq_take, List.length_drop]
  simp only [MIU]
  omega

theorem xor_shift (N j : Nat) : (N ^^^ 1) ^^^ (j % 2) = N ^^^ ((j + 1) % 2) := by
  rw [Nat.xor_assoc, Nat.xor_comm 1, ← Nat.xor_assoc]
  exact xor_toggle N j

/-- The outbound loop against a card that acknowledges every piece but the last and
never asks for more time: what is sent, what is logged, and the state it ends in. -/
theorem send_iblocks_acked (bytes : List Nat) (n : Nat) :
    ∀ (offset N : Nat) (response : List Nat) (replies : List (List Nat))
      (rest : List (Option (List Nat))) (log : List Exchange),
      offset < bytes.length → bytes.length - offset ≤ 253 * n →
      replies.length = outbound_pieces (bytes.length - offset) →
      (∀ i, i + 1 < replies.length →
        replies.getD i [] ≠ [] ∧ (replies.getD i []).getD 0 0 &&& 0xF6 = 0xA2) →
      (∀ i, i < replies.length →
        ¬(replies.getD i [] ≠ [] ∧ (replies.getD i []).getD 0 0 &&& 0xFE = 0xF2)) →
      send_iblocks bytes offset response ⟨N, replies.map some ++ rest, log⟩
        = (.ok (replies.getD (replies.length - 1) []),
            ⟨N ^^^ ((replies.length - 1) % 2), rest,
              log ++ (List.range replies.length).map (fun (j : Nat) =>
                ({ data := [(if j + 1 < replies.length then 0x12 else 0x02)
                              ||| ((N ^^^ (j % 2)) &&& 0x01)]
                            ++ (bytes.drop (offset + 253 * j)).take 253,
                   timeout_ms := 5000, reply := some (replies.getD j []) } : Exchange))⟩) := by
  induction n with
  | zero => intro offset N response replies rest log hlt hn; omega
  | succ n ih =>
    intro offset N response replies rest log hlt hn hk hack hwtx
    cases replies with
    | nil =>
      have : 0 < outbound_pieces (bytes.length - offset) := by unfold outbound_pieces; omega
      simp at hk
      omega
    | cons r rs =>
      rw [send_iblocks, if_pos hlt]
      simp only [in_comm_rf, List.map_cons, List.cons_append]
      rw [wtx_loop_skip _ _ (by simpa using hwtx 0 (by simp))]
      simp only [piece_take]
      by_cases hmore : 253 < bytes.length - offset
      · have hm : decide (bytes.length - offset > MIU) = true := by
          simp only [MIU, decide_eq_true_eq]; exact hmore
        obtain ⟨p1, p2⟩ := outbound_pieces_more _ hmore
        have hrs : rs.length = outbound_pieces (bytes.length - offset - 253) := by
          simp only [List.length_cons] at hk; omega
        have hr := hack 0 (by simp only [List.length_cons]; omega)
        simp only [List.getD_cons_zero] at hr
        simp only [hm, if_true]
        rw [if_neg (by rw [not_or, not_not]; exact hr)]
        have hsub : bytes.length - (offset + MIU) = bytes.length - offset - 253 := by
          simp only [MIU]; omega
        rw [ih (offset + MIU) (N ^^^ 1) r rs rest _ (by simp only [MIU]; omega)
          (by simp only [MIU]; omega) (by rw [hsub]; exact hrs)
          (fun i hi => by
            have := hack (i + 1) (by simp only [List.length_cons]; omega)
            simpa using this)
          (fun i hi => by
            have := hwtx (i + 1) (by simp only [List.length_cons]; omega)
            simpa using this)]
        have hlast : (r :: rs).getD ((r :: rs).length - 1) [] = rs.getD (rs.length - 1) [] := by
          have : (r :: rs).length - 1 = (rs.length - 1) + 1 := by
            simp only [List.length_cons]; omega
          rw [this, List.getD_cons_succ]
        have hblock : (N ^^^ 1) ^^^ ((rs.length - 1) % 2)
            = N ^^^ (((r :: rs).length - 1) % 2) := by
          simp only [List.length_cons, Nat.add_sub_cancel]
          exact xor_one_toggle N rs.length (by omega)
        rw [hlast, hblock]
        simp only [Prod.mk.injEq, Link.mk.injEq, true_and, List.length_cons]
        rw [List.range_succ_eq_map, List.map_cons, List.map_map, List.append_assoc]
        refine congrArg (fun l => log ++ l) ?_
        simp only [List.singleton_append, List.cons.injEq]
        refine ⟨?_, ?_⟩
        · have h1 : 0 + 1 < rs.length + 1 := by omega
          simp only [if_pos h1, Nat.zero_mod, Nat.xor_zero, Nat.mul_zero, Nat.add_zero,
            List.getD_cons_zero]
        · apply List.map_congr_left
          intro j hj
          have hj2 : j < rs.length := List.mem_range.mp hj
          simp only [Function.comp, Nat.succ_eq_add_one, List.getD_cons_succ, xor_shift]
          have e1 : offset + MIU + 253 * j = offset + 253 * (j + 1) := by
            simp only [MIU]; omega
          have e2 : (j + 1 + 1 < rs.length + 1) = (j + 1 < rs.length) := by
            apply propext; omega
          rw [e1]
          simp only [e2]
          rfl
      · have hm : decide (bytes.length - offset > MIU) = false := by
          simp only [MIU, decide_eq_false_iff_not]; exact hmore
        have hone : outbound_pieces (bytes.length - offset) = 1 :=
          outbound_pieces_last _ (by omega) (by omega)
        have hrs : rs = [] := by
          apply List.eq_nil_of_length_eq_zero
          simp only [List.length_cons] at hk
          omega
        subst hrs
        simp only [hm, Bool.false_eq_true, if_false]
        rw [send_iblocks_done _ _ _ _ (by simp only [MIU]; omega)]
        simp [List.range_succ]

/-- Every transmission of the inbound chaining loop is a one-byte R-block. -/
theorem receive_chain_acks (n : Nat) :
    ∀ (response full : List Nat) (s s2 : Link) (out : Except TransportError (List Nat)),
      s.card.length = n → receive_chain response full s = (out, s2) →
      ∃ extra, s2.log = s.log ++ extra ∧ ∀ e ∈ extra, e.data.length = 1 := by
  induction n with
  | zero =>
    intro response full s s2 out hn h
    rw [receive_chain] at h
    split at h
    · split at h
      · rename_i s1 hc
        obtain ⟨_, e2, _⟩ := in_comm_rf_spec _ _ _ _ _ hc
        simp only [Prod.mk.injEq] at h
        rw [← h.2]
        exact ⟨_, e2, by simp⟩
      · rename_i r s1 hc
        obtain ⟨_, _, e3⟩ := in_comm_rf_spec _ _ _ _ _ hc
        have := e3 r rfl
        omega
    · simp only [Prod.mk.injEq] at h
      rw [← h.2]
      exact ⟨[], by simp, by simp⟩
  | succ n ih =>
    intro response full s s2 out hn h
    rw [receive_chain] at h
    split at h
    · split at h
      · rename_i s1 hc
        obtain ⟨_, e2, _⟩ := in_comm_rf_spec _ _ _ _ _ hc
        simp only [Prod.mk.injEq] at h
        rw [← h.2]
        exact ⟨_, e2, by simp⟩
      · rename_i r s1 hc
        obtain ⟨_, e2, e3⟩ := in_comm_rf_spec _ _ _ _ _ hc
        have hlen : s1.card.length = n := by have := e3 r rfl; omega
        split at h
        · obtain ⟨extra, i1, i2⟩ :=
            ih r _ { s1 with block_nr := s1.block_nr ^^^ 1 } s2 out hlen h
          simp only [] at i1
          refine ⟨[{ data := [0xA2 ||| s.block_nr &&& 1], timeout_ms := 5000,
                     reply := some r }] ++ extra, ?_, ?_⟩
          · rw [i1]
            simp only [e2, List.append_assoc]
          · intro e he
            rcases List.mem_append.mp he with h1 | h1
            · rw [List.mem_singleton.mp h1]; rfl
            · exact i2 e h1
        · obtain ⟨extra, i1, i2⟩ := ih r _ _ s2 out hlen h
          refine ⟨[{ data := [0xA2 ||| s.block_nr &&& 1], timeout_ms := 5000,
                     reply := some r }] ++ extra, ?_, ?_⟩
          · rw [i1, e2, List.append_assoc]
          · intro e he
            rcases List.mem_append.mp he with h1 | h1
            · rw [List.mem_singleton.mp h1]; rfl
            · exact i2 e h1
    · simp only [Prod.mk.injEq] at h
      rw [← h.2]
      exact ⟨[], by simp, by simp⟩

theorem pieces_flatten (n : Nat) :
    ∀ l : List Nat, l.length ≤ 253 * n →
      ((List.range n).map fun (i : Nat) => (l.drop (253 * i)).take 253).flatten = l := by
  induction n with
  | zero =>
    intro l h
    have : l = [] := List.eq_nil_of_length_eq_zero (by omega)
    simp [this]
  | succ n ih =>
    intro l h
    rw [List.range_succ_eq_map, List.map_cons, List.map_map, List.flatten_cons]
    have hrec : List.map ((fun (i : Nat) => (l.drop (253 * i)).take 253) ∘ Nat.succ)
        (List.range n)
        = (List.range n).map fun (i : Nat) => ((l.drop 253).drop (253 * i)).take 253 := by
      apply List.map_congr_left
      intro i _
      simp only [Function.comp, Nat.succ_eq_add_one, List.drop_drop]
      have : 253 * (i + 1) = 253 + 253 * i := by omega
      rw [this]
    rw [hrec, ih (l.drop 253) (by rw [List.length_drop]; omega)]
    simp

theorem bit_and_one (N j : Nat) (hN : N < 2) : (N ^^^ (j % 2)) &&& 1 = N ^^^ (j % 2) := by
  have hj : j % 2 < 2 := Nat.mod_lt _ (by decide)
  generalize j % 2 = m at hj
  interval_cases N <;> interval_cases m <;> rfl

theorem piece_bounds (bytes : List Nat) (i : Nat) :
    (bytes.drop (253 * i)).take (min (253 * (i + 1)) bytes.length - 253 * i)
      = (bytes.drop (0 + 253 * i)).take 253 := by
  rw [Nat.zero_add, List.take_eq_take, List.length_drop]
  omega

/-- C27: for APDU bytes of length `L ≥ 1` sent when the block number is `N0`, against
a card that answers every piece but the last with a valid R-ACK and never sends WTX,
`_send_apdu_impl` first makes exactly `k = ceil(L / 253)` transmissions, the I-blocks:
I-block `i` is the PCB byte `0x12 | n_i` (for `i < k - 1`) or `0x02 | n_i` (for
`i = k - 1`), with `n_i = N0 XOR (i mod 2)`, followed by the bytes
`[253 i, min (253 (i + 1)) L)` of the APDU; everything sent afterwards is a one-byte
R-block of inbound chaining, and the pieces concatenated are the APDU bytes. -/
theorem C27_outbound_iblocks (bytes : List Nat) (N0 : Nat) (replies : List (List Nat))
    (rest : List (Option (List Nat))) (log : List Exchange)
    (hL : 1 ≤ bytes.length) (hN : N0 < 2)
    (hk : replies.length = outbound_pieces bytes.length)
    (hack : ∀ i, i + 1 < replies.length →
      replies.getD i [] ≠ [] ∧ (replies.getD i []).getD 0 0 &&& 0xF6 = 0xA2)
    (hwtx : ∀ i, i < replies.length →
      ¬(replies.getD i [] ≠ [] ∧ (replies.getD i []).getD 0 0 &&& 0xFE = 0xF2)) :
    (∃ tail, (send_apdu_impl bytes ⟨N0, replies.map some ++ rest, log⟩).2.log
        = log ++ (List.range (outbound_pieces bytes.length)).map (fun (i : Nat) =>
            ({ data := [(if i + 1 < outbound_pieces bytes.length then 0x12 else 0x02)
                          ||| (N0 ^^^ (i % 2))]
                  ++ (bytes.drop (253 * i)).take
                      (min (253 * (i + 1)) bytes.length - 253 * i),
               timeout_ms := 5000, reply := some (replies.getD i []) } : Exchange))
          ++ tail
        ∧ ∀ e ∈ tail, e.data.length = 1)
      ∧ ((List.range (outbound_pieces bytes.length)).map fun (i : Nat) =>
          (bytes.drop (253 * i)).take (min (253 * (i + 1)) bytes.length - 253 * i)).flatten
          = bytes := by
  have hrun := send_iblocks_acked bytes bytes.length 0 N0 [] replies rest log (by omega)
    (by omega) (by simpa using hk) hack hwtx
  have hmap : (List.range (outbound_pieces bytes.length)).map (fun (i : Nat) =>
        ({ data := [(if i + 1 < outbound_pieces bytes.length then 0x12 else 0x02)
                      ||| (N0 ^^^ (i % 2))]
              ++ (bytes.drop (253 * i)).take
                  (min (253 * (i + 1)) bytes.length - 253 * i),
           timeout_ms := 5000, reply := some (replies.getD i []) } : Exchange))
      = (List.range replies.length).map (fun (j : Nat) =>
        ({ data := [(if j + 1 < replies.length then 0x12 else 0x02)
                      ||| ((N0 ^^^ (j % 2)) &&& 0x01)]
                    ++ (bytes.drop (0 + 253 * j)).take 253,
           timeout_ms := 5000, reply := some (replies.getD j []) } : Exchange)) := by
    rw [← hk]
    apply List.map_congr_left
    intro i _
    rw [piece_bounds, bit_and_one N0 i hN]
  refine ⟨?_, ?_⟩
  · rw [hmap]
    unfold send_apdu_impl
    rw [hrun]
    simp only []
    split
    · exact ⟨[], by simp, by simp⟩
    · cases hrc : receive_chain (replies.getD (replies.length - 1) [])
          (List.drop 1 (replies.getD (replies.length - 1) []))
          { block_nr := (N0 ^^^ ((replies.length - 1) % 2)) ^^^ 1, card := rest,
            log := log ++ (List.range replies.length).map (fun (j : Nat) =>
              ({ data := [(if j + 1 < replies.length then 0x12 else 0x02)
                            ||| ((N0 ^^^ (j % 2)) &&& 0x01)]
                          ++ (bytes.drop (0 + 253 * j)).take 253,
                 timeout_ms := 5000, reply := some (replies.getD j []) } : Exchange)) }
        with
      | mk out s3 =>
        obtain ⟨extra, e1, e2⟩ := receive_chain_acks _ _ _ _ _ _ rfl hrc
        refine ⟨extra, ?_, e2⟩
        cases out with
        | error e => exact e1
        | ok full => exact e1
  · have hfl := pieces_flatten (outbound_pieces bytes.length) bytes
      (by unfold outbound_pieces; omega)
    have hsame : ((List.range (outbound_pieces bytes.length)).map fun (i : Nat) =>
          (bytes.drop (253 * i)).take (min (253 * (i + 1)) bytes.length - 253 * i))
        = (List.range (outbound_pieces bytes.length)).map fun (i : Nat) =>
          (bytes.drop (253 * i)).take 253 := by
      apply List.map_congr_left
      intro i _
      rw [piece_bounds, Nat.zero_add]
    rw [hsame, hfl]

theorem C27_outbound_iblocks_witness :
    ((List.range (outbound_pieces (List.replicate 254 7).length)).map fun (i : Nat) =>
        ((List.replicate 254 7).drop (253 * i)).take
          (min (253 * (i + 1)) (List.replicate 254 7).length - 253 * i)).flatten
        = List.replicate 254 7
      ∧ ∃ tail, (send_apdu_impl (List.replicate 254 7)
          ⟨1, [[0xA3], [0x03, 0x90, 0x00]].map some ++ [], []⟩).2.log
        = [] ++ (List.range (outbound_pieces (List.replicate 254 7).length)).map
            (fun (i : Nat) =>
            ({ data := [(if i + 1 < outbound_pieces (List.replicate 254 7).length
                          then 0x12 else 0x02) ||| (1 ^^^ (i % 2))]
                  ++ ((List.replicate 254 7).drop (253 * i)).take
                      (min (253 * (i + 1)) (List.replicate 254 7).length - 253 * i),
               timeout_ms := 5000,
               reply := some ([[0xA3], [0x03, 0x90, 0x00]].getD i []) } : Exchange))
          ++ tail
        ∧ ∀ e ∈ tail, e.data.length = 1 :=
  have h := C27_outbound_iblocks (List.replicate 254 7) 1 [[0xA3], [0x03, 0x90, 0x00]] [] []
    (by rw [List.length_replicate]; decide) (by decide)
    (by rw [List.length_replicate]; decide)
    (by
      intro i hi
      have h0 : i = 0 := by simp only [List.length_cons, List.length_nil] at hi; omega
      subst h0
      decide)
    (by
      intro i hi
      simp only [List.length_cons, List.length_nil] at hi
      interval_cases i <;> decide)
  ⟨h.2, h.1⟩

/-! ## Waiting-time extension -/

/-- One turn of the inbound chaining loop on a non-empty reply. -/
theorem receive_chain_step (response full r : List Nat) (N : Nat)
    (rest : List (Option (List Nat))) (log : List Exchange)
    (h : response ≠ [] ∧ response.getD 0 0 &&& 0x10 ≠ 0) (hr : r ≠ []) :
    receive_chain response full ⟨N, some r :: rest, log⟩
      = receive_chain r (full ++ r.drop 1)
          ⟨N ^^^ 1, rest, log ++ [⟨[0xA2 ||| (N &&& 0x01)], 5000, some r⟩]⟩ := by
  rw [receive_chain, if_pos h]
  split
  · rename_i s1 hc
    simp [in_comm_rf] at hc
  · rename_i r1 s1 hc
    simp only [in_comm_rf, Prod.mk.injEq, Option.some.injEq] at hc
    obtain ⟨h1, h2⟩ := hc
    subst h1 h2
    rw [if_pos hr]

/-- One turn of the WTX loop that follows an outbound I-block. -/
theorem wtx_loop_step (response r : List Nat) (b1 N : Nat)
    (rest : List (Option (List Nat))) (log : List Exchange)
    (h : response ≠ [] ∧ response.getD 0 0 &&& 0xFE = 0xF2) (h1 : response[1]? = some b1) :
    wtx_loop response ⟨N, some r :: rest, log⟩
      = wtx_loop r ⟨N, rest,
          log ++ [⟨[0xF2, b1], ((b1 &&& 0x3F : Nat) : Int) * 1000, some r⟩]⟩ := by
  rw [wtx_loop, if_pos h]
  simp only [h1]
  split
  · rename_i s1 hc
    simp [in_comm_rf] at hc
  · rename_i r1 s1 hc
    simp only [in_comm_rf, Prod.mk.injEq, Option.some.injEq] at hc
    obtain ⟨h1, h2⟩ := hc
    subst h1 h2
    rfl

/-- C28, the inbound half: a WTX request `F2 01` that answers the R-ACK of inbound
chaining is not answered with `F2 01`. `_send_apdu_impl` takes it for a chained block:
its next transmission is the R-ACK `A2` with the ordinary 5000 ms timeout, and the
request's second byte `01` ends up in the response returned to the caller. The same
request answering an outbound I-block is answered with `F2 01` and a 1000 ms timeout,
and leaves nothing in the response. -/
theorem C28_inbound_wtx_unanswered :
    send_apdu_impl [0xF0, 0xDE, 0x00, 0x00, 0x01]
        ⟨0, [some [0x12, 0xAA], some [0xF2, 0x01], some [0x02, 0x90, 0x00]], []⟩
      = (.ok [0xAA, 0x01],
          ⟨1, [], [⟨[0x02, 0xF0, 0xDE, 0x00, 0x00, 0x01], 5000, some [0x12, 0xAA]⟩,
                   ⟨[0xA3], 5000, some [0xF2, 0x01]⟩,
                   ⟨[0xA2], 5000, some [0x02, 0x90, 0x00]⟩]⟩)
    ∧ send_apdu_impl [0xF0, 0xDE, 0x00, 0x00, 0x01]
        ⟨0, [some [0xF2, 0x01], some [0x02, 0x90, 0x00]], []⟩
      = (.ok [],
          ⟨1, [], [⟨[0x02, 0xF0, 0xDE, 0x00, 0x00, 0x01], 5000, some [0xF2, 0x01]⟩,
                   ⟨[0xF2, 0x01], 1000, some [0x02, 0x90, 0x00]⟩]⟩) := by
  constructor
  · unfold send_apdu_impl
    rw [send_iblocks, if_pos (by decide)]
    simp only [in_comm_rf]
    rw [wtx_loop_skip _ _ (by decide)]
    have hm : decide ([0xF0, 0xDE, 0x00, 0x00, 0x01].length - 0 > MIU) = false := by decide
    simp only [hm, Bool.false_eq_true, if_false]
    rw [send_iblocks_done _ _ _ _ (by decide)]
    simp only []
    rw [if_neg (by decide), receive_chain_step _ _ _ _ _ _ (by decide) (by decide),
      receive_chain_step _ _ _ _ _ _ (by decide) (by decide),
      receive_chain_skip _ _ _ (by decide)]
    simp only []
    have hsw : parse_sw [0xF0, 0xDE, 0x00, 0x00, 0x01]
        (List.drop 1 [0x12, 0xAA] ++ List.drop 1 [0xF2, 0x01] ++ List.drop 1 [0x02, 0x90, 0x00])
        = .ok [0xAA, 0x01] := by decide
    rw [hsw]
    rfl
  · unfold send_apdu_impl
    rw [send_iblocks, if_pos (by decide)]
    simp only [in_comm_rf]
    rw [wtx_loop_step _ _ 0x01 _ _ _ (by decide) (by decide), wtx_loop_skip _ _ (by decide)]
    have hm : decide ([0xF0, 0xDE, 0x00, 0x00, 0x01].length - 0 > MIU) = false := by decide
    simp only [hm, Bool.false_eq_true, if_false]
    rw [send_iblocks_done _ _ _ _ (by decide)]
    simp only []
    rw [if_neg (by decide), receive_chain_skip _ _ _ (by decide)]
    simp only []
    have hsw : parse_sw [0xF0, 0xDE, 0x00, 0x00, 0x01] (List.drop 1 [0x02, 0x90, 0x00])
        = .ok [] := by decide
    rw [hsw]
    rfl

/-! ## Session: send_image -/

theorem send_block_append {T : Type} (tr : NfcTransport T) (a b : List Apdu) :
    ∀ t : T, send_block tr (a ++ b) t
      = match send_block tr a t with
        | (.error e, t1) => (.error e, t1)
        | (.ok _, t1) => send_block tr b t1 := by
  induction a with
  | nil => intro t; rfl
  | cons x xs ih =>
    intro t
    simp only [List.cons_append, send_block]
    cases h : tr.send_apdu x t with
    | mk res t1 =>
      cases res with
      | error e => rfl
      | ok r => exact ih t1

theorem send_all_blocks_flatten {T : Type} (tr : NfcTransport T) (groups : List (List Apdu)) :
    ∀ t : T, send_all_blocks tr groups t = send_block tr groups.flatten t := by
  induction groups with
  | nil => intro t; rfl
  | cons g gs ih =>
    intro t
    rw [List.flatten_cons, send_block_append, send_all_blocks]
    cases h : send_block tr g t with
    | mk res t1 =>
      cases res with
      | error e => rfl
      | ok r => exact ih t1

/-- What a traced transport has recorded after `send_block`: either every APDU went
through, or the record stops at the first APDU the transport failed on. -/
theorem send_block_traced {T : Type} (tr : NfcTransport T) (apdus : List Apdu) :
    ∀ (t : T) (log : List (Apdu × Except TransportError (List Nat))),
      ((send_block (traced tr) apdus (t, log)).1 = .ok ()
        ∧ ∃ new, (send_block (traced tr) apdus (t, log)).2.2 = log ++ new
            ∧ new.map Prod.fst = apdus ∧ (∀ x ∈ new, ∃ r, x.2 = .ok r))
      ∨ (∃ e pre a post oks, apdus = pre ++ a :: post
            ∧ (send_block (traced tr) apdus (t, log)).1 = .error e
            ∧ (send_block (traced tr) apdus (t, log)).2.2 = log ++ oks ++ [(a, .error e)]
            ∧ oks.map Prod.fst = pre ∧ (∀ x ∈ oks, ∃ r, x.2 = .ok r)
            ∧ ∃ st, (tr.send_apdu a st).1 = .error e) := by
  induction apdus with
  | nil => intro t log; exact Or.inl ⟨rfl, [], by simp [send_block], rfl, by simp⟩
  | cons a rest ih =>
    intro t log
    cases h : (tr.send_apdu a t).1 with
    | error e =>
      refine Or.inr ⟨e, [], a, rest, [], rfl, ?_, ?_, rfl, by simp, t, h⟩
      · simp only [send_block, traced, h]
      · simp only [send_block, traced, h, List.append_nil]
    | ok r =>
      have hstep : send_block (traced tr) (a :: rest) (t, log)
          = send_block (traced tr) rest ((tr.send_apdu a t).2, log ++ [(a, .ok r)]) := by
        simp only [send_block, traced, h]
      rw [hstep]
      rcases ih (tr.send_apdu a t).2 (log ++ [(a, .ok r)]) with
        ⟨h1, new, h2, h3, h4⟩ | ⟨e, pre, b, post, oks, h1, h2, h3, h4, h5, h6⟩
      · refine Or.inl ⟨h1, (a, .ok r) :: new, ?_, ?_, ?_⟩
        · rw [h2]; simp
        · simp [h3]
        · intro x hx
          rcases List.mem_cons.mp hx with hx | hx
          · exact ⟨r, by rw [hx]⟩
          · exact h4 x hx
      · refine Or.inr ⟨e, a :: pre, b, post, (a, .ok r) :: oks, ?_, h2, ?_, ?_, ?_, h6⟩
        · rw [h1]; rfl
        · rw [h3]; simp
        · simp [h4]
        · intro x hx
          rcases List.mem_cons.mp hx with hx | hx
          · exact ⟨r, by rw [hx]⟩
          · exact h5 x hx

/-- C22: for a session holding `device_info`, the APDUs `send_image(pixels)` passes to
the transport, as a traced transport records them after what it had recorded before,
are either the concatenation, in order, of the groups of
`encode_image(pixels, device_info)`, every call having succeeded and `send_image`
returning normally, or that concatenation up to and including the first APDU the
transport failed on, `send_image` failing with the transport's error and nothing being
sent after it; with a transport that accepts every APDU it is the first. -/
theorem C22_send_image_order {T : Type} (tr : NfcTransport T)
    (compress_block : List Nat → List Nat) (device_info : DeviceInfo)
    (pixels : List (List Int)) (t : T)
    (log : List (Apdu × Except TransportError (List Nat))) :
    ((∀ (a : Apdu) (st : T), ∃ r, (tr.send_apdu a st).1 = .ok r) →
        (NfcEinkCard.send_image (traced tr) compress_block device_info pixels (t, log)).1
            = .ok ()
          ∧ (NfcEinkCard.send_image (traced tr) compress_block device_info pixels
                (t, log)).2.2.map Prod.fst
              = log.map Prod.fst ++ (encode_image compress_block pixels device_info).flatten)
      ∧ (((NfcEinkCard.send_image (traced tr) compress_block device_info pixels (t, log)).1
              = .ok ()
            ∧ ∃ new, (NfcEinkCard.send_image (traced tr) compress_block device_info pixels
                  (t, log)).2.2 = log ++ new
                ∧ new.map Prod.fst = (encode_image compress_block pixels device_info).flatten
                ∧ (∀ x ∈ new, ∃ r, x.2 = .ok r))
          ∨ (∃ e pre a post oks,
              (encode_image compress_block pixels device_info).flatten = pre ++ a :: post
                ∧ (NfcEinkCard.send_image (traced tr) compress_block device_info pixels
                    (t, log)).1 = .error e
                ∧ (NfcEinkCard.send_image (traced tr) compress_block device_info pixels
                    (t, log)).2.2 = log ++ oks ++ [(a, .error e)]
                ∧ oks.map Prod.fst = pre ∧ (∀ x ∈ oks, ∃ r, x.2 = .ok r))) := by
  unfold NfcEinkCard.send_image
  rw [send_all_blocks_flatten]
  rcases send_block_traced tr (encode_image compress_block pixels device_info).flatten t log
    with ⟨h1, new, h2, h3, h4⟩ | ⟨e, pre, a, post, oks, h1, h2, h3, h4, h5, st, h6⟩
  · refine ⟨fun _ => ⟨h1, ?_⟩, Or.inl ⟨h1, new, h2, h3, h4⟩⟩
    rw [h2, List.map_append, h3]
  · refine ⟨fun hacc => ?_, Or.inr ⟨e, pre, a, post, oks, h1, h2, h3, h4, h5⟩⟩
    obtain ⟨r, hr⟩ := hacc a st
    rw [hr] at h6
    exact Except.noConfusion h6

theorem C22_send_image_order_witness :
    (NfcEinkCard.send_image
        (traced ({ send_apdu := fun _ (n : Nat) => (.ok [], n + 1) } : NfcTransport Nat))
        (fun blk => blk ++ [17, 0, 0]) { width := 8, height := 1, bits_per_pixel := 2 }
        [[0, 1, 2, 3, 0, 1, 2, 3]] (0, [])).1 = .ok ()
      ∧ (NfcEinkCard.send_image
          (traced ({ send_apdu := fun _ (n : Nat) => (.ok [], n + 1) } : NfcTransport Nat))
          (fun blk => blk ++ [17, 0, 0]) { width := 8, height := 1, bits_per_pixel := 2 }
          [[0, 1, 2, 3, 0, 1, 2, 3]] (0, [])).2.2.map Prod.fst
        = ([] : List (Apdu × Except TransportError (List Nat))).map Prod.fst
            ++ (encode_image (fun blk => blk ++ [17, 0, 0]) [[0, 1, 2, 3, 0, 1, 2, 3]]
                { width := 8, height := 1, bits_per_pixel := 2 }).flatten :=
  (C22_send_image_order
    ({ send_apdu := fun _ (n : Nat) => (.ok [], n + 1) } : NfcTransport Nat)
    (fun blk => blk ++ [17, 0, 0]) { width := 8, height := 1, bits_per_pixel := 2 }
    [[0, 1, 2, 3, 0, 1, 2, 3]] 0 []).1 (fun _ _ => ⟨[], rfl⟩)

/-! ## Session: refresh -/

/-- What a traced transport has recorded after the poll loop of `refresh`. -/
theorem poll_loop_traced {T : Type} (tr : NfcTransport T) (deadline : Int)
    (clock : List Int) :
    ∀ (t : T) (log : List (Apdu × Except TransportError (List Nat))),
      ∃ polls, (poll_loop (traced tr) deadline clock (t, log)).2.2 = log ++ polls
        ∧ (∀ x ∈ polls, x.1 = build_poll_apdu)
        ∧ polls.length ≤ (clock.takeWhile fun now => decide (now < deadline)).length
        ∧ (((poll_loop (traced tr) deadline clock (t, log)).1 = .ok ()
              ∧ ∃ before last, polls = before ++ [last] ∧ poll_complete last.2 = true
                  ∧ ∀ x ∈ before, poll_complete x.2 = false)
            ∨ ((poll_loop (traced tr) deadline clock (t, log)).1 = .error .refresh_timed_out
              ∧ (∀ x ∈ polls, poll_complete x.2 = false)
              ∧ polls.length
                  = (clock.takeWhile fun now => decide (now < deadline)).length)) := by
  induction clock with
  | nil =>
    intro t log
    exact ⟨[], by simp [poll_loop], by simp, by simp, Or.inr ⟨rfl, by simp, by simp⟩⟩
  | cons now later ih =>
    intro t log
    by_cases hnow : now < deadline
    · have htw : ((now :: later).takeWhile fun now => decide (now < deadline)).length
          = (later.takeWhile fun now => decide (now < deadline)).length + 1 := by
        simp [List.takeWhile_cons, hnow]
      rw [htw]
      cases h : (tr.send_apdu build_poll_apdu t).1 with
      | error e =>
        have hstep : poll_loop (traced tr) deadline (now :: later) (t, log)
            = poll_loop (traced tr) deadline later
                ((tr.send_apdu build_poll_apdu t).2, log ++ [(build_poll_apdu, .error e)]) := by
          simp only [poll_loop, if_pos hnow, traced, h]
        rw [hstep]
        obtain ⟨polls, h1, h2, h3, h4⟩ :=
          ih (tr.send_apdu build_poll_apdu t).2 (log ++ [(build_poll_apdu, .error e)])
        refine ⟨(build_poll_apdu, .error e) :: polls, by rw [h1]; simp, ?_, by simp; omega, ?_⟩
        · intro x hx
          rcases List.mem_cons.mp hx with hx | hx
          · rw [hx]
          · exact h2 x hx
        · rcases h4 with ⟨g1, before, last, g2, g3, g4⟩ | ⟨g1, g2, g3⟩
          · refine Or.inl ⟨g1, (build_poll_apdu, .error e) :: before, last, by rw [g2]; rfl,
              g3, ?_⟩
            intro x hx
            rcases List.mem_cons.mp hx with hx | hx
            · rw [hx]; rfl
            · exact g4 x hx
          · refine Or.inr ⟨g1, ?_, by simp; omega⟩
            intro x hx
            rcases List.mem_cons.mp hx with hx | hx
            · rw [hx]; rfl
            · exact g2 x hx
      | ok response =>
        by_cases hc : is_refresh_complete response = true
        · have hstep : poll_loop (traced tr) deadline (now :: later) (t, log)
              = (.ok (), ((tr.send_apdu build_poll_apdu t).2,
                  log ++ [(build_poll_apdu, .ok response)])) := by
            simp only [poll_loop, if_pos hnow, traced, h, hc, if_true]
          rw [hstep]
          refine ⟨[(build_poll_apdu, .ok response)], rfl, by simp, by simp, ?_⟩
          exact Or.inl ⟨rfl, [], (build_poll_apdu, .ok response), rfl, hc, by simp⟩
        · have hc2 : is_refresh_complete response = false := by
            cases hb : is_refresh_complete response with
            | true => exact absurd hb hc
            | false => rfl
          have hstep : poll_loop (traced tr) deadline (now :: later) (t, log)
              = poll_loop (traced tr) deadline later
                  ((tr.send_apdu build_poll_apdu t).2,
                    log ++ [(build_poll_apdu, .ok response)]) := by
            simp only [poll_loop, if_pos hnow, traced, h, hc2, Bool.false_eq_true, if_false]
          rw [hstep]
          obtain ⟨polls, h1, h2, h3, h4⟩ :=
            ih (tr.send_apdu build_poll_apdu t).2 (log ++ [(build_poll_apdu, .ok response)])
          refine ⟨(build_poll_apdu, .ok response) :: polls, by rw [h1]; simp, ?_,
            by simp; omega, ?_⟩
          · intro x hx
            rcases List.mem_cons.mp hx with hx | hx
            · rw [hx]
            · exact h2 x hx
          · rcases h4 with ⟨g1, before, last, g2, g3, g4⟩ | ⟨g1, g2, g3⟩
            · refine Or.inl ⟨g1, (build_poll_apdu, .ok response) :: before, last,
                by rw [g2]; rfl, g3, ?_⟩
              intro x hx
              rcases List.mem_cons.mp hx with hx | hx
              · rw [hx]; exact hc2
              · exact g4 x hx
            · refine Or.inr ⟨g1, ?_, by simp; omega⟩
              intro x hx
              rcases List.mem_cons.mp hx with hx | hx
              · rw [hx]; exact hc2
              · exact g2 x hx
    · have htw : ((now :: later).takeWhile fun now => decide (now < deadline)) = [] := by
        simp [List.takeWhile_cons, hnow]
      rw [htw]
      have hstep : poll_loop (traced tr) deadline (now :: later) (t, log)
          = (.error .refresh_timed_out, (t, log)) := by
        simp only [poll_loop, if_neg hnow]
      rw [hstep]
      exact ⟨[], by simp, by simp, by simp, Or.inr ⟨rfl, by simp, by simp⟩⟩

/-- C23: what a traced transport records of `refresh` is the refresh APDU once,
followed by poll APDUs only. If the refresh APDU fails, `refresh` fails with that error
and polls nothing. Otherwise either `refresh` returns normally, the last recorded poll
is complete and none before it is (a poll the transport failed on counts as not
complete), or it fails with "refresh timed out", no recorded poll is complete, and
there is one poll for each reading of the clock before the deadline. Against a
transport that answers the polls with `[0x01]`, `[0x01]`, `[0x00]`, with a timeout of
5000 ms and three readings of the clock before the deadline, `refresh` returns normally
after exactly three polls. The clock is the list of the readings of `now()`. -/
theorem C23_refresh_polls {T : Type} (tr : NfcTransport T) (timeout_ms : Int)
    (clock : List Int) (t : T) (log : List (Apdu × Except TransportError (List Nat))) :
    (∃ r0 polls,
        (NfcEinkCard.refresh (traced tr) timeout_ms clock (t, log)).2.2
            = log ++ (build_refresh_apdu, r0) :: polls
          ∧ (∀ x ∈ polls, x.1 = build_poll_apdu)
          ∧ ((∃ e, r0 = .error e ∧ polls = []
                ∧ (NfcEinkCard.refresh (traced tr) timeout_ms clock (t, log)).1
                    = .error (.transport e))
              ∨ ((∃ b, r0 = .ok b)
                ∧ (((NfcEinkCard.refresh (traced tr) timeout_ms clock (t, log)).1 = .ok ()
                      ∧ ∃ before last, polls = before ++ [last]
                          ∧ poll_complete last.2 = true
                          ∧ ∀ x ∈ before, poll_complete x.2 = false)
                    ∨ ((NfcEinkCard.refresh (traced tr) timeout_ms clock (t, log)).1
                          = .error .refresh_timed_out
                      ∧ (∀ x ∈ polls, poll_complete x.2 = false)
                      ∧ polls.length
                          = ((clock.drop 1).takeWhile fun now =>
                              decide (now < clock.headD 0 + timeout_ms)).length)))))
      ∧ ∀ (r0 : List Nat) (rest : List (Except TransportError (List Nat)))
          (now0 t1 t2 t3 : Int) (more : List Int)
          (slog : List (Apdu × Except TransportError (List Nat))),
          t1 < now0 + 5000 → t2 < now0 + 5000 → t3 < now0 + 5000 →
          NfcEinkCard.refresh (traced scripted) 5000 (now0 :: t1 :: t2 :: t3 :: more)
              ([.ok r0, .ok [0x01], .ok [0x01], .ok [0x00]] ++ rest, slog)
            = (.ok (), (rest, slog ++ [(build_refresh_apdu, .ok r0),
                (build_poll_apdu, .ok [0x01]), (build_poll_apdu, .ok [0x01]),
                (build_poll_apdu, .ok [0x00])])) := by
  refine ⟨?_, ?_⟩
  · cases h : (tr.send_apdu build_refresh_apdu t).1 with
    | error e =>
      have hrun : NfcEinkCard.refresh (traced tr) timeout_ms clock (t, log)
          = (.error (.transport e), ((tr.send_apdu build_refresh_apdu t).2,
              log ++ [(build_refresh_apdu, .error e)])) := by
        simp only [NfcEinkCard.refresh, traced, h]
      rw [hrun]
      exact ⟨.error e, [], rfl, by simp, Or.inl ⟨e, rfl, rfl, rfl⟩⟩
    | ok b =>
      cases clock with
      | nil =>
        have hrun : NfcEinkCard.refresh (traced tr) timeout_ms [] (t, log)
            = (.error .refresh_timed_out, ((tr.send_apdu build_refresh_apdu t).2,
                log ++ [(build_refresh_apdu, .ok b)])) := by
          simp only [NfcEinkCard.refresh, traced, h]
        rw [hrun]
        exact ⟨.ok b, [], rfl, by simp,
          Or.inr ⟨⟨b, rfl⟩, Or.inr ⟨rfl, by simp, by simp⟩⟩⟩
      | cons now later =>
        have hrun : NfcEinkCard.refresh (traced tr) timeout_ms (now :: later) (t, log)
            = poll_loop (traced tr) (now + timeout_ms) later
                ((tr.send_apdu build_refresh_apdu t).2,
                  log ++ [(build_refresh_apdu, .ok b)]) := by
          simp only [NfcEinkCard.refresh, traced, h]
        rw [hrun]
        obtain ⟨polls, h1, h2, _, h4⟩ := poll_loop_traced tr (now + timeout_ms) later
          (tr.send_apdu build_refresh_apdu t).2 (log ++ [(build_refresh_apdu, .ok b)])
        refine ⟨.ok b, polls, by rw [h1]; simp, h2, Or.inr ⟨⟨b, rfl⟩, ?_⟩⟩
        simpa using h4
  · intro r0 rest now0 t1 t2 t3 more slog h1 h2 h3
    simp only [NfcEinkCard.refresh, traced, scripted, List.cons_append, List.nil_append,
      poll_loop, if_pos h1, if_pos h2, if_pos h3]
    simp [is_refresh_complete]

theorem C23_refresh_polls_witness :
    NfcEinkCard.refresh (traced scripted) 5000 (0 :: 100 :: 200 :: 300 :: [400, 500])
        ([.ok [], .ok [0x01], .ok [0x01], .ok [0x00]] ++ [.ok [0x00]], [])
      = (.ok (), ([.ok [0x00]], [] ++ [(build_refresh_apdu, .ok []),
          (build_poll_apdu, .ok [0x01]), (build_poll_apdu, .ok [0x01]),
          (build_poll_apdu, .ok [0x00])])) :=
  (C23_refresh_polls scripted 0 [] [] []).2 [] [.ok [0x00]] 0 100 200 300 [400, 500] []
    (by decide) (by decide) (by decide)

/-! ## The frame scan of send_command -/

theorem len_field (n : Nat) (h : n < 65536) :
    (n % 256 ||| ((n / 256 % 256) <<< 8)) % 65536 = n := by
  rw [Nat.or_comm, shift_or_byte _ _ (Nat.mod_lt _ (by decide))]
  omega

theorem data_frame_length (p : List Nat) (lcs dcs post : Nat) :
    (data_frame p lcs dcs post).length = 10 + p.length := by
  simp only [data_frame, List.length_append, List.length_cons, List.length_nil]
  omega

theorem data_frame_cons (p : List Nat) (lcs dcs post : Nat) :
    data_frame p lcs dcs post
      = 0x00 :: 0x00 :: 0xFF :: 0xFF :: 0xFF :: (p.length % 256) :: (p.length / 256 % 256)
          :: lcs :: (p ++ [dcs, post]) := by
  simp [data_frame]

/-- The payload `parse_frame` extracts from a data frame does not depend on the two
checksum bytes or on the postamble. -/
theorem parse_frame_data (p : List Nat) (lcs dcs post : Nat) (h : p.length < 65536) :
    parse_frame (data_frame p lcs dcs post) = p := by
  have hlen := data_frame_length p lcs dcs post
  unfold parse_frame
  rw [hlen, data_frame_cons]
  simp only [List.getD_cons_zero, List.getD_cons_succ]
  rw [len_field _ h]
  rw [if_pos ⟨by omega, trivial, trivial, trivial⟩, if_neg (fun hc => absurd hc.1 (by decide)),
    if_pos ⟨trivial, trivial, by omega⟩, if_pos (by omega)]
  simp

theorem prefix_free_tail (b : Nat) (g : List Nat) (h : prefix_free (b :: g)) :
    prefix_free g := by
  intro i
  have := h (i + 1)
  simpa using this

/-- With no `00 00 FF` inside the garbage, the search stops right after it. -/
theorem search_start_garbage (g rest : List Nat) (h : prefix_free g) :
    search_start (g ++ 0x00 :: 0x00 :: 0xFF :: rest) = g.length := by
  induction g with
  | nil => simp [search_start]
  | cons b g ih =>
    have h0 := h 0
    rw [List.cons_append, search_start, if_neg, ih (prefix_free_tail b g h), List.length_cons,
      Nat.add_comm]
    intro hc
    apply h0
    rw [List.drop_zero]
    match g, hc with
    | [], hc => simp at hc
    | [x], hc => simp at hc
    | x :: y :: g2, hc => simpa using hc

theorem scan_garbage_ack (c : Nat) (g rest : List Nat) (h : prefix_free g) :
    scan_buffer c (g ++ ACK_FRAME ++ rest) = scan_buffer c rest := by
  have hshape : g ++ ACK_FRAME ++ rest
      = g ++ 0x00 :: 0x00 :: 0xFF :: (0x00 :: 0xFF :: 0x00 :: rest) := by
    simp [ACK_FRAME]
  rw [hshape, scan_buffer]
  simp only [search_start_garbage g _ h, List.drop_left, List.length_append, List.length_cons,
    List.getD_cons_zero, List.getD_cons_succ, List.drop_succ_cons, List.drop_zero]
  rw [if_pos (by omega), if_neg (by omega), if_neg (by omega), if_pos ⟨trivial, trivial, trivial⟩]

/-- The scan on a data frame whose payload starts with `D7, c + 1`: the rest of the
payload is returned, whatever the checksum bytes and the postamble are. -/
theorem scan_data_frame (c : Nat) (d : List Nat) (lcs dcs post : Nat)
    (hd : 2 + d.length < 65536) :
    scan_buffer c (data_frame ([0xD7, c + 1] ++ d) lcs dcs post) = (some d, []) := by
  have hp : ([0xD7, c + 1] ++ d).length < 65536 := by
    simp only [List.length_append, List.length_cons, List.length_nil]; omega
  have hparse := parse_frame_data ([0xD7, c + 1] ++ d) lcs dcs post hp
  have hlen := data_frame_length ([0xD7, c + 1] ++ d) lcs dcs post
  have hfind : search_start (data_frame ([0xD7, c + 1] ++ d) lcs dcs post) = 0 := by
    rw [data_frame_cons]; simp [search_start]
  have h3 : (data_frame ([0xD7, c + 1] ++ d) lcs dcs post).getD 3 0 = 0xFF := by
    rw [data_frame_cons]; rfl
  have h4 : (data_frame ([0xD7, c + 1] ++ d) lcs dcs post).getD 4 0 = 0xFF := by
    rw [data_frame_cons]; rfl
  have h5 : (data_frame ([0xD7, c + 1] ++ d) lcs dcs post).getD 5 0
      = ([0xD7, c + 1] ++ d).length % 256 := by
    rw [data_frame_cons]; rfl
  have h6 : (data_frame ([0xD7, c + 1] ++ d) lcs dcs post).getD 6 0
      = ([0xD7, c + 1] ++ d).length / 256 % 256 := by
    rw [data_frame_cons]; rfl
  rw [scan_buffer]
  simp only [hfind, List.drop_zero, h3, h4, h5, h6, len_field _ hp, hlen]
  rw [if_pos (by omega), if_neg (by omega), if_neg (by omega),
    if_neg (fun hc => absurd hc.1 (by decide)), if_pos ⟨by omega, trivial, trivial⟩,
    if_pos (by omega)]
  have htake : List.take (10 + ([0xD7, c + 1] ++ d).length)
      (data_frame ([0xD7, c + 1] ++ d) lcs dcs post)
      = data_frame ([0xD7, c + 1] ++ d) lcs dcs post :=
    List.take_of_length_le (by omega)
  have hdrop : List.drop (10 + ([0xD7, c + 1] ++ d).length)
      (data_frame ([0xD7, c + 1] ++ d) lcs dcs post) = [] :=
    List.drop_of_length_le (by omega)
  rw [htake, hparse, hdrop]
  simp

theorem build_frame_data_frame (p : List Nat) (hp : p.length < 65536) :
    build_frame p
      = data_frame p ((256 - (p.length % 256 + p.length / 256 % 256) % 256) % 256)
          ((256 - p.sum % 256) % 256) 0x00 := by
  rw [build_frame_eq, Nat.mod_eq_of_lt hp]
  rfl

/-- C30, as stated, fails: the data frame `00 00 FF FF FF 03 00 00 D7 2B 09 00 00`
has a length checksum and a data checksum that do not match (`3 + 0 + 0` and
`D7 + 2B + 09 + 0` are not 0 modulo 256), and both `parse_frame` and the scan of
`send_command` return its payload. -/
theorem C30_bad_checksum_counterexample :
    (3 + 0 + 0) % 256 ≠ 0 ∧ (0xD7 + 0x2B + 0x09 + 0) % 256 ≠ 0
      ∧ data_frame [0xD7, 0x2B, 0x09] 0 0 0
          = [0x00, 0x00, 0xFF, 0xFF, 0xFF, 0x03, 0x00, 0x00, 0xD7, 0x2B, 0x09, 0x00, 0x00]
      ∧ parse_frame (data_frame [0xD7, 0x2B, 0x09] 0 0 0) = [0xD7, 0x2B, 0x09]
      ∧ scan_buffer 0x2A (data_frame [0xD7, 0x2B, 0x09] 0 0 0) = (some [0x09], []) :=
  ⟨by decide, by decide, by decide, parse_frame_data _ 0 0 0 (by decide),
    scan_data_frame 0x2A [0x09] 0 0 0 (by decide)⟩

/-- C30, amended: no checksum is verified. For a payload `p` of fewer than 65536 bytes
and any length checksum, data checksum and postamble bytes, `parse_frame` returns `p`
from the data frame `00 00 FF FF FF len_lo len_hi lcs p dcs post`, and when `p` is
`[0xD7, c + 1] ++ d` the scan of `send_command` for command `c` returns `d`. -/
theorem C30_checksums_ignored (p : List Nat) (lcs dcs post : Nat) (hp : p.length < 65536) :
    parse_frame (data_frame p lcs dcs post) = p
      ∧ ∀ (c : Nat) (d : List Nat), p = [0xD7, c + 1] ++ d →
          scan_buffer c (data_frame p lcs dcs post) = (some d, []) := by
  refine ⟨parse_frame_data p lcs dcs post hp, ?_⟩
  intro c d hpd
  subst hpd
  exact scan_data_frame c d lcs dcs post
    (by simp only [List.length_append, List.length_cons, List.length_nil] at hp; omega)

theorem C30_checksums_ignored_witness :
    parse_frame (data_frame [0xD7, 0x2B, 0x09] 1 2 3) = [0xD7, 0x2B, 0x09]
      ∧ scan_buffer 0x2A (data_frame [0xD7, 0x2B, 0x09] 1 2 3) = (some [0x09], []) :=
  ⟨(C30_checksums_ignored [0xD7, 0x2B, 0x09] 1 2 3 (by decide)).1,
    (C30_checksums_ignored [0xD7, 0x2B, 0x09] 1 2 3 (by decide)).2 0x2A [0x09] rfl⟩

/-! ## Atkinson dithering of palette-exact images -/

theorem set_getD_self {α : Type} (l : List α) (i : Nat) (d : α) :
    l.set i (l.getD i d) = l := by
  induction l generalizing i with
  | nil => rfl
  | cons a l ih =>
    cases i with
    | zero => rfl
    | succ i => rw [List.getD_cons_succ, List.set_cons_succ, ih]

theorem grid_add_zero (m : List (List ℚ)) (y x : Nat) : grid_add m y x 0 = m := by
  unfold grid_add
  rw [add_zero, set_getD_self, set_getD_self]

theorem distribute_zero (width height x y : Int) (st : DitherState) :
    distribute width height x y 0 0 0 st = st := by
  have hstep : (fun (s : DitherState) (off : Int × Int) =>
      let nx : Int := x + off.1
      let ny : Int := y + off.2
      if 0 ≤ nx ∧ nx < width ∧ 0 ≤ ny ∧ ny < height then
        { s with err_r := grid_add s.err_r ny.toNat nx.toNat (0 * (1 / 8)),
                 err_g := grid_add s.err_g ny.toNat nx.toNat (0 * (1 / 8)),
                 err_b := grid_add s.err_b ny.toNat nx.toNat (0 * (1 / 8)) }
      else s) = fun (s : DitherState) (_ : Int × Int) => s := by
    funext s off
    simp only [zero_mul, grid_add_zero, ite_self]
  unfold distribute
  rw [hstep]
  simp [ATKINSON_OFFSETS]

theorem cpp_round_nat (n : Nat) : cpp_round ((n : Nat) : ℚ) = (n : Int) := by
  unfold cpp_round
  rw [if_pos (by positivity), Int.floor_eq_iff]
  constructor
  · push_cast; linarith
  · push_cast; linarith

theorem clamp_byte (v : Int) (h0 : 0 ≤ v) (h1 : v ≤ 255) : clamp v 0 255 = v := by
  unfold clamp
  rw [if_neg (by omega), if_neg (by omega)]

theorem nearest_color_exact (i : Nat) (hi : i < 4) :
    nearest_color (PALETTE_4COLOR.getD i ⟨0, 0, 0⟩).r (PALETTE_4COLOR.getD i ⟨0, 0, 0⟩).g
      (PALETTE_4COLOR.getD i ⟨0, 0, 0⟩).b PALETTE_4COLOR = (i : Int) := by
  interval_cases i <;> decide

theorem palette_byte (i : Nat) :
    0 ≤ (PALETTE_4COLOR.getD i ⟨0, 0, 0⟩).r ∧ (PALETTE_4COLOR.getD i ⟨0, 0, 0⟩).r ≤ 255
      ∧ 0 ≤ (PALETTE_4COLOR.getD i ⟨0, 0, 0⟩).g ∧ (PALETTE_4COLOR.getD i ⟨0, 0, 0⟩).g ≤ 255
      ∧ 0 ≤ (PALETTE_4COLOR.getD i ⟨0, 0, 0⟩).b
      ∧ (PALETTE_4COLOR.getD i ⟨0, 0, 0⟩).b ≤ 255 := by
  rcases lt_or_le i 4 with h | h
  · interval_cases i <;> decide
  · rw [List.getD_eq_default _ _ (by simpa [PALETTE_4COLOR] using h)]
    decide

/-- Writing `step i` of the entry at `i`, for `i = 0 .. k - 1` in turn, rewrites the
first `k` entries and leaves the rest. -/
theorem fill_first {α : Type} (d : α) (step : Nat → α → α) (l : List α) :
    ∀ k, k ≤ l.length →
      (List.range k).foldl (fun (r : List α) (i : Nat) => r.set i (step i (r.getD i d))) l
        = (List.range k).map (fun (i : Nat) => step i (l.getD i d)) ++ l.drop k := by
  intro k
  induction k with
  | zero => intro _; simp
  | succ k ih =>
    intro hk
    have hlen : ((List.range k).map (fun (i : Nat) => step i (l.getD i d))).length = k := by
      simp
    have hdrop : l.drop k = l[k] :: l.drop (k + 1) := List.drop_eq_getElem_cons (by omega)
    rw [List.range_succ, List.foldl_append, List.foldl_cons, List.foldl_nil, ih (by omega),
      List.set_append_right _ _ (by rw [hlen]), List.getD_append_right _ _ _ _ (by rw [hlen]),
      hlen, Nat.sub_self, hdrop, List.getD_cons_zero, List.set_cons_zero, List.map_append,
      List.map_cons, List.map_nil, List.append_assoc, List.singleton_append,
      List.getD_eq_getElem l d (by omega)]

theorem grid_row_fill (y : Nat) (g : Nat → Int) (xs : List Nat) :
    ∀ m : List (List Int),
      xs.foldl (fun (m1 : List (List Int)) (x : Nat) => grid_set m1 y x (g x)) m
        = m.set y (xs.foldl (fun (r : List Int) (x : Nat) => r.set x (g x)) (m.getD y [])) := by
  induction xs with
  | nil => intro m; exact (set_getD_self m y []).symm
  | cons x xs ih =>
    intro m
    rw [List.foldl_cons, List.foldl_cons, ih]
    rcases lt_or_le y m.length with h | h
    · have hrow : (grid_set m y x (g x)).getD y [] = (m.getD y []).set x (g x) := by
        unfold grid_set
        rw [List.getD_eq_getElem _ _ (by rw [List.length_set]; exact h), List.getElem_set_self]
      rw [hrow]
      unfold grid_set
      rw [List.set_set]
    · have hsame : grid_set m y x (g x) = m := List.set_eq_of_length_le h
      rw [hsame, List.set_eq_of_length_le h, List.set_eq_of_length_le h]

theorem pixel_offset (W y x c : Nat) :
    ((((y : Int) * (W : Int) + (x : Int)) * 3).toNat + c) = 3 * (y * W + x) + c := by
  have h : ((y : Int) * (W : Int) + (x : Int)) * 3 = ((3 * (y * W + x) : Nat) : Int) := by
    push_cast; ring
  rw [h, Int.toNat_natCast]

theorem pixel_offset_add (W y x : Nat) (c : Nat) :
    (((y : Int) * (W : Int) + (x : Int)) * 3 + (c : Int)).toNat = 3 * (y * W + x) + c := by
  have h : ((y : Int) * (W : Int) + (x : Int)) * 3 + (c : Int)
      = ((3 * (y * W + x) + c : Nat) : Int) := by
    push_cast; ring
  rw [h, Int.toNat_natCast]

theorem dither_none_eq_map (rgb : List Nat) (W H : Nat) (palette : List Color) :
    dither_none rgb (W : Int) (H : Int) palette
      = (List.range H).map fun (y : Nat) =>
          (List.range W).map fun (x : Nat) => source_index rgb W palette y x := by
  unfold dither_none source_index
  simp only [Int.toNat_natCast]
  apply List.map_congr_left
  intro y _
  apply List.map_congr_left
  intro x _
  have h0 := pixel_offset W y x 0
  have h1 := pixel_offset_add W y x 1
  have h2 := pixel_offset_add W y x 2
  simp only [Nat.add_zero, Nat.cast_one, Nat.cast_ofNat] at h0 h1 h2
  rw [h0, h1, h2]

theorem getD_map_range {α : Type} (F : Nat → α) (n i : Nat) (d : α) (h : i < n) :
    ((List.range n).map F).getD i d = F i := by
  rw [List.getD_eq_getElem _ _ (by simp only [List.length_map, List.length_range]; exact h),
    List.getElem_map, List.getElem_range]

theorem source_channel_entry (rgb : List Nat) (W H c y x : Nat) (hy : y < H) (hx : x < W) :
    ((source_channel rgb (W : Int) (H : Int) c).getD y []).getD x 0
      = ((rgb.getD (3 * (y * W + x) + c) 0 : Nat) : ℚ) := by
  unfold source_channel
  simp only [Int.toNat_natCast]
  rw [getD_map_range _ H y [] hy, getD_map_range _ W x 0 hx, pixel_offset]

theorem grid_fill (W H : Nat) (f : Nat → Nat → Int) :
    (List.range H).foldl
        (fun (m : List (List Int)) (y : Nat) =>
          (List.range W).foldl
            (fun (m1 : List (List Int)) (x : Nat) => grid_set m1 y x (f y x)) m)
        (List.replicate H (List.replicate W 0))
      = (List.range H).map fun (y : Nat) => (List.range W).map fun (x : Nat) => f y x := by
  have hfun : (fun (m : List (List Int)) (y : Nat) =>
        (List.range W).foldl
          (fun (m1 : List (List Int)) (x : Nat) => grid_set m1 y x (f y x)) m)
      = fun (m : List (List Int)) (y : Nat) =>
          m.set y ((fun (y : Nat) (row : List Int) =>
            (List.range W).foldl (fun (r : List Int) (x : Nat) => r.set x (f y x)) row) y
              (m.getD y [])) := by
    funext m y
    exact grid_row_fill y (f y) (List.range W) m
  rw [hfun]
  refine (fill_first ([] : List Int)
    (fun (y : Nat) (row : List Int) =>
      (List.range W).foldl (fun (r : List Int) (x : Nat) => r.set x (f y x)) row)
    (List.replicate H (List.replicate W 0)) H (by simp)).trans ?_
  rw [List.drop_of_length_le (by simp), List.append_nil]
  apply List.map_congr_left
  intro y hy
  have hget : (List.replicate H (List.replicate W (0 : Int))).getD y [] = List.replicate W 0 := by
    rw [List.getD_eq_getElem _ _ (by simpa using List.mem_range.mp hy)]
    simp
  have hrow := fill_first (0 : Int) (fun (x : Nat) (_ : Int) => f y x)
    (List.replicate W 0) W (by simp)
  rw [List.drop_of_length_le (by simp), List.append_nil] at hrow
  simp only [hget]
  exact hrow

theorem dither_pixel_exact (rgb : List Nat) (W H : Nat) (st : DitherState) (y x : Nat)
    (hy : y < H) (hx : x < W)
    (hr : st.err_r = source_channel rgb (W : Int) (H : Int) 0)
    (hg : st.err_g = source_channel rgb (W : Int) (H : Int) 1)
    (hb : st.err_b = source_channel rgb (W : Int) (H : Int) 2)
    (hp : ∃ i, i < 4 ∧ pixel_is rgb PALETTE_4COLOR (y * W + x) i) :
    dither_pixel (W : Int) (H : Int) PALETTE_4COLOR st y x
      = { st with result := grid_set st.result y x (source_index rgb W PALETTE_4COLOR y x) } := by
  obtain ⟨i, hi, p0, p1, p2⟩ := hp
  have e0 := source_channel_entry rgb W H 0 y x hy hx
  have e1 := source_channel_entry rgb W H 1 y x hy hx
  have e2 := source_channel_entry rgb W H 2 y x hy hx
  rw [Nat.add_zero] at e0
  have hidx : source_index rgb W PALETTE_4COLOR y x = (i : Int) := by
    unfold source_index
    rw [p0, p1, p2]
    exact nearest_color_exact i hi
  obtain ⟨b0, b1, b2, b3, b4, b5⟩ := palette_byte i
  simp only [dither_pixel]
  rw [hr, hg, hb, e0, e1, e2, cpp_round_nat, cpp_round_nat, cpp_round_nat, p0, p1, p2,
    clamp_byte _ b0 b1, clamp_byte _ b2 b3, clamp_byte _ b4 b5, nearest_color_exact i hi,
    Int.toNat_natCast, sub_self, sub_self, sub_self, distribute_zero, hidx, ← hr, ← hg, ← hb]

theorem dither_row_exact (rgb : List Nat) (W H y : Nat) (hy : y < H)
    (hexact : ∀ x, x < W → ∃ i, i < 4 ∧ pixel_is rgb PALETTE_4COLOR (y * W + x) i)
    (xs : List Nat) (hxs : ∀ x ∈ xs, x < W) :
    ∀ st : DitherState,
      st.err_r = source_channel rgb (W : Int) (H : Int) 0 →
      st.err_g = source_channel rgb (W : Int) (H : Int) 1 →
      st.err_b = source_channel rgb (W : Int) (H : Int) 2 →
      xs.foldl (fun (st1 : DitherState) (x : Nat) =>
          dither_pixel (W : Int) (H : Int) PALETTE_4COLOR st1 y x) st
        = { st with result := xs.foldl (fun (m : List (List Int)) (x : Nat) =>
              grid_set m y x (source_index rgb W PALETTE_4COLOR y x)) st.result } := by
  induction xs with
  | nil => intro st _ _ _; rfl
  | cons x xs ih =>
    intro st hr hg hb
    have hx : x < W := hxs x (List.mem_cons_self x xs)
    rw [List.foldl_cons, List.foldl_cons,
      dither_pixel_exact rgb W H st y x hy hx hr hg hb (hexact x hx)]
    exact ih (fun z hz => hxs z (List.mem_cons_of_mem x hz)) _ hr hg hb

theorem dither_rows_exact (rgb : List Nat) (W H : Nat)
    (hexact : ∀ y, y < H → ∀ x, x < W →
      ∃ i, i < 4 ∧ pixel_is rgb PALETTE_4COLOR (y * W + x) i)
    (ys : List Nat) (hys : ∀ y ∈ ys, y < H) :
    ∀ st : DitherState,
      st.err_r = source_channel rgb (W : Int) (H : Int) 0 →
      st.err_g = source_channel rgb (W : Int) (H : Int) 1 →
      st.err_b = source_channel rgb (W : Int) (H : Int) 2 →
      ys.foldl (fun (st0 : DitherState) (y : Nat) =>
          (List.range W).foldl (fun (st1 : DitherState) (x : Nat) =>
            dither_pixel (W : Int) (H : Int) PALETTE_4COLOR st1 y x) st0) st
        = { st with result := ys.foldl (fun (m0 : List (List Int)) (y : Nat) =>
              (List.range W).foldl (fun (m : List (List Int)) (x : Nat) =>
                grid_set m y x (source_index rgb W PALETTE_4COLOR y x)) m0) st.result } := by
  induction ys with
  | nil => intro st _ _ _; rfl
  | cons y ys ih =>
    intro st hr hg hb
    have hy : y < H := hys y (List.mem_cons_self y ys)
    rw [List.foldl_cons, List.foldl_cons,
      dither_row_exact rgb W H y hy (hexact y hy) (List.range W)
        (fun x hx => List.mem_range.mp hx) st hr hg hb]
    exact ih (fun z hz => hys z (List.mem_cons_of_mem y hz)) _ hr hg hb

/-- On a palette-exact image the Atkinson run ends with the accumulators it started
with and the grid `dither_none` returns. -/
theorem dither_atkinson_run_exact (rgb : List Nat) (W H : Nat)
    (hexact : ∀ y, y < H → ∀ x, x < W →
      ∃ i, i < 4 ∧ pixel_is rgb PALETTE_4COLOR (y * W + x) i) :
    dither_atkinson_run rgb (W : Int) (H : Int) PALETTE_4COLOR
      = { err_r := source_channel rgb (W : Int) (H : Int) 0,
          err_g := source_channel rgb (W : Int) (H : Int) 1,
          err_b := source_channel rgb (W : Int) (H : Int) 2,
          result := dither_none rgb (W : Int) (H : Int) PALETTE_4COLOR } := by
  unfold dither_atkinson_run
  simp only [Int.toNat_natCast]
  rw [dither_rows_exact rgb W H hexact (List.range H) (fun y hy => List.mem_range.mp hy) _
    rfl rfl rfl]
  simp only []
  rw [grid_fill, dither_none_eq_map]

/-- C21: for `W, H ≥ 1` and an RGB buffer of `3 W H` bytes in which every pixel is
exactly one of the four palette colours, `dither_atkinson` returns the `H` by `W` grid
whose entry `[y][x]` is the palette index of the pixel at `(x, y)`, which is the grid
`dither_none` returns; every diffused error is zero: the accumulators end as the source
channels they started as, and each accumulator entry equals the component of the
palette colour chosen for its pixel. The `float` accumulators are rationals here; on
these inputs every value in them is an integer in `0 .. 255`. -/
theorem C21_atkinson_exact (rgb : List Nat) (W H : Nat) (_hW : 1 ≤ W) (_hH : 1 ≤ H)
    (_hlen : rgb.length = 3 * W * H)
    (hexact : ∀ y, y < H → ∀ x, x < W →
      ∃ i, i < 4 ∧ pixel_is rgb PALETTE_4COLOR (y * W + x) i) :
    Rect (dither_atkinson rgb (W : Int) (H : Int) PALETTE_4COLOR) H W
      ∧ (∀ y, y < H → ∀ x, x < W → ∀ i, i < 4 →
          pixel_is rgb PALETTE_4COLOR (y * W + x) i →
          ((dither_atkinson rgb (W : Int) (H : Int) PALETTE_4COLOR).getD y []).getD x 0
            = (i : Int))
      ∧ dither_atkinson rgb (W : Int) (H : Int) PALETTE_4COLOR
          = dither_none rgb (W : Int) (H : Int) PALETTE_4COLOR
      ∧ (dither_atkinson_run rgb (W : Int) (H : Int) PALETTE_4COLOR).err_r
          = source_channel rgb (W : Int) (H : Int) 0
      ∧ (dither_atkinson_run rgb (W : Int) (H : Int) PALETTE_4COLOR).err_g
          = source_channel rgb (W : Int) (H : Int) 1
      ∧ (dither_atkinson_run rgb (W : Int) (H : Int) PALETTE_4COLOR).err_b
          = source_channel rgb (W : Int) (H : Int) 2
      ∧ ∀ y, y < H → ∀ x, x < W →
          (((dither_atkinson_run rgb (W : Int) (H : Int) PALETTE_4COLOR).err_r.getD y []).getD
              x 0
            = (((PALETTE_4COLOR.getD
                (((dither_atkinson rgb (W : Int) (H : Int) PALETTE_4COLOR).getD y []).getD
                  x 0).toNat ⟨0, 0, 0⟩).r : Int) : ℚ))
          ∧ (((dither_atkinson_run rgb (W : Int) (H : Int) PALETTE_4COLOR).err_g.getD y []).getD
              x 0
            = (((PALETTE_4COLOR.getD
                (((dither_atkinson rgb (W : Int) (H : Int) PALETTE_4COLOR).getD y []).getD
                  x 0).toNat ⟨0, 0, 0⟩).g : Int) : ℚ))
          ∧ (((dither_atkinson_run rgb (W : Int) (H : Int) PALETTE_4COLOR).err_b.getD y []).getD
              x 0
            = (((PALETTE_4COLOR.getD
                (((dither_atkinson rgb (W : Int) (H : Int) PALETTE_4COLOR).getD y []).getD
                  x 0).toNat ⟨0, 0, 0⟩).b : Int) : ℚ)) := by
  have hrun := dither_atkinson_run_exact rgb W H hexact
  have hres : dither_atkinson rgb (W : Int) (H : Int) PALETTE_4COLOR
      = dither_none rgb (W : Int) (H : Int) PALETTE_4COLOR := by
    unfold dither_atkinson
    rw [hrun]
  have hentry : ∀ y, y < H → ∀ x, x < W → ∀ i, i < 4 →
      pixel_is rgb PALETTE_4COLOR (y * W + x) i →
      ((dither_atkinson rgb (W : Int) (H : Int) PALETTE_4COLOR).getD y []).getD x 0
        = (i : Int) := by
    intro y hy x hx i hi hp
    rw [hres, dither_none_entry rgb W H PALETTE_4COLOR y x hy hx, hp.1, hp.2.1, hp.2.2]
    exact nearest_color_exact i hi
  refine ⟨?_, hentry, hres, by rw [hrun], by rw [hrun], by rw [hrun], ?_⟩
  · rw [hres]
    exact dither_none_rect rgb W H PALETTE_4COLOR
  · intro y hy x hx
    obtain ⟨i, hi, hp⟩ := hexact y hy x hx
    rw [hentry y hy x hx i hi hp, hrun, Int.toNat_natCast]
    simp only []
    rw [source_channel_entry rgb W H 0 y x hy hx, source_channel_entry rgb W H 1 y x hy hx,
      source_channel_entry rgb W H 2 y x hy hx, Nat.add_zero, ← hp.1, ← hp.2.1, ← hp.2.2]
    exact ⟨by push_cast; rfl, by push_cast; rfl, by push_cast; rfl⟩

theorem C21_atkinson_exact_witness :
    dither_atkinson (List.replicate 16 [255, 0, 0]).flatten ((4 : Nat) : Int) ((4 : Nat) : Int)
        PALETTE_4COLOR
      = List.replicate 4 (List.replicate 4 3) :=
  (C21_atkinson_exact (List.replicate 16 [255, 0, 0]).flatten 4 4 (by decide) (by decide)
    (by decide)
    (by
      intro y hy x hx
      refine ⟨3, by decide, ?_⟩
      unfold pixel_is
      interval_cases y <;> interval_cases x <;> decide)).2.2.1.trans (by decide)

/-! ## Activation and the block number -/

theorem send_command_block_nr (c : Nat) (d : List Nat) (s : Reader) :
    (Reader.send_command c d s).2.block_nr = s.block_nr := by
  unfold Reader.send_command
  split <;> rfl

theorem checked_command_block_nr (c : Nat) (d : List Nat) (s : Reader) :
    (Reader.checked_command c d s).2.block_nr = s.block_nr := by
  have h := send_command_block_nr c d s
  unfold Reader.checked_command
  split
  · rename_i e s1 hc
    rw [hc] at h
    exact h
  · rename_i data s1 hc
    rw [hc] at h
    split <;> exact h

theorem in_set_protocol_block_nr (d : List Nat) (s : Reader) :
    (in_set_protocol d s).2.block_nr = s.block_nr := by
  unfold in_set_protocol
  split
  · rfl
  · exact checked_command_block_nr _ _ s

theorem reader_in_comm_rf_block_nr (d : List Nat) (t : Int) (s : Reader) :
    (Reader.in_comm_rf d t s).2.block_nr = s.block_nr := by
  unfold Reader.in_comm_rf
  simp only []
  have h := send_command_block_nr 0x04
    ([((min ((t + 1) * 10) 0xFFFF) % 65536).toNat &&& 0xFF,
      (((min ((t + 1) * 10) 0xFFFF) % 65536).toNat >>> 8) &&& 0xFF] ++ d) s
  split
  · rename_i e s1 hc
    rw [hc] at h
    exact h
  · rename_i result s1 hc
    rw [hc] at h
    split
    · exact h
    · split <;> exact h

theorem in_set_protocol_keeps (d : List Nat) (s s1 : Reader) (r : Except ReaderError Unit)
    (h : in_set_protocol d s = (r, s1)) : s1.block_nr = s.block_nr := by
  have h0 := in_set_protocol_block_nr d s
  rw [h] at h0
  exact h0

theorem reader_in_comm_rf_keeps (d : List Nat) (t : Int) (s s1 : Reader)
    (r : Except ReaderError (List Nat)) (h : Reader.in_comm_rf d t s = (r, s1)) :
    s1.block_nr = s.block_nr := by
  have h0 := reader_in_comm_rf_block_nr d t s
  rw [h] at h0
  exact h0

theorem select_loop_block_nr (cmds : List Nat) :
    ∀ (sak : Nat) (s : Reader), (select_loop cmds sak s).2.block_nr = s.block_nr := by
  induction cmds with
  | nil => intro sak s; rfl
  | cons c more ih =>
    intro sak s
    rw [select_loop]
    split
    · rename_i e s1 h1
      exact in_set_protocol_keeps _ _ _ _ h1
    · rename_i u1 s1 h1
      have k1 := in_set_protocol_keeps _ _ _ _ h1
      split
      · rename_i e s2 h2
        exact (reader_in_comm_rf_keeps _ _ _ _ _ h2).trans k1
      · rename_i sdd_res s2 h2
        have k2 := (reader_in_comm_rf_keeps _ _ _ _ _ h2).trans k1
        split
        · exact k2
        · split
          · rename_i e s3 h3
            exact (in_set_protocol_keeps _ _ _ _ h3).trans k2
          · rename_i u3 s3 h3
            have k3 := (in_set_protocol_keeps _ _ _ _ h3).trans k2
            split
            · rename_i e s4 h4
              exact (reader_in_comm_rf_keeps _ _ _ _ _ h4).trans k3
            · rename_i sel_res s4 h4
              have k4 := (reader_in_comm_rf_keeps _ _ _ _ _ h4).trans k3
              split
              · exact k4
              · split
                · exact k4
                · exact (ih _ s4).trans k4

theorem sense_block_nr (s : Reader) :
    (sense_and_activate_target s).2.block_nr = s.block_nr := by
  unfold sense_and_activate_target
  split
  · rename_i e s1 h1
    have k := checked_command_block_nr 0x00 [0x02, 0x03, 0x0F, 0x03] s
    unfold in_set_rf at h1
    rw [h1] at k
    exact k
  · rename_i u1 s1 h1
    have k1 : s1.block_nr = s.block_nr := by
      have k := checked_command_block_nr 0x00 [0x02, 0x03, 0x0F, 0x03] s
      unfold in_set_rf at h1
      rw [h1] at k
      exact k
    split
    · rename_i e s2 h2
      exact (in_set_protocol_keeps _ _ _ _ h2).trans k1
    · rename_i u2 s2 h2
      have k2 := (in_set_protocol_keeps _ _ _ _ h2).trans k1
      split
      · rename_i e s3 h3
        exact (in_set_protocol_keeps _ _ _ _ h3).trans k2
      · rename_i u3 s3 h3
        have k3 := (in_set_protocol_keeps _ _ _ _ h3).trans k2
        split
        · rename_i e s4 h4
          exact (reader_in_comm_rf_keeps _ _ _ _ _ h4).trans k3
        · rename_i sens_res s4 h4
          have k4 := (reader_in_comm_rf_keeps _ _ _ _ _ h4).trans k3
          split
          · exact k4
          · split
            · rename_i e s5 h5
              exact (in_set_protocol_keeps _ _ _ _ h5).trans k4
            · rename_i u5 s5 h5
              have k5 := (in_set_protocol_keeps _ _ _ _ h5).trans k4
              have k6 := select_loop_block_nr [0x93, 0x95, 0x97] 0 s5
              split
              · rename_i e s6 h6
                rw [h6] at k6
                exact k6.trans k5
              · rename_i s6 h6
                rw [h6] at k6
                exact k6.trans k5
              · rename_i sak s6 h6
                rw [h6] at k6
                have k7 := k6.trans k5
                split
                · exact k7
                · split
                  · rename_i e s7 h7
                    exact (reader_in_comm_rf_keeps _ _ _ _ _ h7).trans k7
                  · rename_i ats s7 h7
                    have k8 := (reader_in_comm_rf_keeps _ _ _ _ _ h7).trans k7
                    split <;> exact k8

theorem switch_rf_keeps (b : Bool) (s s1 : Reader) (r : Except ReaderError Unit)
    (h : switch_rf b s = (r, s1)) : s1.block_nr = s.block_nr := by
  have k := checked_command_block_nr 0x06 [if b then 1 else 0] s
  unfold switch_rf at h
  rw [h] at k
  exact k

theorem open_loop_block_nr (n : Nat) :
    ∀ s : Reader, (open_loop n s).2.block_nr = s.block_nr := by
  induction n with
  | zero => intro s; rfl
  | succ n ih =>
    intro s
    rw [open_loop]
    split
    · rename_i e s1 h1
      exact switch_rf_keeps _ _ _ _ h1
    · rename_i u1 s1 h1
      have k1 := switch_rf_keeps _ _ _ _ h1
      have k2 := sense_block_nr s1
      split
      · rename_i s2 h2
        rw [h2] at k2
        exact k2.trans k1
      · rename_i r2 s2 _ h2
        rw [h2] at k2
        have k3 := k2.trans k1
        split
        · rename_i e s3 h3
          exact (switch_rf_keeps _ _ _ _ h3).trans k3
        · rename_i u3 s3 h3
          exact (ih s3).trans ((switch_rf_keeps _ _ _ _ h3).trans k3)

theorem open_block_nr (usb_ok : Bool) (s : Reader) :
    (Rcs380Transport.open usb_ok s).2.block_nr = s.block_nr := by
  unfold Rcs380Transport.open
  split
  · split
    · rename_i e s1 h1
      have k := checked_command_block_nr 0x2A [1] s
      unfold set_command_type at h1
      rw [h1] at k
      exact k
    · rename_i u1 s1 h1
      have k1 : s1.block_nr = s.block_nr := by
        have k := checked_command_block_nr 0x2A [1] s
        unfold set_command_type at h1
        rw [h1] at k
        exact k
      have k2 : (get_firmware_version s1).2.block_nr = s1.block_nr := by
        have k := send_command_block_nr 0x20 [] s1
        unfold get_firmware_version
        split
        · rename_i e s2 h2
          rw [h2] at k
          exact k
        · rename_i v s2 h2
          rw [h2] at k
          exact k
      split
      · rename_i e s2 h2
        rw [h2] at k2
        exact k2.trans k1
      · rename_i u2 s2 h2
        rw [h2] at k2
        have k3 := k2.trans k1
        split
        · rename_i e s3 h3
          exact (switch_rf_keeps _ _ _ _ h3).trans k3
        · rename_i u3 s3 h3
          exact (open_loop_block_nr 100 s3).trans ((switch_rf_keeps _ _ _ _ h3).trans k3)
  · rfl

/-- A reader script on which `open` finds and activates a card in its first round. -/
theorem open_succeeds (N : Nat) :
    Rcs380Transport.open true
        ⟨N, [some [], some [], some [], some [], some [], some [], some [],
              some [0, 0, 0, 0, 0, 0x44, 0x00], some [], some [],
              some [0, 0, 0, 0, 0, 0x04, 0xA1, 0xB2, 0xC3, 0xD4], some [],
              some [0, 0, 0, 0, 0, 0x20], some [0, 0, 0, 0, 0, 0x05, 0x78, 0x80, 0x70, 0x02]],
          []⟩
      = (.ok (), ⟨N, [], [(0x2A, [1]), (0x20, []), (0x06, [0]), (0x06, [1]),
          (0x00, [0x02, 0x03, 0x0F, 0x03]), (0x02, IN_SET_PROTOCOL_DEFAULTS),
          (0x02, [0x00, 0x06, 0x01, 0x00, 0x02, 0x00, 0x05, 0x01, 0x07, 0x07]),
          (0x04, [0x36, 0x01, 0x26]), (0x02, [0x07, 0x08, 0x04, 0x01]),
          (0x02, [0x01, 0x00, 0x02, 0x00]), (0x04, [0x36, 0x01, 0x93, 0x20]),
          (0x02, [0x01, 0x01, 0x02, 0x01]),
          (0x04, [0x36, 0x01, 0x93, 0x70, 0x04, 0xA1, 0xB2, 0xC3, 0xD4]),
          (0x04, [0x36, 0x01, 0xE0, 0x80])]⟩) := by
  rfl

/-- C31, as stated, fails: one APDU exchange leaves the block number of a new
transport at 1 (the poll APDU answered by `02 90 00`), and an `open()` that then finds
and activates a card, here in its first round, returns normally with the block number
still 1. The field `block_nr` of `Link` and of `Reader` is the one member `block_nr_`. -/
theorem C31_reopen_counterexample :
    (∃ out s2,
        Rcs380Transport.send_apdu build_poll_apdu ⟨0, [some [0x02, 0x90, 0x00]], []⟩
            = (.ok out, s2)
          ∧ s2.block_nr = 1)
      ∧ (Rcs380Transport.open true
          ⟨1, [some [], some [], some [], some [], some [], some [], some [],
                some [0, 0, 0, 0, 0, 0x44, 0x00], some [], some [],
                some [0, 0, 0, 0, 0, 0x04, 0xA1, 0xB2, 0xC3, 0xD4], some [],
                some [0, 0, 0, 0, 0, 0x20],
                some [0, 0, 0, 0, 0, 0x05, 0x78, 0x80, 0x70, 0x02]], []⟩).1 = .ok ()
      ∧ (Rcs380Transport.open true
          ⟨1, [some [], some [], some [], some [], some [], some [], some [],
                some [0, 0, 0, 0, 0, 0x44, 0x00], some [], some [],
                some [0, 0, 0, 0, 0, 0x04, 0xA1, 0xB2, 0xC3, 0xD4], some [],
                some [0, 0, 0, 0, 0, 0x20],
                some [0, 0, 0, 0, 0, 0x05, 0x78, 0x80, 0x70, 0x02]], []⟩).2.block_nr = 1
      ∧ (1 : Nat) ≠ 0 := by
  refine ⟨?_, ?_, ?_, by decide⟩
  · obtain ⟨s2, h, hb, _⟩ := one_piece_run (rcs380_apdu_bytes build_poll_apdu)
      (by decide) (by decide) 0
    exact ⟨[], s2, h, by rw [hb]; decide⟩
  · rw [open_succeeds 1]
  · rw [open_succeeds 1]

/-- C31, amended: `open()` never writes the block number. Whether it succeeds or
fails, the block number after the call is the block number before it; so it is 0 after
`open()` on a transport whose block number is 0, as it is on a newly constructed one,
and 1 when earlier exchanges left it at 1. -/
theorem C31_open_keeps_block_number (usb_ok : Bool) (s : Reader) :
    (Rcs380Transport.open usb_ok s).2.block_nr = s.block_nr
      ∧ (s.block_nr = 0 → (Rcs380Transport.open usb_ok s).2.block_nr = 0)
      ∧ (s.block_nr = 1 → (Rcs380Transport.open usb_ok s).2.block_nr = 1) := by
  have h := open_block_nr usb_ok s
  exact ⟨h, fun h0 => h.trans h0, fun h1 => h.trans h1⟩

theorem C31_open_keeps_block_number_witness :
    (Rcs380Transport.open true
        ⟨0, [some [], some [], some [], some [], some [], some [], some [],
              some [0, 0, 0, 0, 0, 0x44, 0x00], some [], some [],
              some [0, 0, 0, 0, 0, 0x04, 0xA1, 0xB2, 0xC3, 0xD4], some [],
              some [0, 0, 0, 0, 0, 0x20],
              some [0, 0, 0, 0, 0, 0x05, 0x78, 0x80, 0x70, 0x02]], []⟩).1 = .ok ()
      ∧ (Rcs380Transport.open true
        ⟨0, [some [], some [], some [], some [], some [], some [], some [],
              some [0, 0, 0, 0, 0, 0x44, 0x00], some [], some [],
              some [0, 0, 0, 0, 0, 0x04, 0xA1, 0xB2, 0xC3, 0xD4], some [],
              some [0, 0, 0, 0, 0, 0x20],
              some [0, 0, 0, 0, 0, 0x05, 0x78, 0x80, 0x70, 0x02]], []⟩).2.block_nr = 0 :=
  ⟨by rw [open_succeeds 0],
    (C31_open_keeps_block_number true
      ⟨0, [some [], some [], some [], some [], some [], some [], some [],
            some [0, 0, 0, 0, 0, 0x44, 0x00], some [], some [],
            some [0, 0, 0, 0, 0, 0x04, 0xA1, 0xB2, 0xC3, 0xD4], some [],
            some [0, 0, 0, 0, 0, 0x20],
            some [0, 0, 0, 0, 0, 0x05, 0x78, 0x80, 0x70, 0x02]], []⟩).2.1 rfl⟩

/-! ## Reads that split a frame -/

/-- C33 at a failing split: the stream `ACK ++ build_frame([D7, 2B, 09, 08, 07])`
arriving whole is answered with the body `09 08 07`; arriving as a first read of 12
bytes (the ACK and the first six bytes of the data frame) and a second read with the
rest, it is not. After the first read the scan sees a frame start shorter than 10
bytes, takes its first byte for an invalid byte and erases it, so the frame is never
recognised and `send_command` runs into its deadline. A frame start of 10 bytes or more
is kept until the rest arrives. -/
theorem C33_split_header_lost :
    ACK_FRAME ++ build_frame ([0xD7, 0x2A + 1] ++ [9, 8, 7])
        = [0x00, 0x00, 0xFF, 0x00, 0xFF, 0x00, 0x00, 0x00, 0xFF, 0xFF, 0xFF, 0x05] ++
          [0x00, 0xFB, 0xD7, 0x2B, 9, 8, 7, 0xE6, 0x00]
      ∧ send_command_reads 0x2A
          [[0x00, 0x00, 0xFF, 0x00, 0xFF, 0x00, 0x00, 0x00, 0xFF, 0xFF, 0xFF, 0x05] ++
            [0x00, 0xFB, 0xD7, 0x2B, 9, 8, 7, 0xE6, 0x00]] [] = some [9, 8, 7]
      ∧ scan_buffer 0x2A
          ([] ++ [0x00, 0x00, 0xFF, 0x00, 0xFF, 0x00, 0x00, 0x00, 0xFF, 0xFF, 0xFF, 0x05])
          = (none, [0x00, 0xFF, 0xFF, 0xFF, 0x05])
      ∧ send_command_reads 0x2A
          [[0x00, 0x00, 0xFF, 0x00, 0xFF, 0x00, 0x00, 0x00, 0xFF, 0xFF, 0xFF, 0x05],
            [0x00, 0xFB, 0xD7, 0x2B, 9, 8, 7, 0xE6, 0x00]] [] = none
      ∧ scan_buffer 0x2A
          ([] ++ [0x00, 0x00, 0xFF, 0x00, 0xFF, 0x00, 0x00, 0x00, 0xFF, 0xFF, 0xFF, 0x05,
            0x00, 0xFB, 0xD7, 0x2B])
          = (none, [0x00, 0x00, 0xFF, 0xFF, 0xFF, 0x05, 0x00, 0xFB, 0xD7, 0x2B]) := by
  have hwhole : ACK_FRAME ++ build_frame ([0xD7, 0x2A + 1] ++ [9, 8, 7])
      = [0x00, 0x00, 0xFF, 0x00, 0xFF, 0x00, 0x00, 0x00, 0xFF, 0xFF, 0xFF, 0x05] ++
        [0x00, 0xFB, 0xD7, 0x2B, 9, 8, 7, 0xE6, 0x00] := by
    rw [build_frame_eq]
    decide
  have hone : scan_buffer 0x2A
      ([] ++ ([0x00, 0x00, 0xFF, 0x00, 0xFF, 0x00, 0x00, 0x00, 0xFF, 0xFF, 0xFF, 0x05] ++
        [0x00, 0xFB, 0xD7, 0x2B, 9, 8, 7, 0xE6, 0x00])) = (some [9, 8, 7], []) := by
    rw [← hwhole, List.nil_append]
    have h := scan_garbage_ack 0x2A [] (build_frame ([0xD7, 0x2A + 1] ++ [9, 8, 7]))
      (fun i => by simp)
    rw [List.nil_append] at h
    rw [h, build_frame_data_frame _ (by decide)]
    exact scan_data_frame 0x2A [9, 8, 7] _ _ _ (by decide)
  have hfirst : scan_buffer 0x2A
      ([] ++ [0x00, 0x00, 0xFF, 0x00, 0xFF, 0x00, 0x00, 0x00, 0xFF, 0xFF, 0xFF, 0x05])
      = (none, [0x00, 0xFF, 0xFF, 0xFF, 0x05]) := by
    rw [scan_buffer]
    simp [search_start]
    rw [scan_buffer]
    simp [search_start]
    rw [scan_buffer]
    simp
  have hsecond : scan_buffer 0x2A
      ([0x00, 0xFF, 0xFF, 0xFF, 0x05] ++ [0x00, 0xFB, 0xD7, 0x2B, 9, 8, 7, 0xE6, 0x00])
      = (none, [0x00, 0xFF, 0xFF, 0xFF, 0x05, 0x00, 0xFB, 0xD7, 0x2B, 9, 8, 7, 0xE6, 0x00]) := by
    rw [scan_buffer]
    simp [search_start]
  refine ⟨hwhole, ?_, hfirst, ?_, ?_⟩
  · rw [send_command_reads, hone]
  · rw [send_command_reads, hfirst]
    simp only []
    rw [send_command_reads, hsecond]
    simp only [send_command_reads]
  · rw [scan_buffer]
    simp [search_start]
    rw [scan_buffer]
    simp [search_start]

/-! ## Reads of a response -/

theorem wtx_loop_short (b0 : Nat) (s : Link) (h : b0 &&& 0xFE = 0xF2) :
    wtx_loop [b0] s = (.error .undefined_read, s) := by
  rw [wtx_loop, if_pos ⟨List.cons_ne_nil _ _, h⟩]
  rfl

/-- C34 at a failing input: a card that answers the I-block of the poll APDU with the
single byte `F2`, or `F3`, makes the WTX loop of `_send_apdu_impl` read `response[1]`
of a one-byte response, which is outside its bounds; the embedding marks that read
with `undefined_read`. -/
theorem C34_wtx_second_byte_read :
    send_apdu_impl [0xF0, 0xDE, 0x00, 0x00, 0x01] ⟨0, [some [0xF2]], []⟩
        = (.error .undefined_read,
            ⟨0, [], [⟨[0x02, 0xF0, 0xDE, 0x00, 0x00, 0x01], 5000, some [0xF2]⟩]⟩)
      ∧ send_apdu_impl [0xF0, 0xDE, 0x00, 0x00, 0x01] ⟨0, [some [0xF3]], []⟩
        = (.error .undefined_read,
            ⟨0, [], [⟨[0x02, 0xF0, 0xDE, 0x00, 0x00, 0x01], 5000, some [0xF3]⟩]⟩)
      ∧ ([0xF2] : List Nat)[1]? = none ∧ ([0xF3] : List Nat)[1]? = none := by
  refine ⟨?_, ?_, rfl, rfl⟩
  · unfold send_apdu_impl
    rw [send_iblocks, if_pos (by decide)]
    simp only [in_comm_rf]
    rw [wtx_loop_short _ _ (by decide)]
    rfl
  · unfold send_apdu_impl
    rw [send_iblocks, if_pos (by decide)]
    simp only [in_comm_rf]
    rw [wtx_loop_short _ _ (by decide)]
    rfl

/-! ## parse_tlv on arbitrary bytes -/

theorem getElem?_eq_some_getD (l : List Nat) (i : Nat) (h : i < l.length) :
    l[i]? = some (l.getD i 0) := by
  rw [List.getD_eq_getElem l 0 h, List.getElem?_eq_getElem h]

/-- No read of the loop of `parse_tlv` is out of range. -/
theorem parse_tlv_loop_checked_eq (data : List Nat) (n : Nat) :
    ∀ (i : Nat) (m : TlvMap), data.length - i ≤ n →
      parse_tlv_loop_checked data i m = some (parse_tlv_loop data i m) := by
  induction n with
  | zero =>
    intro i m hn
    rw [parse_tlv_loop_checked, parse_tlv_loop, if_neg (by omega), if_neg (by omega)]
  | succ n ih =>
    intro i m hn
    rw [parse_tlv_loop_checked, parse_tlv_loop]
    by_cases h : i < data.length
    · rw [if_pos h, if_pos h, getElem?_eq_some_getD data i h]
      simp only []
      by_cases h1 : i + 1 ≥ data.length
      · rw [if_pos h1, if_pos h1]
      · rw [if_neg h1, if_neg h1, getElem?_eq_some_getD data (i + 1) (by omega)]
        simp only []
        by_cases h2 : i + 2 + data.getD (i + 1) 0 > data.length
        · rw [if_pos h2, if_pos h2]
        · rw [if_neg h2, if_neg h2]
          exact ih _ _ (by omega)
    · rw [if_neg h, if_neg h]

/-- The input from index `i` on is a run of complete records followed by nothing, by
a lone tag, or by a record whose declared length exceeds what is left; the loop stores
the complete records in order and ignores the rest. -/
theorem parse_tlv_loop_prefix (data : List Nat) (hbytes : ∀ x ∈ data, x < 256) (n : Nat) :
    ∀ (i : Nat) (m : TlvMap), i ≤ data.length → data.length - i ≤ n →
      ∃ (records : List (Nat × List Nat)) (junk : List Nat),
        data.drop i = serialize_tlv records ++ junk
          ∧ (∀ r ∈ records, r.1 < 256 ∧ r.2.length ≤ 255)
          ∧ (junk = [] ∨ junk.length = 1
              ∨ (2 ≤ junk.length ∧ junk.length < 2 + junk.getD 1 0))
          ∧ parse_tlv_loop data i m
              = records.foldl (fun (acc : TlvMap) (r : Nat × List Nat) => acc.set r.1 r.2) m := by
  induction n with
  | zero =>
    intro i m hi hn
    refine ⟨[], [], ?_, by simp, Or.inl rfl, ?_⟩
    · rw [List.drop_of_length_le (by omega)]; rfl
    · rw [parse_tlv_loop_done data i m (by omega)]; rfl
  | succ n ih =>
    intro i m hi hn
    by_cases h : i < data.length
    · by_cases h1 : i + 1 ≥ data.length
      · refine ⟨[], data.drop i, by simp [serialize_tlv], by simp,
          Or.inr (Or.inl (by rw [List.length_drop]; omega)), ?_⟩
        rw [parse_tlv_loop, if_pos h, if_pos h1]; rfl
      · have hjunk1 : (data.drop i).getD 1 0 = data.getD (i + 1) 0 := by
          rw [List.getD_eq_getElem _ _ (by rw [List.length_drop]; omega),
            List.getD_eq_getElem _ _ (by omega), List.getElem_drop]
        by_cases h2 : i + 2 + data.getD (i + 1) 0 > data.length
        · refine ⟨[], data.drop i, by simp [serialize_tlv], by simp,
            Or.inr (Or.inr ⟨by rw [List.length_drop]; omega, ?_⟩), ?_⟩
          · rw [hjunk1, List.length_drop]; omega
          · rw [parse_tlv_loop, if_pos h, if_neg h1, if_pos h2]; rfl
        · obtain ⟨records, junk, e1, e2, e3, e4⟩ :=
            ih (i + 2 + data.getD (i + 1) 0)
              (m.set (data.getD i 0) ((data.drop (i + 2)).take (data.getD (i + 1) 0)))
              (by omega) (by omega)
          have hlenb : data.getD (i + 1) 0 < 256 := by
            rw [List.getD_eq_getElem _ _ (by omega)]
            exact hbytes _ (List.getElem_mem _)
          have htagb : data.getD i 0 < 256 := by
            rw [List.getD_eq_getElem _ _ h]
            exact hbytes _ (List.getElem_mem _)
          have hvlen : ((data.drop (i + 2)).take (data.getD (i + 1) 0)).length
              = data.getD (i + 1) 0 := by
            rw [List.length_take, List.length_drop]; omega
          refine ⟨(data.getD i 0, (data.drop (i + 2)).take (data.getD (i + 1) 0)) :: records,
            junk, ?_, ?_, e3, ?_⟩
          · have hd0 : data.drop i = data.getD i 0 :: data.drop (i + 1) := by
              rw [List.getD_eq_getElem _ _ h]
              exact List.drop_eq_getElem_cons h
            have hd1 : data.drop (i + 1) = data.getD (i + 1) 0 :: data.drop (i + 2) := by
              rw [List.getD_eq_getElem _ _ (by omega)]
              exact List.drop_eq_getElem_cons (by omega)
            have hd2 : data.drop (i + 2)
                = (data.drop (i + 2)).take (data.getD (i + 1) 0)
                    ++ data.drop (i + 2 + data.getD (i + 1) 0) := by
              have hdd : data.drop (i + 2 + data.getD (i + 1) 0)
                  = (data.drop (i + 2)).drop (data.getD (i + 1) 0) := by
                rw [List.drop_drop]
              rw [hdd, List.take_append_drop]
            rw [hd0, hd1, serialize_tlv_cons _ _ htagb (by simp only []; rw [hvlen]; omega)]
            simp only [List.cons_append, List.nil_append, List.append_assoc]
            rw [hvlen, ← e1, ← hd2]
          · intro r hr
            rcases List.mem_cons.mp hr with hr | hr
            · rw [hr]
              exact ⟨htagb, by rw [hvlen]; omega⟩
            · exact e2 r hr
          · rw [parse_tlv_loop, if_pos h, if_neg h1, if_neg h2, e4]
            rfl
    · refine ⟨[], [], ?_, by simp, Or.inl rfl, ?_⟩
      · rw [List.drop_of_length_le (by omega)]; rfl
      · rw [parse_tlv_loop_done data i m (by omega)]; rfl

theorem foldl_set_other (records : List (Nat × List Nat)) (t : Nat) :
    (∀ r ∈ records, r.1 ≠ t) → ∀ m : TlvMap,
      records.foldl (fun (acc : TlvMap) (r : Nat × List Nat) => acc.set r.1 r.2) m t = m t := by
  induction records with
  | nil => intro _ m; rfl
  | cons r rest ih =>
    intro h m
    rw [List.foldl_cons, ih (fun x hx => h x (List.mem_cons_of_mem r hx))]
    unfold TlvMap.set
    rw [if_neg (fun hc => h r (List.mem_cons_self r rest) hc.symm)]

theorem foldl_set_last (pre post : List (Nat × List Nat)) (t : Nat) (v : List Nat)
    (h : ∀ r ∈ post, r.1 ≠ t) (m : TlvMap) :
    (pre ++ (t, v) :: post).foldl
        (fun (acc : TlvMap) (r : Nat × List Nat) => acc.set r.1 r.2) m t = some v := by
  rw [List.foldl_append, List.foldl_cons, foldl_set_other post t h]
  unfold TlvMap.set
  rw [if_pos rfl]

/-- C35: `parse_tlv` is total and reads no byte outside its input (the loop with
checked reads returns the same map and never fails). Every byte input is a run of
complete records `tag, length, value[length]` followed by nothing, by a lone tag, or by
a record whose declared length exceeds the bytes left; `parse_tlv` returns the map
built from the complete records in order, a later record overriding an earlier one
with the same tag, and ignores the incomplete record and everything after it. -/
theorem C35_parse_tlv_total (data : List Nat) (hbytes : ∀ x ∈ data, x < 256) :
    parse_tlv_checked data = some (parse_tlv data)
      ∧ ∃ (records : List (Nat × List Nat)) (junk : List Nat),
          data = serialize_tlv records ++ junk
            ∧ (∀ r ∈ records, r.1 < 256 ∧ r.2.length ≤ 255)
            ∧ (junk = [] ∨ junk.length = 1
                ∨ (2 ≤ junk.length ∧ junk.length < 2 + junk.getD 1 0))
            ∧ parse_tlv data
                = records.foldl (fun (acc : TlvMap) (r : Nat × List Nat) => acc.set r.1 r.2)
                    TlvMap.empty
            ∧ (∀ (pre post : List (Nat × List Nat)) (t : Nat) (v : List Nat),
                records = pre ++ (t, v) :: post → (∀ r ∈ post, r.1 ≠ t) →
                parse_tlv data t = some v)
            ∧ (∀ t, (∀ r ∈ records, r.1 ≠ t) → parse_tlv data t = none) := by
  refine ⟨parse_tlv_loop_checked_eq data data.length 0 TlvMap.empty (by omega), ?_⟩
  obtain ⟨records, junk, e1, e2, e3, e4⟩ :=
    parse_tlv_loop_prefix data hbytes data.length 0 TlvMap.empty (by omega) (by omega)
  rw [List.drop_zero] at e1
  have e5 : parse_tlv data
      = records.foldl (fun (acc : TlvMap) (r : Nat × List Nat) => acc.set r.1 r.2)
          TlvMap.empty := e4
  refine ⟨records, junk, e1, e2, e3, e5, ?_, ?_⟩
  · intro pre post t v hrec hpost
    rw [e5, hrec]
    exact foldl_set_last pre post t v hpost TlvMap.empty
  · intro t ht
    rw [e5, foldl_set_other records t ht]
    rfl

theorem C35_parse_tlv_total_witness :
    parse_tlv_checked [0xA0, 0x01, 0x07, 0xA0, 0x01, 0x09, 0xC0, 0x05, 0x01]
        = some (parse_tlv [0xA0, 0x01, 0x07, 0xA0, 0x01, 0x09, 0xC0, 0x05, 0x01])
      ∧ ∃ (records : List (Nat × List Nat)) (junk : List Nat),
          [0xA0, 0x01, 0x07, 0xA0, 0x01, 0x09, 0xC0, 0x05, 0x01]
              = serialize_tlv records ++ junk
            ∧ parse_tlv [0xA0, 0x01, 0x07, 0xA0, 0x01, 0x09, 0xC0, 0x05, 0x01]
                = records.foldl (fun (acc : TlvMap) (r : Nat × List Nat) => acc.set r.1 r.2)
                    TlvMap.empty :=
  have h := C35_parse_tlv_total [0xA0, 0x01, 0x07, 0xA0, 0x01, 0x09, 0xC0, 0x05, 0x01]
    (by decide)
  ⟨h.1, h.2.elim fun records hr => hr.elim fun junk hj =>
    ⟨records, junk, hj.1, hj.2.2.2.1⟩⟩

/-! ## Error diffusion -/

theorem getD_set_eq {α : Type} (l : List α) (i j : Nat) (a d : α) :
    (l.set i a).getD j d = if i = j ∧ i < l.length then a else l.getD j d := by
  simp only [List.getD_eq_getElem?_getD, List.getElem?_set]
  by_cases h : i = j
  · by_cases h2 : i < l.length
    · simp [h, h2]
      subst h
      simp [h2]
    · subst h
      simp [h2, List.getElem?_eq_none (not_lt.mp h2)]
  · simp [h]

theorem qrect_row (m : List (List ℚ)) (H W y : Nat) (h : QRect m H W) (hy : y < H) :
    (m.getD y []).length = W := by
  rw [List.getD_eq_getElem _ _ (by rw [h.1]; exact hy)]
  exact h.2 _ (List.getElem_mem _)

theorem grid_add_rect (m : List (List ℚ)) (H W y0 x0 : Nat) (v : ℚ) (h : QRect m H W)
    (hy : y0 < H) : QRect (grid_add m y0 x0 v) H W := by
  unfold grid_add
  refine ⟨by rw [List.length_set]; exact h.1, ?_⟩
  intro row hrow
  rcases List.mem_or_eq_of_mem_set hrow with h1 | h1
  · exact h.2 row h1
  · rw [h1, List.length_set]
    exact qrect_row m H W y0 h hy

theorem grid_add_entry (m : List (List ℚ)) (H W y0 x0 : Nat) (v : ℚ) (h : QRect m H W)
    (hy : y0 < H) (hx : x0 < W) (y1 x1 : Nat) :
    acc_at (grid_add m y0 x0 v) y1 x1
      = acc_at m y1 x1 + (if y1 = y0 ∧ x1 = x0 then v else 0) := by
  unfold acc_at grid_add
  rw [getD_set_eq]
  by_cases hy1 : y0 = y1
  · subst hy1
    rw [if_pos ⟨rfl, by rw [h.1]; exact hy⟩, getD_set_eq]
    by_cases hx1 : x0 = x1
    · subst hx1
      rw [if_pos ⟨rfl, by rw [qrect_row m H W y0 h hy]; exact hx⟩, if_pos ⟨rfl, rfl⟩]
    · rw [if_neg (fun hc => hx1 hc.1), if_neg (fun hc => hx1 hc.2.symm), add_zero]
  · rw [if_neg (fun hc => hy1 hc.1), if_neg (fun hc => hy1 hc.1.symm), add_zero]

/-- One channel under the loop of `distribute`: the grid keeps its shape, and an
entry grows by `v` once for every offset that leads from `(x, y)` to it. -/
theorem channel_fold (W H x y : Nat) (v : ℚ) (offs : List (Int × Int)) :
    ∀ m : List (List ℚ), QRect m H W →
      QRect (offs.foldl (fun (m1 : List (List ℚ)) (off : Int × Int) =>
          if 0 ≤ (x : Int) + off.1 ∧ (x : Int) + off.1 < (W : Int)
              ∧ 0 ≤ (y : Int) + off.2 ∧ (y : Int) + off.2 < (H : Int) then
            grid_add m1 ((y : Int) + off.2).toNat ((x : Int) + off.1).toNat v
          else m1) m) H W
        ∧ ∀ y1 x1, y1 < H → x1 < W →
            acc_at (offs.foldl (fun (m1 : List (List ℚ)) (off : Int × Int) =>
              if 0 ≤ (x : Int) + off.1 ∧ (x : Int) + off.1 < (W : Int)
                  ∧ 0 ≤ (y : Int) + off.2 ∧ (y : Int) + off.2 < (H : Int) then
                grid_add m1 ((y : Int) + off.2).toNat ((x : Int) + off.1).toNat v
              else m1) m) y1 x1
              = acc_at m y1 x1
                + (offs.map fun (off : Int × Int) =>
                    if (x : Int) + off.1 = (x1 : Int) ∧ (y : Int) + off.2 = (y1 : Int)
                    then v else 0).sum := by
  induction offs with
  | nil => intro m hm; exact ⟨hm, fun y1 x1 _ _ => by simp⟩
  | cons off rest ih =>
    intro m hm
    rw [List.foldl_cons]
    by_cases hin : 0 ≤ (x : Int) + off.1 ∧ (x : Int) + off.1 < (W : Int)
        ∧ 0 ≤ (y : Int) + off.2 ∧ (y : Int) + off.2 < (H : Int)
    · rw [if_pos hin]
      have hy0 : ((y : Int) + off.2).toNat < H := by omega
      have hx0 : ((x : Int) + off.1).toNat < W := by omega
      obtain ⟨r1, r2⟩ := ih _ (grid_add_rect m H W _ _ v hm hy0)
      refine ⟨r1, ?_⟩
      intro y1 x1 hy1 hx1
      rw [r2 y1 x1 hy1 hx1, grid_add_entry m H W _ _ v hm hy0 hx0, List.map_cons, List.sum_cons,
        add_assoc]
      congr 2
      by_cases hc : (x : Int) + off.1 = (x1 : Int) ∧ (y : Int) + off.2 = (y1 : Int)
      · rw [if_pos hc, if_pos ⟨by omega, by omega⟩]
      · rw [if_neg hc, if_neg (fun hd => hc ⟨by omega, by omega⟩)]
    · rw [if_neg hin]
      obtain ⟨r1, r2⟩ := ih m hm
      refine ⟨r1, ?_⟩
      intro y1 x1 hy1 hx1
      rw [r2 y1 x1 hy1 hx1, List.map_cons, List.sum_cons,
        if_neg (fun hd => hin ⟨by omega, by omega, by omega, by omega⟩), zero_add]

/-- The loop of `distribute`, channel by channel. -/
theorem distribute_channels (width height x y : Int) (er eg eb : ℚ)
    (offs : List (Int × Int)) :
    ∀ st : DitherState,
      offs.foldl
          (fun (s : DitherState) (off : Int × Int) =>
            let nx : Int := x + off.1
            let ny : Int := y + off.2
            if 0 ≤ nx ∧ nx < width ∧ 0 ≤ ny ∧ ny < height then
              { s with err_r := grid_add s.err_r ny.toNat nx.toNat (er * (1 / 8)),
                       err_g := grid_add s.err_g ny.toNat nx.toNat (eg * (1 / 8)),
                       err_b := grid_add s.err_b ny.toNat nx.toNat (eb * (1 / 8)) }
            else s)
          st
        = { err_r := offs.foldl (fun (m1 : List (List ℚ)) (off : Int × Int) =>
              if 0 ≤ x + off.1 ∧ x + off.1 < width ∧ 0 ≤ y + off.2 ∧ y + off.2 < height then
                grid_add m1 (y + off.2).toNat (x + off.1).toNat (er * (1 / 8))
              else m1) st.err_r,
            err_g := offs.foldl (fun (m1 : List (List ℚ)) (off : Int × Int) =>
              if 0 ≤ x + off.1 ∧ x + off.1 < width ∧ 0 ≤ y + off.2 ∧ y + off.2 < height then
                grid_add m1 (y + off.2).toNat (x + off.1).toNat (eg * (1 / 8))
              else m1) st.err_g,
            err_b := offs.foldl (fun (m1 : List (List ℚ)) (off : Int × Int) =>
              if 0 ≤ x + off.1 ∧ x + off.1 < width ∧ 0 ≤ y + off.2 ∧ y + off.2 < height then
                grid_add m1 (y + off.2).toNat (x + off.1).toNat (eb * (1 / 8))
              else m1) st.err_b,
            result := st.result } := by
  induction offs with
  | nil => intro st; rfl
  | cons off rest ih =>
    intro st
    rw [List.foldl_cons, ih]
    simp only [List.foldl_cons]
    by_cases hin : 0 ≤ x + off.1 ∧ x + off.1 < width ∧ 0 ≤ y + off.2 ∧ y + off.2 < height
    · simp only [if_pos hin]
    · simp only [if_neg hin]

theorem atkinson_indicator (x y x1 y1 : Int) (v : ℚ) :
    (ATKINSON_OFFSETS.map fun (off : Int × Int) =>
        if x + off.1 = x1 ∧ y + off.2 = y1 then v else 0).sum
      = if (x1 - x, y1 - y) ∈ ATKINSON_OFFSETS then v else 0 := by
  simp only [ATKINSON_OFFSETS, List.map_cons, List.map_nil, List.sum_cons, List.sum_nil,
    List.mem_cons, Prod.mk.injEq, List.mem_singleton, List.not_mem_nil, or_false]
  split_ifs <;> first | omega | simp

theorem dither_pixel_eq (W H : Nat) (palette : List Color) (st : DitherState) (y x : Nat) :
    dither_pixel (W : Int) (H : Int) palette st y x
      = distribute (W : Int) (H : Int) (x : Int) (y : Int) (pixel_error palette st y x).1
          (pixel_error palette st y x).2.1 (pixel_error palette st y x).2.2
          { st with result := grid_set st.result y x (pixel_choice palette st y x) } := rfl

theorem offset_bounds :
    ∀ off ∈ ATKINSON_OFFSETS, -1 ≤ off.1 ∧ off.1 ≤ 2 ∧ 0 ≤ off.2 ∧ off.2 ≤ 2 := by
  decide

/-- What one step of the Atkinson scan does to one channel. -/
theorem diffusion_channel (W H x y : Nat) (e : ℚ) (m : List (List ℚ)) (hm : QRect m H W) :
    QRect (ATKINSON_OFFSETS.foldl (fun (m1 : List (List ℚ)) (off : Int × Int) =>
        if 0 ≤ (x : Int) + off.1 ∧ (x : Int) + off.1 < (W : Int)
            ∧ 0 ≤ (y : Int) + off.2 ∧ (y : Int) + off.2 < (H : Int) then
          grid_add m1 ((y : Int) + off.2).toNat ((x : Int) + off.1).toNat (e * (1 / 8))
        else m1) m) H W
      ∧ (∀ y1 x1, y1 < H → x1 < W →
          acc_at (ATKINSON_OFFSETS.foldl (fun (m1 : List (List ℚ)) (off : Int × Int) =>
            if 0 ≤ (x : Int) + off.1 ∧ (x : Int) + off.1 < (W : Int)
                ∧ 0 ≤ (y : Int) + off.2 ∧ (y : Int) + off.2 < (H : Int) then
              grid_add m1 ((y : Int) + off.2).toNat ((x : Int) + off.1).toNat (e * (1 / 8))
            else m1) m) y1 x1
            = acc_at m y1 x1
              + (if ((x1 : Int) - (x : Int), (y1 : Int) - (y : Int)) ∈ ATKINSON_OFFSETS
                  then e / 8 else 0))
      ∧ (1 ≤ x → x + 2 < W → y + 2 < H →
          (ATKINSON_OFFSETS.map fun (off : Int × Int) =>
            acc_at (ATKINSON_OFFSETS.foldl (fun (m1 : List (List ℚ)) (off : Int × Int) =>
              if 0 ≤ (x : Int) + off.1 ∧ (x : Int) + off.1 < (W : Int)
                  ∧ 0 ≤ (y : Int) + off.2 ∧ (y : Int) + off.2 < (H : Int) then
                grid_add m1 ((y : Int) + off.2).toNat ((x : Int) + off.1).toNat (e * (1 / 8))
              else m1) m) ((y : Int) + off.2).toNat ((x : Int) + off.1).toNat
              - acc_at m ((y : Int) + off.2).toNat ((x : Int) + off.1).toNat).sum
            = 6 / 8 * e) := by
  obtain ⟨r1, r2⟩ := channel_fold W H x y (e * (1 / 8)) ATKINSON_OFFSETS m hm
  have hpoint : ∀ y1 x1, y1 < H → x1 < W →
      acc_at (ATKINSON_OFFSETS.foldl (fun (m1 : List (List ℚ)) (off : Int × Int) =>
        if 0 ≤ (x : Int) + off.1 ∧ (x : Int) + off.1 < (W : Int)
            ∧ 0 ≤ (y : Int) + off.2 ∧ (y : Int) + off.2 < (H : Int) then
          grid_add m1 ((y : Int) + off.2).toNat ((x : Int) + off.1).toNat (e * (1 / 8))
        else m1) m) y1 x1
        = acc_at m y1 x1
          + (if ((x1 : Int) - (x : Int), (y1 : Int) - (y : Int)) ∈ ATKINSON_OFFSETS
              then e / 8 else 0) := by
    intro y1 x1 hy1 hx1
    rw [r2 y1 x1 hy1 hx1, atkinson_indicator, mul_one_div]
  refine ⟨r1, hpoint, ?_⟩
  intro h1 h2 h3
  have hconst : ∀ off ∈ ATKINSON_OFFSETS,
      acc_at (ATKINSON_OFFSETS.foldl (fun (m1 : List (List ℚ)) (off : Int × Int) =>
        if 0 ≤ (x : Int) + off.1 ∧ (x : Int) + off.1 < (W : Int)
            ∧ 0 ≤ (y : Int) + off.2 ∧ (y : Int) + off.2 < (H : Int) then
          grid_add m1 ((y : Int) + off.2).toNat ((x : Int) + off.1).toNat (e * (1 / 8))
        else m1) m) ((y : Int) + off.2).toNat ((x : Int) + off.1).toNat
        - acc_at m ((y : Int) + off.2).toNat ((x : Int) + off.1).toNat = e / 8 := by
    intro off hoff
    obtain ⟨b1, b2, b3, b4⟩ := offset_bounds off hoff
    have e1 : ((((x : Int) + off.1).toNat : Nat) : Int) - (x : Int) = off.1 := by omega
    have e2 : ((((y : Int) + off.2).toNat : Nat) : Int) - (y : Int) = off.2 := by omega
    rw [hpoint _ _ (by omega) (by omega), e1, e2, if_pos hoff, add_sub_cancel_left]
  rw [List.map_congr_left hconst]
  simp only [ATKINSON_OFFSETS, List.map_cons, List.map_nil, List.sum_cons, List.sum_nil]
  ring

theorem cpp_round_eq (q : ℚ) (n : Int) (h0 : 0 ≤ q) (h1 : (n : ℚ) ≤ q + 1 / 2)
    (h2 : q + 1 / 2 < (n : ℚ) + 1) : cpp_round q = n := by
  unfold cpp_round
  rw [if_pos h0, Int.floor_eq_iff]
  exact ⟨h1, h2⟩

theorem gray_start :
    dither_start [100, 100, 100, 0, 0, 0, 0, 0, 0] ((3 : Nat) : Int) ((1 : Nat) : Int)
      = { err_r := [[100, 0, 0]], err_g := [[100, 0, 0]], err_b := [[100, 0, 0]],
          result := [[0, 0, 0]] } := by
  simp [dither_start, source_channel, List.range_succ]

theorem gray_first :
    dither_pixel ((3 : Nat) : Int) ((1 : Nat) : Int) PALETTE_4COLOR
        { err_r := [[100, 0, 0]], err_g := [[100, 0, 0]], err_b := [[100, 0, 0]],
          result := [[0, 0, 0]] } 0 0
      = { err_r := [[100, 25 / 2, 25 / 2]], err_g := [[100, 25 / 2, 25 / 2]],
          err_b := [[100, 25 / 2, 25 / 2]], result := [[0, 0, 0]] } := by
  have hq : cpp_round (100 : ℚ) = 100 := cpp_round_eq 100 100 (by norm_num) (by norm_num)
    (by norm_num)
  have hc : nearest_color 100 100 100 PALETTE_4COLOR = 0 := by decide
  simp only [dither_pixel, List.getD_cons_zero, hq]
  have hcl : clamp 100 0 255 = 100 := by decide
  rw [hcl, hc]
  simp [distribute, ATKINSON_OFFSETS, grid_add, grid_set, PALETTE_4COLOR]
  norm_num

theorem gray_second :
    dither_pixel ((3 : Nat) : Int) ((1 : Nat) : Int) PALETTE_4COLOR
        { err_r := [[100, 25 / 2, 25 / 2]], err_g := [[100, 25 / 2, 25 / 2]],
          err_b := [[100, 25 / 2, 25 / 2]], result := [[0, 0, 0]] } 0 1
      = { err_r := [[100, 25 / 2, 25 / 2 + 13 / 8]], err_g := [[100, 25 / 2, 25 / 2 + 13 / 8]],
          err_b := [[100, 25 / 2, 25 / 2 + 13 / 8]], result := [[0, 0, 0]] } := by
  have hq : cpp_round (25 / 2 : ℚ) = 13 := cpp_round_eq (25 / 2) 13 (by norm_num)
    (by norm_num) (by norm_num)
  have hc : nearest_color 13 13 13 PALETTE_4COLOR = 0 := by decide
  simp only [dither_pixel, List.getD_cons_zero, List.getD_cons_succ, hq]
  have hcl : clamp 13 0 255 = 13 := by decide
  rw [hcl, hc]
  simp [distribute, ATKINSON_OFFSETS, grid_add, grid_set, PALETTE_4COLOR]
  norm_num

theorem gray_choice :
    pixel_choice PALETTE_4COLOR
        { err_r := [[100, 25 / 2, 25 / 2]], err_g := [[100, 25 / 2, 25 / 2]],
          err_b := [[100, 25 / 2, 25 / 2]], result := [[0, 0, 0]] } 0 1 = 0 := by
  have hq : cpp_round (25 / 2 : ℚ) = 13 := cpp_round_eq (25 / 2) 13 (by norm_num)
    (by norm_num) (by norm_num)
  simp only [pixel_choice, quantized, List.getD_cons_zero, List.getD_cons_succ, hq]
  decide

/-- C32, as stated, fails: in the scan of the 3 by 1 image with pixels `(100,100,100)`,
`(0,0,0)`, `(0,0,0)`, the first step leaves the accumulators of pixel `(1, 0)` at
`25/2`; the step at `(1, 0)` chooses palette entry 0, black, and adds `13/8` per channel
to the accumulator of `(2, 0)`, which is `(round(25/2) - 0) / 8` and not
`(25/2 - 0) / 8`. -/
theorem C32_rounded_error_counterexample :
    dither_pixel ((3 : Nat) : Int) ((1 : Nat) : Int) PALETTE_4COLOR
        (dither_start [100, 100, 100, 0, 0, 0, 0, 0, 0] ((3 : Nat) : Int) ((1 : Nat) : Int)) 0 0
      = { err_r := [[100, 25 / 2, 25 / 2]], err_g := [[100, 25 / 2, 25 / 2]],
          err_b := [[100, 25 / 2, 25 / 2]], result := [[0, 0, 0]] }
    ∧ acc_at [[100, 25 / 2, 25 / 2]] 0 1 = 25 / 2
    ∧ pixel_choice PALETTE_4COLOR
        { err_r := [[100, 25 / 2, 25 / 2]], err_g := [[100, 25 / 2, 25 / 2]],
          err_b := [[100, 25 / 2, 25 / 2]], result := [[0, 0, 0]] } 0 1 = 0
    ∧ PALETTE_4COLOR.getD 0 ⟨0, 0, 0⟩ = ⟨0, 0, 0⟩
    ∧ acc_at (dither_pixel ((3 : Nat) : Int) ((1 : Nat) : Int) PALETTE_4COLOR
        { err_r := [[100, 25 / 2, 25 / 2]], err_g := [[100, 25 / 2, 25 / 2]],
          err_b := [[100, 25 / 2, 25 / 2]], result := [[0, 0, 0]] } 0 1).err_r 0 2
        = acc_at [[100, 25 / 2, 25 / 2]] 0 2 + 13 / 8
    ∧ (13 / 8 : ℚ) ≠ (25 / 2 - 0) / 8 := by
  refine ⟨?_, rfl, gray_choice, rfl, ?_, by norm_num⟩
  · rw [gray_start, gray_first]
  · rw [gray_second]
    rfl

/-- C32, amended: when `dither_atkinson` processes pixel `(x, y)` of an `H` by `W`
image and chooses palette entry `p`, it adds `e/8` per channel to the accumulator of
each of the six positions `(x+1,y)`, `(x+2,y)`, `(x-1,y+1)`, `(x,y+1)`, `(x+1,y+1)`,
`(x,y+2)` that lies inside the image and changes no other accumulator, where `e` is
the accumulator value at `(x, y)` rounded to the nearest integer and clamped to
`0 .. 255`, minus `p`; with all six neighbours in bounds the six increments add up to
`6/8` of `e`. Accumulators are exact rationals. -/
theorem C32_diffusion (W H : Nat) (palette : List Color) (st : DitherState) (y x : Nat)
    (hy : y < H) (hx : x < W) (hr : QRect st.err_r H W) (hg : QRect st.err_g H W)
    (hb : QRect st.err_b H W) :
    (dither_pixel (W : Int) (H : Int) palette st y x).result
        = grid_set st.result y x (pixel_choice palette st y x)
      ∧ (QRect (dither_pixel (W : Int) (H : Int) palette st y x).err_r H W
          ∧ QRect (dither_pixel (W : Int) (H : Int) palette st y x).err_g H W
          ∧ QRect (dither_pixel (W : Int) (H : Int) palette st y x).err_b H W)
      ∧ (∀ y1 x1, y1 < H → x1 < W →
          acc_at (dither_pixel (W : Int) (H : Int) palette st y x).err_r y1 x1
              = acc_at st.err_r y1 x1
                + (if ((x1 : Int) - (x : Int), (y1 : Int) - (y : Int)) ∈ ATKINSON_OFFSETS
                    then (pixel_error palette st y x).1 / 8 else 0)
            ∧ acc_at (dither_pixel (W : Int) (H : Int) palette st y x).err_g y1 x1
              = acc_at st.err_g y1 x1
                + (if ((x1 : Int) - (x : Int), (y1 : Int) - (y : Int)) ∈ ATKINSON_OFFSETS
                    then (pixel_error palette st y x).2.1 / 8 else 0)
            ∧ acc_at (dither_pixel (W : Int) (H : Int) palette st y x).err_b y1 x1
              = acc_at st.err_b y1 x1
                + (if ((x1 : Int) - (x : Int), (y1 : Int) - (y : Int)) ∈ ATKINSON_OFFSETS
                    then (pixel_error palette st y x).2.2 / 8 else 0))
      ∧ (1 ≤ x → x + 2 < W → y + 2 < H →
          (ATKINSON_OFFSETS.map fun (off : Int × Int) =>
              acc_at (dither_pixel (W : Int) (H : Int) palette st y x).err_r
                  ((y : Int) + off.2).toNat ((x : Int) + off.1).toNat
                - acc_at st.err_r ((y : Int) + off.2).toNat ((x : Int) + off.1).toNat).sum
              = 6 / 8 * (pixel_error palette st y x).1
            ∧ (ATKINSON_OFFSETS.map fun (off : Int × Int) =>
              acc_at (dither_pixel (W : Int) (H : Int) palette st y x).err_g
                  ((y : Int) + off.2).toNat ((x : Int) + off.1).toNat
                - acc_at st.err_g ((y : Int) + off.2).toNat ((x : Int) + off.1).toNat).sum
              = 6 / 8 * (pixel_error palette st y x).2.1
            ∧ (ATKINSON_OFFSETS.map fun (off : Int × Int) =>
              acc_at (dither_pixel (W : Int) (H : Int) palette st y x).err_b
                  ((y : Int) + off.2).toNat ((x : Int) + off.1).toNat
                - acc_at st.err_b ((y : Int) + off.2).toNat ((x : Int) + off.1).toNat).sum
              = 6 / 8 * (pixel_error palette st y x).2.2) := by
  have _hy := hy
  have _hx := hx
  rw [dither_pixel_eq]
  unfold distribute
  rw [distribute_channels]
  simp only []
  obtain ⟨a1, a2, a3⟩ := diffusion_channel W H x y (pixel_error palette st y x).1 st.err_r hr
  obtain ⟨b1, b2, b3⟩ := diffusion_channel W H x y (pixel_error palette st y x).2.1 st.err_g hg
  obtain ⟨c1, c2, c3⟩ := diffusion_channel W H x y (pixel_error palette st y x).2.2 st.err_b hb
  exact ⟨trivial, ⟨a1, b1, c1⟩,
    fun y1 x1 h1 h2 => ⟨a2 y1 x1 h1 h2, b2 y1 x1 h1 h2, c2 y1 x1 h1 h2⟩,
    fun h1 h2 h3 => ⟨a3 h1 h2 h3, b3 h1 h2 h3, c3 h1 h2 h3⟩⟩

theorem gray_grid_rect :
    QRect [[100, 100, 100, 100], [100, 100, 100, 100], [100, 100, 100, 100]] 3 4 := by
  refine ⟨rfl, ?_⟩
  intro row hrow
  simp only [List.mem_cons, List.mem_singleton, List.not_mem_nil, or_false, or_self] at hrow
  rw [hrow]
  rfl

theorem C32_diffusion_witness :
    (ATKINSON_OFFSETS.map fun (off : Int × Int) =>
        acc_at (dither_pixel ((4 : Nat) : Int) ((3 : Nat) : Int) PALETTE_4COLOR
          { err_r := [[100, 100, 100, 100], [100, 100, 100, 100], [100, 100, 100, 100]],
            err_g := [[100, 100, 100, 100], [100, 100, 100, 100], [100, 100, 100, 100]],
            err_b := [[100, 100, 100, 100], [100, 100, 100, 100], [100, 100, 100, 100]],
            result := [[0, 0, 0, 0], [0, 0, 0, 0], [0, 0, 0, 0]] } 0 1).err_r
            (((0 : Nat) : Int) + off.2).toNat (((1 : Nat) : Int) + off.1).toNat
          - acc_at [[100, 100, 100, 100], [100, 100, 100, 100], [100, 100, 100, 100]]
              (((0 : Nat) : Int) + off.2).toNat (((1 : Nat) : Int) + off.1).toNat).sum
      = 6 / 8 * (pixel_error PALETTE_4COLOR
          { err_r := [[100, 100, 100, 100], [100, 100, 100, 100], [100, 100, 100, 100]],
            err_g := [[100, 100, 100, 100], [100, 100, 100, 100], [100, 100, 100, 100]],
            err_b := [[100, 100, 100, 100], [100, 100, 100, 100], [100, 100, 100, 100]],
            result := [[0, 0, 0, 0], [0, 0, 0, 0], [0, 0, 0, 0]] } 0 1).1 :=
  ((C32_diffusion 4 3 PALETTE_4COLOR
      { err_r := [[100, 100, 100, 100], [100, 100, 100, 100], [100, 100, 100, 100]],
            err_g := [[100, 100, 100, 100], [100, 100, 100, 100], [100, 100, 100, 100]],
            err_b := [[100, 100, 100, 100], [100, 100, 100, 100], [100, 100, 100, 100]],
            result := [[0, 0, 0, 0], [0, 0, 0, 0], [0, 0, 0, 0]] } 0 1 (by decide) (by decide)
      gray_grid_rect gray_grid_rect gray_grid_rect).2.2.2
    (by decide) (by decide) (by decide)).1

end NfcEink
